import Mathlib

/-!
# adb transport core (`adb/transport.c`) and `libcutils/fs_config.c`

A shallow embedding of `adb/transport.c`: the packet framing codec
(`send_packet`, `check_header`, `check_data`), the transport selector
(`acquire_one_transport`), kick and unref, the registration actions, the device
table and its trackers, and the two pumps; and of `fs_config` with its two
tables. The properties of the specification are proved about these definitions.

Conventions of the embedding:

* a C `unsigned` is a `Nat`; the arithmetic that can leave the 32-bit range in
  the embedded code, the checksum accumulation and the increment of
  `sync_token`, is reduced `% 2 ^ 32`;
* a C `int` result is an `Int` (`0` accepts, `-1` rejects);
* `char *` strings are `Option String` (`none` is `NULL`), and a character of a
  `String` is a byte of the C string;
* the circular list `transport_list` is the `List` of its members in the order
  in which `t = transport_list.next; t != &transport_list; t = t->next` visits
  them;
* a transport or a tracker in the shared memory is named by its address, a
  `Nat`; calls of functions that are not in these files, and the calls through
  function pointers, are entries of a log, in program order;
* constants of headers that are not among the sources (`MAX_PAYLOAD`, `A_SYNC`,
  the `AID_` and `CAP_` values) are parameters.
-/

namespace Adb

/-! ## Packets -/

/-- The header `amessage` of a packet: six `unsigned` words. -/
structure amessage where
  command : Nat
  arg0 : Nat
  arg1 : Nat
  data_length : Nat
  data_check : Nat
  magic : Nat

/-- An `apacket`: the header and the payload buffer, seen the way the code reads
it, through the pointer `x = p->data`: `data i` is the value that `x[i]` holds,
and it is read as an `unsigned char`, that is `% 256`. -/
structure apacket where
  msg : amessage
  data : Nat → Nat

/-- The loop `while(count-- > 0) { sum += *x++; }` shared by `send_packet` and
`check_data`: `count` bytes are still to be read, `x` is the offset of the next
one in `p->data`, `sum` is the `unsigned` accumulator. -/
def sum_loop (data : Nat → Nat) : Nat → Nat → Nat → Nat
  | 0, _, sum => sum
  | count + 1, x, sum => sum_loop data count (x + 1) ((sum + data x % 256) % 2 ^ 32)

/-- The packet as `send_packet` leaves it: `magic` and `data_check` are filled
in, and it is this packet that `write_packet` then hands to the transport
socket. -/
def send_packet (p : apacket) : apacket :=
  let m1 : amessage := { p.msg with magic := p.msg.command ^^^ 0xffffffff }
  let count := m1.data_length
  let sum := sum_loop p.data count 0 0
  { p with msg := { m1 with data_check := sum } }

/-- The `check_header` function; `MAX_PAYLOAD` is the constant of `adb.h`. -/
def check_header (MAX_PAYLOAD : Nat) (p : apacket) : Int :=
  if p.msg.magic ≠ (p.msg.command ^^^ 0xffffffff) then -1
  else if p.msg.data_length > MAX_PAYLOAD then -1
  else 0

/-- The `check_data` function. -/
def check_data (p : apacket) : Int :=
  let count := p.msg.data_length
  let sum := sum_loop p.data count 0 0
  if sum ≠ p.msg.data_check then -1 else 0

/-! ## Transports and the registry -/

/-- The `transport_type` enumeration, as far as `transport.c` uses it. -/
inductive transport_type where
  | kTransportUsb
  | kTransportLocal
  | kTransportAny
  deriving DecidableEq, Repr

/-- The connection states `CS_*` of `adb.h`, as named values: the six states a
transport can be in, `CS_ANY` (only meaningful as a required state) and `other`
for an `int` that is none of the named constants. -/
inductive cs where
  | CS_ANY
  | CS_OFFLINE
  | CS_BOOTLOADER
  | CS_DEVICE
  | CS_HOST
  | CS_RECOVERY
  | CS_NOPERM
  | other (v : Int)
  deriving DecidableEq, Repr

open transport_type cs

/-- An entry `adisconnect` of the list `t->disconnects`: the callback `func`
(a function pointer) and the pointer that is passed back to it, the field
"opaque" of the C structure, here `context`. -/
structure adisconnect where
  func : Nat
  context : Nat
  deriving DecidableEq, Repr

/-- The fields of `atransport` that `transport.c` reads and writes. A fresh
transport comes from `calloc`: the integer fields are 0. `disconnects` is the
circular list `t->disconnects`, in the order from `t->disconnects.next` on. -/
structure atransport where
  serial : Option String
  type : transport_type
  connection_state : cs
  kicked : Int := 0
  ref_count : Int := 0
  sync_token : Nat := 0
  disconnects : List adisconnect := []
  usb : Nat := 0
  deriving DecidableEq, Repr

/-- The locals of `acquire_one_transport` that live across the scan, and the
out-parameter: `error_out = none` is a `NULL` pointer passed by the caller (no
message is stored then), `error_out = some e` holds the current `*error_out`,
where `e = none` is `NULL`. -/
structure scan_state where
  result : Option atransport
  ambiguous : Bool
  error_out : Option (Option String)
  deriving DecidableEq, Repr

/-- The guarded store `if (error_out) *error_out = msg;`. -/
def set_error (error_out : Option (Option String)) (msg : Option String) :
    Option (Option String) :=
  match error_out with
  | none => none
  | some _ => some msg

/-- The `for` loop of `acquire_one_transport` over the registry (lines 722-765):
the first argument of the recursion is the part of the list still to visit. A
`break` returns the state at once, `continue` and the end of the body recurse on
the rest. -/
def scan_loop (ttype : transport_type) (serial : Option String) :
    List atransport → scan_state → scan_state
  | [], st => st
  | t :: rest, st =>
    if t.connection_state = CS_NOPERM then
      scan_loop ttype serial rest
        { st with error_out := set_error st.error_out (some "insufficient permissions for device") }
    else
      match serial with
      | some s =>
        if t.serial = some s then
          { st with result := some t }
        else
          scan_loop ttype serial rest st
      | none =>
        if ttype = kTransportUsb ∧ t.type = kTransportUsb then
          if st.result.isSome then
            { result := none, ambiguous := true,
              error_out := set_error st.error_out (some "more than one device") }
          else
            scan_loop ttype serial rest { st with result := some t }
        else if ttype = kTransportLocal ∧ t.type = kTransportLocal then
          if st.result.isSome then
            { result := none, ambiguous := true,
              error_out := set_error st.error_out (some "more than one emulator") }
          else
            scan_loop ttype serial rest { st with result := some t }
        else if ttype = kTransportAny then
          if st.result.isSome then
            { result := none, ambiguous := true,
              error_out := set_error st.error_out (some "more than one device and emulator") }
          else
            scan_loop ttype serial rest { st with result := some t }
        else
          scan_loop ttype serial rest st

/-- The checks on the candidate after the loop (lines 768-781). -/
def check_candidate (state : cs) (st : scan_state) : scan_state :=
  match st.result with
  | none => st
  | some r =>
    let st1 : scan_state :=
      if r.connection_state = CS_OFFLINE then
        { st with result := none, error_out := set_error st.error_out (some "device offline") }
      else st
    match st1.result with
    | none => st1
    | some r1 =>
      if state ≠ CS_ANY ∧ r1.connection_state ≠ state then
        { st1 with result := none,
                   error_out := set_error st1.error_out (some "invalid device state") }
      else st1

/-- One pass from the label `retry:` to just before the final `if (result)`:
the error is reset to "device not found", the registry is scanned and the
candidate is checked. -/
def scan (state : cs) (ttype : transport_type) (serial : Option String)
    (transport_list : List atransport) (st : scan_state) : scan_state :=
  check_candidate state
    (scan_loop ttype serial transport_list
      { st with error_out := set_error st.error_out (some "device not found") })

/-- What a call of `acquire_one_transport` gives back: the returned pointer, the
final `*error_out`, and the `adb_sleep_ms` calls it made, in order. -/
structure acquired where
  result : Option atransport
  error_out : Option (Option String)
  sleeps : List Nat
  deriving DecidableEq, Repr

/-- The body of `acquire_one_transport` from `retry:` on. The registry can change
while the selector sleeps, so `transport_list k` is the registry that the scan
number `k` finds. `fuel` bounds the number of scans; `none` means that the
selector is still retrying when the fuel is used up. -/
def acquire_from (state : cs) (ttype : transport_type) (serial : Option String)
    (transport_list : Nat → List atransport) :
    Nat → Nat → scan_state → List Nat → Option acquired
  | 0, _, _, _ => none
  | fuel + 1, k, st, sleeps =>
    let st1 := scan state ttype serial (transport_list k) st
    if st1.result.isSome then
      some { result := st1.result, error_out := set_error st1.error_out none, sleeps := sleeps }
    else if state ≠ CS_ANY ∧ (serial.isSome ∨ st1.ambiguous = false) then
      acquire_from state ttype serial transport_list fuel (k + 1) st1 (sleeps ++ [1000])
    else
      some { result := st1.result, error_out := st1.error_out, sleeps := sleeps }

/-- The `acquire_one_transport` function: `result = NULL`, `ambiguous = 0`, then the
retry loop. -/
def acquire_one_transport (fuel : Nat) (transport_list : Nat → List atransport)
    (state : cs) (ttype : transport_type) (serial : Option String)
    (error_out : Option (Option String)) : Option acquired :=
  acquire_from state ttype serial transport_list fuel 0
    { result := none, ambiguous := false, error_out := error_out } []

/-! ## Kick, unref and the registration actions -/

/-- A record `tmsg` of the registration socket: a transport (its address) and an
action, 1 to register and 0 to remove. -/
structure tmsg where
  transport : Nat
  action : Int
  deriving DecidableEq, Repr

/-- What the functions below do to the outside, and the stores whose place in the
order of the statements matters; one entry per statement, in program order. A
transport is named by its address. `kick t` and `close t` are the calls
`t->kick(t)` and `t->close(t)`, `input_thread t` and `output_thread t` are the
calls of `adb_thread_create` that start the two pumps, `disconnect` is the call
`dis->func(dis->opaque, t)`, and `free t` stands for the release of the strings
of `t` and of `t` itself. -/
inductive event where
  | kick (t : Nat)
  | close (t : Nat)
  | transport_write_action (m : tmsg)
  | fdevent_remove (t : Nat)
  | adb_close (t : Nat)
  | ref_count_set (t : Nat) (v : Int)
  | adb_socketpair (t : Nat)
  | fdevent_install (t : Nat)
  | input_thread (t : Nat)
  | output_thread (t : Nat)
  | list_insert (t : Nat)
  | list_remove (t : Nat)
  | disconnect (func context t : Nat)
  | free (t : Nat)
  | update_transports
  deriving DecidableEq, Repr

/-- The memory that the functions share: the transports by address, the registry
`transport_list` as the addresses of its members in list order, and the log of
the events so far. -/
structure world where
  heap : Nat → atransport
  transport_list : List Nat
  log : List event

/-- The store `t->kicked = 1; t->kick(t);`. -/
def do_kick (t : Nat) (w : world) : world :=
  { w with heap := Function.update w.heap t { w.heap t with kicked := 1 },
           log := w.log ++ [event.kick t] }

/-- The `kick_transport` function; `t = none` is a `NULL` pointer. -/
def kick_transport (t : Option Nat) (w : world) : world :=
  match t with
  | none => w
  | some a =>
    if (w.heap a).kicked = 0 then
      let kicked := (w.heap a).kicked
      let w1 : world :=
        if kicked = 0 then
          { w with heap := Function.update w.heap a { w.heap a with kicked := 1 } }
        else w
      if kicked = 0 then { w1 with log := w1.log ++ [event.kick a] } else w1
    else w

/-- The `remove_transport` function: an action-0 record for the registration socket. -/
def remove_transport (transport : Nat) (w : world) : world :=
  { w with log := w.log ++ [event.transport_write_action { transport := transport, action := 0 }] }

/-- The `register_transport` function: an action-1 record for the registration socket. -/
def register_transport (transport : Nat) (w : world) : world :=
  { w with log := w.log ++ [event.transport_write_action { transport := transport, action := 1 }] }

/-- The `transport_unref` function. -/
def transport_unref (t : Option Nat) (w : world) : world :=
  match t with
  | none => w
  | some a =>
    let w1 : world :=
      { w with heap := Function.update w.heap a
                 { w.heap a with ref_count := (w.heap a).ref_count - 1 } }
    if (w1.heap a).ref_count = 0 then
      let w2 : world := if (w1.heap a).kicked = 0 then do_kick a w1 else w1
      let w3 : world := { w2 with log := w2.log ++ [event.close a] }
      remove_transport a w3
    else w1

/-- The loop of `close_usb_devices` over the registry. -/
def close_usb_devices_loop : List Nat → world → world
  | [], w => w
  | t :: rest, w =>
    close_usb_devices_loop rest (if (w.heap t).kicked = 0 then do_kick t w else w)

/-- The `close_usb_devices` function. -/
def close_usb_devices (w : world) : world :=
  close_usb_devices_loop w.transport_list w

/-- The `run_transport_disconnects` function: every entry of `t->disconnects` is
called with its context and `t`, from the head of the list on. -/
def run_transport_disconnects (t : Nat) (w : world) : world :=
  { w with log := w.log ++
      (w.heap t).disconnects.map (fun dis => event.disconnect dis.func dis.context t) }

/-- The `add_transport_disconnect` function: `dis` is linked in before the list
head `&t->disconnects`, that is as the last entry. -/
def add_transport_disconnect (t : Nat) (dis : adisconnect) (w : world) : world :=
  { w with heap := Function.update w.heap t
             { w.heap t with disconnects := (w.heap t).disconnects ++ [dis] } }

/-- The `remove_transport_disconnect` function: `dis` is unlinked from the list
that holds it, whichever transport that list belongs to; the argument `t` is not
read. An entry is named by its `func` and `context`, and it has one pair of
links, so it is in one list at most. -/
def remove_transport_disconnect (_t : Nat) (dis : adisconnect) (w : world) : world :=
  { w with heap := fun a => { w.heap a with disconnects := (w.heap a).disconnects.erase dis } }

/-- The `update_transports` function, as the event that the table is broadcast. -/
def update_transports (w : world) : world :=
  { w with log := w.log ++ [event.update_transports] }

/-- The `transport_registration_func` function for an event with `FDE_READ` set,
`m` being the record that `transport_read_action` has read. The unlinking of the
remove action is that of a transport that is linked in the list. -/
def transport_registration_func (m : tmsg) (w : world) : world :=
  let t := m.transport
  if m.action = 0 then
    let w1 : world := { w with log := w.log ++ [event.fdevent_remove t, event.adb_close t] }
    let w2 : world :=
      { w1 with transport_list := w1.transport_list.erase t,
                log := w1.log ++ [event.list_remove t] }
    let w3 := run_transport_disconnects t w2
    let w4 : world := { w3 with log := w3.log ++ [event.free t] }
    update_transports w4
  else
    let w1 : world :=
      if (w.heap t).connection_state ≠ CS_NOPERM then
        { w with heap := Function.update w.heap t { w.heap t with ref_count := 2 },
                 log := w.log ++ [event.ref_count_set t 2, event.adb_socketpair t,
                                  event.fdevent_install t, event.input_thread t,
                                  event.output_thread t] }
      else w
    let w2 : world :=
      { w1 with transport_list := w1.transport_list ++ [t],
                log := w1.log ++ [event.list_insert t] }
    let w3 : world :=
      { w2 with heap := Function.update w2.heap t { w2.heap t with disconnects := [] } }
    update_transports w3

/-- The loop of `unregister_usb_transport`: the member at which it breaks, the
first one with the handle `usb` and in state `CS_NOPERM`. The field `usb` of a
transport is the address of its `usb_handle`. -/
def unregister_usb_transport_loop (usb : Nat) (heap : Nat → atransport) :
    List Nat → Option Nat
  | [] => none
  | t :: rest =>
    if (heap t).usb = usb ∧ (heap t).connection_state = CS_NOPERM then some t
    else unregister_usb_transport_loop usb heap rest

/-- The `unregister_usb_transport` function: the member found is unlinked, under
the lock, by the caller itself. -/
def unregister_usb_transport (usb : Nat) (w : world) : world :=
  match unregister_usb_transport_loop usb w.heap w.transport_list with
  | none => w
  | some t =>
    { w with transport_list := w.transport_list.erase t,
             log := w.log ++ [event.list_remove t] }

/-- The registry as the selector and `list_transports` see it: the transports
themselves, in list order. -/
def registry (w : world) : List atransport :=
  w.transport_list.map w.heap

/-! ## The device table -/

/-- The `statename` function. -/
def statename (t : atransport) : String :=
  match t.connection_state with
  | CS_OFFLINE => "offline"
  | CS_BOOTLOADER => "bootloader"
  | CS_DEVICE => "device"
  | CS_HOST => "host"
  | CS_RECOVERY => "recovery"
  | CS_NOPERM => "no permissions"
  | _ => "unknown"

/-- The text that `snprintf(p, end - p, "%s\t%s\n", serial, statename(t))` formats
for one transport, `serial` being replaced when it is `NULL` or empty. A C string
is a `String` whose characters are its bytes. -/
def format_line (t : atransport) : String :=
  let serial : String :=
    match t.serial with
    | none => "????????????"
    | some s => if s = "" then "????????????" else s
  serial ++ "\t" ++ statename t ++ "\n"

/-- The loop of `list_transports`: `out` is the text between `buf` and `p`, and
`len`, the result of `snprintf`, is the length of the whole line, also when it
was cut. A line with `p + len >= end` is discarded by the `break` and the final
`p[0] = 0`. -/
def list_transports_loop (bufsize : Nat) : List atransport → String → String
  | [], out => out
  | t :: rest, out =>
    let len := (format_line t).length
    if out.length + len ≥ bufsize then out
    else list_transports_loop bufsize rest (out ++ format_line t)

/-- The `list_transports` function: the text left in `buf` and the returned
length `p - buf`. -/
def list_transports (bufsize : Nat) (transport_list : List atransport) : String × Nat :=
  let out := list_transports_loop bufsize transport_list ""
  (out, out.length)

/-! ## Device trackers -/

/-- The character that `%x` prints for a digit `d < 16`. -/
def hex_digit (d : Nat) : Char :=
  if d < 10 then Char.ofNat (48 + d) else Char.ofNat (87 + d)

/-- The text that the conversion `%04x` gives for a 32-bit value: its eight
hexadecimal digits, without the leading zeros among the first four. -/
def format_04x (len : Nat) : List Char :=
  let high := [len / 0x10000000 % 16, len / 0x1000000 % 16, len / 0x100000 % 16,
               len / 0x10000 % 16]
  let low := [len / 0x1000 % 16, len / 0x100 % 16, len / 0x10 % 16, len % 16]
  ((high.dropWhile (fun d => d == 0)) ++ low).map hex_digit

/-- The `list_transports_msg` function, for `bufferlen >= 4` as in its two
callers: the text left in `buffer` and the returned length. `head` is what
`snprintf(head, sizeof(head), "%04x", len)` leaves in `char head[5]`, the first
four characters of the conversion. -/
def list_transports_msg (bufferlen : Nat) (transport_list : List atransport) : String × Nat :=
  let r := list_transports (bufferlen - 4) transport_list
  let len := r.2
  let head := String.mk ((format_04x len).take 4)
  (head ++ r.1, len + 4)

/-- The field of a `device_tracker` that `transport.c` keeps itself. -/
structure device_tracker where
  update_needed : Int
  deriving DecidableEq, Repr

/-- A packet handed to the peer of a tracker by `peer->enqueue(peer, p)`: the
`len` bytes copied into `p->data`, and `p->len`. -/
structure enqueued where
  tracker : Nat
  data : String
  len : Nat
  deriving DecidableEq, Repr

/-- The trackers by address, the list `device_tracker_list` from its head on,
and the packets enqueued so far. -/
structure tracker_world where
  trackers : Nat → device_tracker
  device_tracker_list : List Nat
  sent : List enqueued

/-- The `device_tracker_send` function. What the peer does with the packet is
its own business: here it closes no tracker. -/
def device_tracker_send (tracker : Nat) (buffer : String) (len : Nat)
    (tw : tracker_world) : tracker_world :=
  { tw with sent := tw.sent ++
      [{ tracker := tracker, data := String.mk (buffer.data.take len), len := len }] }

/-- The `device_tracker_ready` function; `transport_list` is the registry at the
time of the call. -/
def device_tracker_ready (tracker : Nat) (transport_list : List atransport)
    (tw : tracker_world) : tracker_world :=
  if (tw.trackers tracker).update_needed > 0 then
    let tw1 : tracker_world :=
      { tw with trackers := Function.update tw.trackers tracker
                  { tw.trackers tracker with update_needed := 0 } }
    let m := list_transports_msg 1024 transport_list
    device_tracker_send tracker m.1 m.2 tw1
  else tw

/-- The `create_device_tracker` function; `tracker` is the address that `calloc`
returns. -/
def create_device_tracker (tracker : Nat) (tw : tracker_world) : tracker_world :=
  { tw with trackers := Function.update tw.trackers tracker { update_needed := 1 },
            device_tracker_list := tracker :: tw.device_tracker_list }

/-- The loop of `update_transports` over the trackers. -/
def update_transports_loop (buffer : String) (len : Nat) :
    List Nat → tracker_world → tracker_world
  | [], tw => tw
  | tracker :: next, tw =>
    update_transports_loop buffer len next (device_tracker_send tracker buffer len tw)

/-- The `update_transports` function of the host build (`#if ADB_HOST`), of which
`update_transports` above records the call. -/
def update_transports_host (transport_list : List atransport) (tw : tracker_world) :
    tracker_world :=
  let m := list_transports_msg 1024 transport_list
  update_transports_loop m.1 m.2 tw.device_tracker_list tw

/-! ## The input pump -/

/-- One `read_packet` of the input pump: `packet = none` when it failed, and
`sync_token` is the value of `t->sync_token` when the pump looks at the packet
(the output pump changes it). -/
structure pump_read where
  packet : Option apacket
  sync_token : Nat

/-- What the loop of the input pump does with a packet. -/
inductive pump_event where
  | write_to_remote (p : apacket)
  | put_apacket (p : apacket)

/-- The locals of `input_thread` after the reads so far: `active`, whether the
loop has been left by a `break`, and the calls made, in order. -/
structure input_state where
  active : Int
  exited : Bool
  calls : List pump_event

/-- The `for(;;)` loop of `input_thread` over the results of `read_packet`;
`A_SYNC` is the constant of `adb.h`. When the reads are used up and no `break`
was taken, the pump is waiting in `read_packet`. -/
def input_loop (A_SYNC : Nat) : List pump_read → input_state → input_state
  | [], st => st
  | r :: rest, st =>
    match r.packet with
    | none => { st with exited := true }
    | some p =>
      if p.msg.command = A_SYNC then
        if p.msg.arg0 = 0 then
          { st with exited := true, calls := st.calls ++ [pump_event.put_apacket p] }
        else
          let st1 : input_state :=
            if p.msg.arg1 = r.sync_token then { st with active := 1 } else st
          input_loop A_SYNC rest { st1 with calls := st1.calls ++ [pump_event.put_apacket p] }
      else
        let st1 : input_state :=
          if st.active ≠ 0 then
            { st with calls := st.calls ++ [pump_event.write_to_remote p] }
          else st
        input_loop A_SYNC rest { st1 with calls := st1.calls ++ [pump_event.put_apacket p] }

/-- The start of `input_thread`: `active = 0`, nothing done yet. -/
def input_start : input_state :=
  { active := 0, exited := false, calls := [] }

/-! ## The output pump -/

/-- What the output pump does with a packet: `write_packet(t->fd, &p)`, with
whether the write succeeded, and `put_apacket(p)`. -/
inductive output_event where
  | write_packet (p : apacket) (ok : Bool)
  | put_apacket (p : apacket)

/-- How the `for(;;)` loop of `output_thread` is left, if it is: by the `break`
when `read_from_remote` fails, or by the `goto oops` when a write to the relay
channel fails. `waiting` is the pump in `read_from_remote` with no result yet. -/
inductive loop_end where
  | waiting
  | remote_failed
  | write_failed
  deriving DecidableEq, Repr

/-- The state after the loop: how it was left, the number of `get_apacket` and of
`write_packet` calls made so far, and the calls on packets, in order. -/
structure output_state where
  ended : loop_end
  gets : Nat
  writes : Nat
  calls : List output_event

/-- The `for(;;)` loop of `output_thread`. `get_apacket k` is the packet that call
number `k` of `get_apacket` returns, `write_ok n` tells whether call number `n` of
`write_packet` succeeds, and the list holds the results of `read_from_remote`:
`some q` when it succeeds and has filled the packet with `q`, `none` when it
fails. -/
def output_loop (get_apacket : Nat → apacket) (write_ok : Nat → Bool) :
    List (Option apacket) → Nat → Nat → List output_event → output_state
  | [], k, n, calls => { ended := loop_end.waiting, gets := k, writes := n, calls := calls }
  | none :: _, k, n, calls =>
    { ended := loop_end.remote_failed, gets := k + 1, writes := n,
      calls := calls ++ [output_event.put_apacket (get_apacket k)] }
  | some q :: rest, k, n, calls =>
    if write_ok n then
      output_loop get_apacket write_ok rest (k + 1) (n + 1)
        (calls ++ [output_event.write_packet q true])
    else
      { ended := loop_end.write_failed, gets := k + 1, writes := n + 1,
        calls := calls ++ [output_event.write_packet q false, output_event.put_apacket q] }

/-- The SYNC packet that the output pump makes out of the packet `p` of the pool. -/
def sync_packet (A_SYNC : Nat) (p : apacket) (arg0 arg1 : Nat) : apacket :=
  { p with msg := { p.msg with command := A_SYNC, arg0 := arg0, arg1 := arg1,
                               magic := A_SYNC ^^^ 0xffffffff } }

/-- What a run of `output_thread` leaves: the shared memory, the calls on
packets, and whether the thread has returned. -/
structure output_run where
  after : world
  calls : List output_event
  returned : Bool

/-- The label `oops` of `output_thread`: `kick_transport(t); transport_unref(t);`. -/
def output_oops (t : Nat) (w : world) (calls : List output_event) : output_run :=
  { after := transport_unref (some t) (kick_transport (some t) w), calls := calls,
    returned := true }

/-- The `output_thread` function for the transport at address `t`. The `unsigned`
field `sync_token` is incremented modulo 2^32. -/
def output_thread (A_SYNC : Nat) (t : Nat) (get_apacket : Nat → apacket)
    (write_ok : Nat → Bool) (remote : List (Option apacket)) (w : world) : output_run :=
  let token := ((w.heap t).sync_token + 1) % 2 ^ 32
  let w1 : world :=
    { w with heap := Function.update w.heap t { w.heap t with sync_token := token } }
  let p := sync_packet A_SYNC (get_apacket 0) 1 token
  if write_ok 0 then
    let st := output_loop get_apacket write_ok remote 1 1 [output_event.write_packet p true]
    match st.ended with
    | loop_end.waiting => { after := w1, calls := st.calls, returned := false }
    | loop_end.write_failed => output_oops t w1 st.calls
    | loop_end.remote_failed =>
      let p2 := sync_packet A_SYNC (get_apacket st.gets) 0 0
      if write_ok st.writes then
        output_oops t w1 (st.calls ++ [output_event.write_packet p2 true])
      else
        output_oops t w1
          (st.calls ++ [output_event.write_packet p2 false, output_event.put_apacket p2])
  else
    output_oops t w1 [output_event.write_packet p false, output_event.put_apacket p]

/-! ## File system configuration (`libcutils/fs_config.c`) -/

/-- The constants of `private/android_filesystem_config.h` that the two tables
use: the user and group ids and the numbers of the capabilities. -/
structure android_filesystem_config where
  AID_ROOT : Nat
  AID_SYSTEM : Nat
  AID_CACHE : Nat
  AID_SHELL : Nat
  AID_MISC : Nat
  AID_DHCP : Nat
  AID_SHARED_RELRO : Nat
  AID_MEDIA_RW : Nat
  AID_APP : Nat
  AID_RADIO : Nat
  CAP_SETUID : Nat
  CAP_SETGID : Nat
  CAP_BLOCK_SUSPEND : Nat

/-- A rule `struct fs_path_config`. `pfx` is the field named "prefix" in C; `none`
is the `NULL` of the entry that ends a table. -/
structure fs_path_config where
  mode : Nat
  uid : Nat
  gid : Nat
  capabilities : Nat
  pfx : Option String
  deriving DecidableEq, Repr

/-- The table `android_dirs`. -/
def android_dirs (c : android_filesystem_config) : List fs_path_config :=
  [
    { mode := 0o770, uid := c.AID_SYSTEM, gid := c.AID_CACHE, capabilities := 0, pfx := some "cache" },
    { mode := 0o771, uid := c.AID_SYSTEM, gid := c.AID_SYSTEM, capabilities := 0, pfx := some "data/app" },
    { mode := 0o771, uid := c.AID_SYSTEM, gid := c.AID_SYSTEM, capabilities := 0, pfx := some "data/app-private" },
    { mode := 0o771, uid := c.AID_ROOT, gid := c.AID_ROOT, capabilities := 0, pfx := some "data/dalvik-cache" },
    { mode := 0o771, uid := c.AID_SYSTEM, gid := c.AID_SYSTEM, capabilities := 0, pfx := some "data/data" },
    { mode := 0o771, uid := c.AID_SHELL, gid := c.AID_SHELL, capabilities := 0, pfx := some "data/local/tmp" },
    { mode := 0o771, uid := c.AID_SHELL, gid := c.AID_SHELL, capabilities := 0, pfx := some "data/local" },
    { mode := 0o1771, uid := c.AID_SYSTEM, gid := c.AID_MISC, capabilities := 0, pfx := some "data/misc" },
    { mode := 0o770, uid := c.AID_DHCP, gid := c.AID_DHCP, capabilities := 0, pfx := some "data/misc/dhcp" },
    { mode := 0o771, uid := c.AID_SHARED_RELRO, gid := c.AID_SHARED_RELRO, capabilities := 0, pfx := some "data/misc/shared_relro" },
    { mode := 0o775, uid := c.AID_MEDIA_RW, gid := c.AID_MEDIA_RW, capabilities := 0, pfx := some "data/media" },
    { mode := 0o775, uid := c.AID_MEDIA_RW, gid := c.AID_MEDIA_RW, capabilities := 0, pfx := some "data/media/Music" },
    { mode := 0o771, uid := c.AID_SYSTEM, gid := c.AID_SYSTEM, capabilities := 0, pfx := some "data" },
    { mode := 0o750, uid := c.AID_ROOT, gid := c.AID_SHELL, capabilities := 0, pfx := some "sbin" },
    { mode := 0o755, uid := c.AID_ROOT, gid := c.AID_SHELL, capabilities := 0, pfx := some "system/bin" },
    { mode := 0o755, uid := c.AID_ROOT, gid := c.AID_SHELL, capabilities := 0, pfx := some "system/vendor" },
    { mode := 0o755, uid := c.AID_ROOT, gid := c.AID_SHELL, capabilities := 0, pfx := some "system/xbin" },
    { mode := 0o755, uid := c.AID_ROOT, gid := c.AID_ROOT, capabilities := 0, pfx := some "system/etc/ppp" },
    { mode := 0o755, uid := c.AID_ROOT, gid := c.AID_SHELL, capabilities := 0, pfx := some "vendor" },
    { mode := 0o777, uid := c.AID_ROOT, gid := c.AID_ROOT, capabilities := 0, pfx := some "sdcard" },
    { mode := 0o755, uid := c.AID_ROOT, gid := c.AID_ROOT, capabilities := 0, pfx := none }
  ]

/-- The table `android_files`. -/
def android_files (c : android_filesystem_config) : List fs_path_config :=
  [
    { mode := 0o440, uid := c.AID_ROOT, gid := c.AID_SHELL, capabilities := 0, pfx := some "system/etc/init.goldfish.rc" },
    { mode := 0o550, uid := c.AID_ROOT, gid := c.AID_SHELL, capabilities := 0, pfx := some "system/etc/init.goldfish.sh" },
    { mode := 0o550, uid := c.AID_ROOT, gid := c.AID_SHELL, capabilities := 0, pfx := some "system/etc/init.ril" },
    { mode := 0o550, uid := c.AID_DHCP, gid := c.AID_SHELL, capabilities := 0, pfx := some "system/etc/dhcpcd/dhcpcd-run-hooks" },
    { mode := 0o555, uid := c.AID_ROOT, gid := c.AID_ROOT, capabilities := 0, pfx := some "system/etc/ppp/*" },
    { mode := 0o555, uid := c.AID_ROOT, gid := c.AID_ROOT, capabilities := 0, pfx := some "system/etc/rc.*" },
    { mode := 0o644, uid := c.AID_SYSTEM, gid := c.AID_SYSTEM, capabilities := 0, pfx := some "data/app/*" },
    { mode := 0o644, uid := c.AID_MEDIA_RW, gid := c.AID_MEDIA_RW, capabilities := 0, pfx := some "data/media/*" },
    { mode := 0o644, uid := c.AID_SYSTEM, gid := c.AID_SYSTEM, capabilities := 0, pfx := some "data/app-private/*" },
    { mode := 0o644, uid := c.AID_APP, gid := c.AID_APP, capabilities := 0, pfx := some "data/data/*" },
    { mode := 0o4750, uid := c.AID_ROOT, gid := c.AID_SHELL, capabilities := 0, pfx := some "system/xbin/su" },
    { mode := 0o6755, uid := c.AID_ROOT, gid := c.AID_ROOT, capabilities := 0, pfx := some "system/xbin/librank" },
    { mode := 0o6755, uid := c.AID_ROOT, gid := c.AID_ROOT, capabilities := 0, pfx := some "system/xbin/procrank" },
    { mode := 0o6755, uid := c.AID_ROOT, gid := c.AID_ROOT, capabilities := 0, pfx := some "system/xbin/procmem" },
    { mode := 0o4770, uid := c.AID_ROOT, gid := c.AID_RADIO, capabilities := 0, pfx := some "system/bin/pppd-ril" },
    { mode := 0o750, uid := c.AID_ROOT, gid := c.AID_SHELL, capabilities := (1 <<< c.CAP_SETUID) ||| (1 <<< c.CAP_SETGID), pfx := some "system/bin/run-as" },
    { mode := 0o700, uid := c.AID_SYSTEM, gid := c.AID_SHELL, capabilities := 1 <<< c.CAP_BLOCK_SUSPEND, pfx := some "system/bin/inputflinger" },
    { mode := 0o750, uid := c.AID_ROOT, gid := c.AID_ROOT, capabilities := 0, pfx := some "system/bin/uncrypt" },
    { mode := 0o750, uid := c.AID_ROOT, gid := c.AID_ROOT, capabilities := 0, pfx := some "system/bin/install-recovery.sh" },
    { mode := 0o755, uid := c.AID_ROOT, gid := c.AID_SHELL, capabilities := 0, pfx := some "system/bin/*" },
    { mode := 0o755, uid := c.AID_ROOT, gid := c.AID_ROOT, capabilities := 0, pfx := some "system/lib/valgrind/*" },
    { mode := 0o755, uid := c.AID_ROOT, gid := c.AID_ROOT, capabilities := 0, pfx := some "system/lib64/valgrind/*" },
    { mode := 0o755, uid := c.AID_ROOT, gid := c.AID_SHELL, capabilities := 0, pfx := some "system/xbin/*" },
    { mode := 0o755, uid := c.AID_ROOT, gid := c.AID_SHELL, capabilities := 0, pfx := some "system/vendor/bin/*" },
    { mode := 0o755, uid := c.AID_ROOT, gid := c.AID_SHELL, capabilities := 0, pfx := some "vendor/bin/*" },
    { mode := 0o750, uid := c.AID_ROOT, gid := c.AID_SHELL, capabilities := 0, pfx := some "sbin/*" },
    { mode := 0o755, uid := c.AID_ROOT, gid := c.AID_ROOT, capabilities := 0, pfx := some "bin/*" },
    { mode := 0o750, uid := c.AID_ROOT, gid := c.AID_SHELL, capabilities := 0, pfx := some "init*" },
    { mode := 0o750, uid := c.AID_ROOT, gid := c.AID_SHELL, capabilities := 0, pfx := some "sbin/fs_mgr" },
    { mode := 0o640, uid := c.AID_ROOT, gid := c.AID_SHELL, capabilities := 0, pfx := some "fstab.*" },
    { mode := 0o644, uid := c.AID_ROOT, gid := c.AID_ROOT, capabilities := 0, pfx := none }
  ]

/-- Whether `strncmp(s1, s2, n) == 0`, for C strings given as their characters up
to the terminating NUL. -/
def strncmp_zero : List Char → List Char → Nat → Bool
  | _, _, 0 => true
  | [], [], _ + 1 => true
  | [], _ :: _, _ + 1 => false
  | _ :: _, [], _ + 1 => false
  | a :: s1, b :: s2, n + 1 => if a = b then strncmp_zero s1 s2 n else false

/-- The loop `for(; pc->prefix; pc++)` of `fs_config`: the entry at which it
stops, by a `break` or at the entry whose "prefix" is `NULL`. `none` is a table
without such an entry. -/
def fs_config_loop (dir : Int) (path : String) (plen : Nat) :
    List fs_path_config → Option fs_path_config
  | [] => none
  | pc :: rest =>
    match pc.pfx with
    | none => some pc
    | some pre =>
      let len := pre.length
      if dir ≠ 0 then
        if plen < len then fs_config_loop dir path plen rest
        else if strncmp_zero pre.data path.data len then some pc
        else fs_config_loop dir path plen rest
      else if pre.data.getLast? = some '*' then
        if strncmp_zero pre.data path.data (len - 1) then some pc
        else fs_config_loop dir path plen rest
      else if plen = len then
        if strncmp_zero pre.data path.data len then some pc
        else fs_config_loop dir path plen rest
      else fs_config_loop dir path plen rest

/-- What `fs_config` stores through its four pointers. -/
structure fs_config_result where
  uid : Nat
  gid : Nat
  mode : Nat
  capabilities : Nat
  deriving DecidableEq, Repr

/-- The `fs_config` function; `mode` is the value of `*mode` at the call, and
`~07777` is the 32-bit mask `0xfffff000`. -/
def fs_config (c : android_filesystem_config) (path : String) (dir : Int) (mode : Nat) :
    Option fs_config_result :=
  let path1 : String := if path.data.head? = some '/' then String.mk path.data.tail else path
  let table := if dir ≠ 0 then android_dirs c else android_files c
  let plen := path1.length
  match fs_config_loop dir path1 plen table with
  | none => none
  | some pc =>
    some { uid := pc.uid, gid := pc.gid, mode := (mode &&& 0xfffff000) ||| pc.mode,
           capabilities := pc.capabilities }

/-! ## Definitions used to state the properties -/

/-- The sum of the first `n` payload bytes, each taken as an unsigned byte. -/
def payload_sum (data : Nat → Nat) (n : Nat) : Nat :=
  ((List.range n).map (fun i => data i % 256)).sum

/-- The transports that a scan without serial can select: not in state
`CS_NOPERM`, and of a class that matches the filter (every class matches
`kTransportAny`). -/
def matching (ttype : transport_type) (transport_list : List atransport) : List atransport :=
  transport_list.filter
    (fun t => decide (t.connection_state ≠ CS_NOPERM ∧ (ttype = kTransportAny ∨ t.type = ttype)))

/-- The sum of `n` payload bytes from offset `x` on. -/
def sum_from (data : Nat → Nat) (x n : Nat) : Nat :=
  ((List.range n).map (fun i => data (x + i) % 256)).sum

/-- The message of the ambiguity error for a class filter. -/
def more_than_one : transport_type → String
  | kTransportUsb => "more than one device"
  | kTransportLocal => "more than one emulator"
  | kTransportAny => "more than one device and emulator"

/-- The error left by a loop that visits the whole of `l` without a `break`. -/
def seen_error (l : List atransport) (error_out : Option (Option String)) :
    Option (Option String) :=
  if l.any (fun t => decide (t.connection_state = CS_NOPERM)) then
    set_error error_out (some "insufficient permissions for device")
  else error_out

/-- Closed form of the loop without serial, in terms of the matching transports. -/
def select_spec (ttype : transport_type) (l : List atransport) (st : scan_state) : scan_state :=
  match st.result, matching ttype l with
  | _, [] => { st with error_out := seen_error l st.error_out }
  | none, [m] => { st with result := some m, error_out := seen_error l st.error_out }
  | _, _ => { result := none, ambiguous := true,
              error_out := set_error st.error_out (some (more_than_one ttype)) }

/-- The predicate that a scan with serial `s` looks for. -/
def serial_match (s : String) (t : atransport) : Bool :=
  decide (t.connection_state ≠ CS_NOPERM ∧ t.serial = some s)

/-- The errors that a scan with a serial can leave. -/
def serial_error (e : Option (Option String)) : Prop :=
  e = none ∨ e = some none ∨ e = some (some "device not found") ∨
  e = some (some "insufficient permissions for device") ∨
  e = some (some "device offline") ∨ e = some (some "invalid device state")

/-- A call of one of the three functions that can kick a transport. -/
inductive call where
  | kick_transport (t : Option Nat)
  | transport_unref (t : Option Nat)
  | close_usb_devices
  deriving DecidableEq, Repr

/-- The effect of one call. -/
def run_call (c : call) (w : world) : world :=
  match c with
  | call.kick_transport t => kick_transport t w
  | call.transport_unref t => transport_unref t w
  | call.close_usb_devices => close_usb_devices w

/-- The effect of a sequence of calls, from the first to the last. -/
def run_calls : List call → world → world
  | [], w => w
  | c :: rest, w => run_calls rest (run_call c w)

/-- How often the kick capability of `t` was invoked in a log. -/
def kicks (t : Nat) (log : List event) : Nat :=
  log.count (event.kick t)

/-- What a call can do to the kick of `t`: nothing, or the one kick that takes
`kicked` from 0 to 1. -/
def kick_step (t : Nat) (w w1 : world) : Prop :=
  ((w1.heap t).kicked = (w.heap t).kicked ∧ kicks t w1.log = kicks t w.log) ∨
  ((w.heap t).kicked = 0 ∧ (w1.heap t).kicked = 1 ∧ kicks t w1.log = kicks t w.log + 1)

/-- Whether a call reads `t->kicked` under the tests that guard it in the code:
`kick_transport(t)` always does, `transport_unref(t)` does when it takes
`ref_count` to 0, and `close_usb_devices` does for every member of the
registry. -/
def observes_kicked (t : Nat) (c : call) (w : world) : Bool :=
  match c with
  | call.kick_transport a => decide (a = some t)
  | call.transport_unref a => decide (a = some t) && decide ((w.heap t).ref_count - 1 = 0)
  | call.close_usb_devices => decide (t ∈ w.transport_list)

/-- What a pump does when it exits: `kick_transport(t); transport_unref(t);`. -/
def pump_exit (t : Nat) : List call :=
  [call.kick_transport (some t), call.transport_unref (some t)]

/-- All the orders in which the calls of two sequences can follow each other,
each sequence keeping its own order. -/
def interleavings : List call → List call → List (List call)
  | [], l2 => [l2]
  | a :: l1, [] => [a :: l1]
  | a :: l1, b :: l2 =>
    (interleavings l1 (b :: l2)).map (fun l => a :: l) ++
    (interleavings (a :: l1) l2).map (fun l => b :: l)
termination_by l1 l2 => l1.length + l2.length

/-- The kick that a call adds to the log when it is the one to kick. -/
def kick_once (t : Nat) (w : world) : List event :=
  if (w.heap t).kicked = 0 then [event.kick t] else []

/-- The whole device table: the lines of the registered transports, in registry
order. -/
def device_table : List atransport → String
  | [] => ""
  | t :: rest => format_line t ++ device_table rest

/-- The calls `add_transport_disconnect(t, d)` for the entries of `ds`, from the
first to the last. -/
def add_transport_disconnects (t : Nat) : List adisconnect → world → world
  | [], w => w
  | dis :: rest, w => add_transport_disconnects t rest (add_transport_disconnect t dis w)

/-- The packets that the input pump takes from `read_packet` before its loop
ends: those up to the first failed read, or up to and with the first SYNC packet
whose `arg0` is 0. -/
def packets_read (A_SYNC : Nat) : List pump_read → List apacket
  | [] => []
  | r :: rest =>
    match r.packet with
    | none => []
    | some p =>
      if p.msg.command = A_SYNC ∧ p.msg.arg0 = 0 then [p]
      else p :: packets_read A_SYNC rest

/-- A call of one of the functions of `transport.c` that write to the shared
memory. The selector and `list_transports` only read it. -/
inductive operation where
  | kick_transport (t : Option Nat)
  | transport_unref (t : Option Nat)
  | close_usb_devices
  | run_transport_disconnects (t : Nat)
  | add_transport_disconnect (t : Nat) (dis : adisconnect)
  | remove_transport_disconnect (t : Nat) (dis : adisconnect)
  | register_transport (t : Nat)
  | remove_transport (t : Nat)
  | update_transports
  | transport_registration_func (m : tmsg)
  | unregister_usb_transport (usb : Nat)
  deriving DecidableEq, Repr

/-- The effect of an operation. -/
def perform (op : operation) (w : world) : world :=
  match op with
  | operation.kick_transport t => kick_transport t w
  | operation.transport_unref t => transport_unref t w
  | operation.close_usb_devices => close_usb_devices w
  | operation.run_transport_disconnects t => run_transport_disconnects t w
  | operation.add_transport_disconnect t dis => add_transport_disconnect t dis w
  | operation.remove_transport_disconnect t dis => remove_transport_disconnect t dis w
  | operation.register_transport t => register_transport t w
  | operation.remove_transport t => remove_transport t w
  | operation.update_transports => update_transports w
  | operation.transport_registration_func m => transport_registration_func m w
  | operation.unregister_usb_transport usb => unregister_usb_transport usb w

/-- The value of a hexadecimal digit. -/
def hex_value (c : Char) : Nat :=
  if c.toNat < 58 then c.toNat - 48 else c.toNat - 87

/-- The number that a run of hexadecimal digits stands for. -/
def decode_hex (digits : List Char) : Nat :=
  digits.foldl (fun acc c => acc * 16 + hex_value c) 0

/-- Calls of `device_tracker_ready` for one tracker, one for each registry of the
list, in order. -/
def ready_calls (tracker : Nat) : List (List atransport) → tracker_world → tracker_world
  | [], tw => tw
  | l :: rest, tw => ready_calls tracker rest (device_tracker_ready tracker l tw)

/-- A read that makes the input pump active: a SYNC packet whose `arg0` is not 0
and whose `arg1` is the `sync_token` of that moment. -/
def activates (A_SYNC : Nat) (r : pump_read) : Bool :=
  match r.packet with
  | none => false
  | some p => decide (p.msg.command = A_SYNC ∧ p.msg.arg0 ≠ 0 ∧ p.msg.arg1 = r.sync_token)

/-- A read that ends the loop of the input pump: a failed read, or a SYNC packet
whose `arg0` is 0. -/
def ends_loop (A_SYNC : Nat) (r : pump_read) : Bool :=
  match r.packet with
  | none => true
  | some p => decide (p.msg.command = A_SYNC ∧ p.msg.arg0 = 0)

/-- The reads that come before the one that ends the loop. -/
def reads_in_loop (A_SYNC : Nat) (reads : List pump_read) : List pump_read :=
  reads.takeWhile (fun r => !ends_loop A_SYNC r)

/-- The packets of a run of reads that are not SYNC packets, in order. -/
def data_packets (A_SYNC : Nat) : List pump_read → List apacket
  | [] => []
  | r :: rest =>
    match r.packet with
    | none => data_packets A_SYNC rest
    | some p =>
      if p.msg.command = A_SYNC then data_packets A_SYNC rest
      else p :: data_packets A_SYNC rest

/-- The packets that a run of calls passes to `write_to_remote`, in order. -/
def written : List pump_event → List apacket
  | [] => []
  | pump_event.write_to_remote p :: rest => p :: written rest
  | pump_event.put_apacket _ :: rest => written rest

/-- The packets that a run of calls has put on the relay channel: those of the
writes that succeeded, in order. -/
def emitted : List output_event → List apacket
  | [] => []
  | output_event.write_packet p true :: rest => p :: emitted rest
  | output_event.write_packet _ false :: rest => emitted rest
  | output_event.put_apacket _ :: rest => emitted rest

/-- The shared memory after the increment of `t->sync_token`. -/
def token_world (t : Nat) (w : world) : world :=
  { w with heap := (Function.update w.heap t
      { w.heap t with sync_token := ((w.heap t).sync_token + 1) % 2 ^ 32 }) }

/-- The path with one leading '/' taken off. -/
def strip_slash (path : String) : String :=
  if path.data.head? = some '/' then String.mk path.data.tail else path

/-- When a rule with the text `pre` matches a path: a directory rule when `pre`
is the start of the path, a file rule that ends in '*' when `pre` without the '*'
is the start of the path, any other file rule when the path is `pre`. -/
def rule_matches (dir : Int) (path : String) (pre : String) : Bool :=
  if dir ≠ 0 then pre.data.isPrefixOf path.data
  else if pre.data.getLast? = some '*' then pre.data.dropLast.isPrefixOf path.data
  else decide (path = pre)

/-- The first rule of a table that matches the path, the last entry of the table
standing in when none of the others matches. -/
def first_match (dir : Int) (path : String) (table : List fs_path_config) :
    Option fs_path_config :=
  match table.dropLast.find?
      (fun pc => match pc.pfx with
        | none => false
        | some pre => rule_matches dir path pre) with
  | some pc => some pc
  | none => table.getLast?

/-! ## Sample inputs -/

/-- A packet with a three-byte payload, not framed yet. -/
def sample_packet : apacket :=
  { msg := { command := 0x4e584e43, arg0 := 1, arg1 := 0, data_length := 3,
             data_check := 0, magic := 0 },
    data := fun i => [250, 7, 255].getD i 0 }

/-- A USB transport without serial, in state Device. -/
def usb_device : atransport :=
  { serial := none, type := kTransportUsb, connection_state := CS_DEVICE }

/-- A USB transport without serial that the host may not open. -/
def usb_noperm : atransport :=
  { serial := none, type := kTransportUsb, connection_state := CS_NOPERM }

/-- A USB transport with a serial, in state Recovery. -/
def usb_recovery : atransport :=
  { serial := some "0123456789AB", type := kTransportUsb, connection_state := CS_RECOVERY }

/-- An emulator with the given connection state. -/
def emulator (state : cs) : atransport :=
  { serial := some "emulator-5554", type := kTransportLocal, connection_state := state }

/-- A world with nothing registered and nothing logged, in which every address
holds a fresh USB transport. -/
def fresh_world : world :=
  { heap := fun _ => usb_device, transport_list := [], log := [] }

/-- The transport at address 7 of `fresh_world` after its register action. -/
def registered_world : world :=
  transport_registration_func { transport := 7, action := 1 } fresh_world

/-- A SYNC packet that announces the token 4, for `A_SYNC = 0x434e5953`. -/
def sync_online_4 : apacket :=
  { msg := { command := 0x434e5953, arg0 := 1, arg1 := 4, data_length := 0,
             data_check := 0, magic := 0xbcb1a6ac },
    data := fun _ => 0 }

/-- What an input pump reads when the token of its transport is 5: a data packet,
a SYNC packet with the stale token 4, a second data packet, then a failure. -/
def stale_reads : List pump_read :=
  [{ packet := some sample_packet, sync_token := 5 },
   { packet := some sync_online_4, sync_token := 5 },
   { packet := some sample_packet, sync_token := 5 },
   { packet := none, sync_token := 5 }]

/-- A world in which the transport at address 7, a USB device that the host may
not open, is the only member of the registry. -/
def noperm_world : world :=
  { heap := fun _ => usb_noperm, transport_list := [7], log := [] }

/-- No tracker yet, nothing sent. -/
def no_trackers : tracker_world :=
  { trackers := fun _ => { update_needed := 0 }, device_tracker_list := [], sent := [] }

/-- A SYNC packet with `arg0 = 2` that carries the token 5. -/
def sync_two_5 : apacket :=
  { msg := { command := 0x434e5953, arg0 := 2, arg1 := 5, data_length := 0,
             data_check := 0, magic := 0xbcb1a6ac },
    data := fun _ => 0 }

/-- Values for the constants of `android_filesystem_config.h`. -/
def sample_ids : android_filesystem_config :=
  { AID_ROOT := 0, AID_SYSTEM := 1000, AID_CACHE := 2001, AID_SHELL := 2000,
    AID_MISC := 9998, AID_DHCP := 1014, AID_SHARED_RELRO := 1037, AID_MEDIA_RW := 1023,
    AID_APP := 10000, AID_RADIO := 1001, CAP_SETUID := 7, CAP_SETGID := 6,
    CAP_BLOCK_SUSPEND := 36 }

/-! ## The framing codec -/

theorem sum_from_succ (data : Nat → Nat) (x n : Nat) :
    sum_from data x (n + 1) = data x % 256 + sum_from data (x + 1) n := by
  unfold sum_from
  rw [List.range_succ_eq_map, List.map_cons, List.sum_cons, List.map_map]
  have h : ((fun i => data (x + i) % 256) ∘ Nat.succ) = (fun i => data (x + 1 + i) % 256) := by
    funext i
    simp only [Function.comp_apply, Nat.succ_eq_add_one]
    rw [Nat.add_assoc, Nat.add_comm 1 i]
  rw [h]
  simp

theorem sum_loop_eq (data : Nat → Nat) (count : Nat) :
    ∀ x sum : Nat, sum < 2 ^ 32 →
      sum_loop data count x sum = (sum + sum_from data x count) % 2 ^ 32 := by
  induction count with
  | zero =>
    intro x sum hs
    simp only [sum_loop, sum_from, List.range_zero, List.map_nil, List.sum_nil, Nat.add_zero]
    exact (Nat.mod_eq_of_lt hs).symm
  | succ n ih =>
    intro x sum hs
    rw [sum_loop, ih (x + 1) _ (Nat.mod_lt _ (by norm_num)), sum_from_succ]
    rw [Nat.mod_add_mod, Nat.add_assoc]

theorem sum_from_zero (data : Nat → Nat) (n : Nat) : sum_from data 0 n = payload_sum data n := by
  simp [sum_from, payload_sum]

theorem sum_loop_payload (data : Nat → Nat) (n : Nat) :
    sum_loop data n 0 0 = payload_sum data n % 2 ^ 32 := by
  rw [sum_loop_eq data n 0 0 (by norm_num), sum_from_zero, Nat.zero_add]

/-- C1: for every packet `send_packet` leaves `magic = command XOR 0xFFFFFFFF` and
`data_check =` (the sum of the first `data_length` payload bytes, each taken as an
unsigned byte) `mod 2^32`, and leaves `command`, `arg0`, `arg1`, `data_length` and
the payload unchanged. -/
theorem send_packet_frames (p : apacket) :
    (send_packet p).msg.magic = p.msg.command ^^^ 0xffffffff ∧
    (send_packet p).msg.data_check = payload_sum p.data p.msg.data_length % 2 ^ 32 ∧
    (send_packet p).msg.command = p.msg.command ∧
    (send_packet p).msg.arg0 = p.msg.arg0 ∧
    (send_packet p).msg.arg1 = p.msg.arg1 ∧
    (send_packet p).msg.data_length = p.msg.data_length ∧
    (send_packet p).data = p.data := by
  refine ⟨rfl, ?_, rfl, rfl, rfl, rfl, rfl⟩
  exact sum_loop_payload p.data p.msg.data_length

/-- C2: round trip of the framing codec: a packet with `data_length <= MAX_PAYLOAD`
that `send_packet` has framed is accepted by `check_header` and by `check_data`
(each returns 0). -/
theorem send_packet_round_trip (MAX_PAYLOAD : Nat) (p : apacket)
    (h : p.msg.data_length ≤ MAX_PAYLOAD) :
    check_header MAX_PAYLOAD (send_packet p) = 0 ∧ check_data (send_packet p) = 0 := by
  constructor
  · simp [check_header, send_packet, Nat.not_lt.mpr h]
  · simp [check_data, send_packet]

theorem send_packet_round_trip_witness :
    sample_packet.msg.data_length ≤ 4096 ∧
    check_header 4096 (send_packet sample_packet) = 0 ∧
    check_data (send_packet sample_packet) = 0 :=
  ⟨by decide, send_packet_round_trip 4096 sample_packet (by decide)⟩

/-- C3: corrupting either framing field makes validation fail: in a packet framed
by `send_packet`, replacing `magic` by any different value makes `check_header`
return -1, and replacing `data_check` by any different value makes `check_data`
return -1. -/
theorem corrupted_frame_rejected (MAX_PAYLOAD : Nat) (p : apacket) (m c : Nat)
    (hm : m ≠ (send_packet p).msg.magic) (hc : c ≠ (send_packet p).msg.data_check) :
    check_header MAX_PAYLOAD
      { send_packet p with msg := { (send_packet p).msg with magic := m } } = -1 ∧
    check_data { send_packet p with msg := { (send_packet p).msg with data_check := c } } = -1 := by
  constructor
  · have hm1 : m ≠ p.msg.command ^^^ 0xffffffff := hm
    simp [check_header, send_packet, hm1]
  · have hc1 : sum_loop p.data p.msg.data_length 0 0 ≠ c := fun e => hc e.symm
    simp [check_data, send_packet, hc1]

theorem corrupted_frame_rejected_witness :
    check_header 4096
      { send_packet sample_packet with
        msg := { (send_packet sample_packet).msg with magic := 0xb1a7b1bd } } = -1 ∧
    check_data
      { send_packet sample_packet with
        msg := { (send_packet sample_packet).msg with data_check := 511 } } = -1 :=
  corrupted_frame_rejected 4096 sample_packet 0xb1a7b1bd 511 (by decide) (by decide)

/-- C4: `check_header` returns -1 exactly when `magic` differs from
`command XOR 0xFFFFFFFF` or `data_length > MAX_PAYLOAD`, and 0 otherwise; a
`data_length` equal to `MAX_PAYLOAD` is accepted. -/
theorem check_header_spec (MAX_PAYLOAD : Nat) (p : apacket) :
    (check_header MAX_PAYLOAD p = -1 ↔
      (p.msg.magic ≠ p.msg.command ^^^ 0xffffffff ∨ p.msg.data_length > MAX_PAYLOAD)) ∧
    (check_header MAX_PAYLOAD p = 0 ↔
      ¬ (p.msg.magic ≠ p.msg.command ^^^ 0xffffffff ∨ p.msg.data_length > MAX_PAYLOAD)) ∧
    check_header MAX_PAYLOAD
      { p with msg := { p.msg with magic := p.msg.command ^^^ 0xffffffff,
                                   data_length := MAX_PAYLOAD } } = 0 := by
  refine ⟨?_, ?_, ?_⟩
  · unfold check_header
    by_cases h1 : p.msg.magic = p.msg.command ^^^ 0xffffffff
    · by_cases h2 : p.msg.data_length > MAX_PAYLOAD <;> simp [h1, h2]
    · simp [h1]
  · unfold check_header
    by_cases h1 : p.msg.magic = p.msg.command ^^^ 0xffffffff
    · by_cases h2 : p.msg.data_length > MAX_PAYLOAD <;> simp [h1, h2]
    · simp [h1]
  · simp [check_header]

/-- C5: `check_data` returns 0 exactly when the sum mod 2^32 of the first
`data_length` payload bytes equals `data_check`, and -1 otherwise; its result
does not depend on `command`, `magic`, `arg0` or `arg1`. -/
theorem check_data_spec (p : apacket) :
    (check_data p = 0 ↔ payload_sum p.data p.msg.data_length % 2 ^ 32 = p.msg.data_check) ∧
    (check_data p = -1 ↔ payload_sum p.data p.msg.data_length % 2 ^ 32 ≠ p.msg.data_check) ∧
    (∀ command magic arg0 arg1 : Nat,
      check_data { p with msg := { p.msg with command := command, magic := magic,
                                              arg0 := arg0, arg1 := arg1 } } = check_data p) := by
  refine ⟨?_, ?_, ?_⟩
  · unfold check_data
    simp only [sum_loop_payload]
    by_cases h : payload_sum p.data p.msg.data_length % 2 ^ 32 = p.msg.data_check <;> simp [h]
  · unfold check_data
    simp only [sum_loop_payload]
    by_cases h : payload_sum p.data p.msg.data_length % 2 ^ 32 = p.msg.data_check <;> simp [h]
  · intro command magic arg0 arg1
    rfl

/-! ## The selector -/

theorem set_error_set_error (e : Option (Option String)) (a b : Option String) :
    set_error (set_error e a) b = set_error e b := by
  cases e <;> rfl

theorem matching_cons (ttype : transport_type) (t : atransport) (l : List atransport) :
    matching ttype (t :: l) =
      if t.connection_state ≠ CS_NOPERM ∧ (ttype = kTransportAny ∨ t.type = ttype) then
        t :: matching ttype l
      else matching ttype l := by
  unfold matching
  rw [List.filter_cons]
  by_cases h : t.connection_state ≠ CS_NOPERM ∧ (ttype = kTransportAny ∨ t.type = ttype)
  · simp [h]
  · simp only [h, decide_False, if_false]; simp

theorem scan_loop_none_eq (ttype : transport_type) (l : List atransport) :
    ∀ st : scan_state, scan_loop ttype none l st = select_spec ttype l st := by
  induction l with
  | nil =>
    intro st
    obtain ⟨r, a, e⟩ := st
    cases r <;> simp [scan_loop, select_spec, matching, seen_error]
  | cons t rest ih =>
    intro st
    obtain ⟨r, a, e⟩ := st
    rw [scan_loop]
    by_cases hn : t.connection_state = CS_NOPERM
    · simp only [hn, if_true]
      rw [ih]
      simp [select_spec, matching_cons, hn, seen_error, set_error_set_error]
    · simp only [hn, if_false]
      have hs : seen_error (t :: rest) e = seen_error rest e := by
        simp [seen_error, hn]
      cases ttype <;> cases htt : t.type <;> cases r <;>
        simp only [ih, select_spec, matching_cons, hn, htt, hs] <;>
        (rcases matching _ rest with _ | ⟨m1, _ | ⟨m2, tl⟩⟩) <;>
        simp [more_than_one, hn]

theorem matching_skip (ttype : transport_type) (l1 l2 : List atransport) (t : atransport)
    (h : ¬ (ttype = kTransportAny ∨ t.type = ttype)) :
    matching ttype (l1 ++ t :: l2) = matching ttype (l1 ++ l2) := by
  unfold matching
  rw [List.filter_append, List.filter_append, List.filter_cons]
  simp [h]

theorem check_candidate_none (state : cs) (st : scan_state) (h : st.result = none) :
    check_candidate state st = st := by
  unfold check_candidate
  rw [h]

theorem scan_loop_serial (ttype : transport_type) (s : String) (l : List atransport) :
    ∀ st : scan_state,
      (scan_loop ttype (some s) l st).result =
        (match l.find? (serial_match s) with
          | some t => some t
          | none => st.result) ∧
      (scan_loop ttype (some s) l st).ambiguous = st.ambiguous ∧
      ((scan_loop ttype (some s) l st).error_out = st.error_out ∨
        (scan_loop ttype (some s) l st).error_out =
          set_error st.error_out (some "insufficient permissions for device")) ∧
      (l.find? (serial_match s) = none →
        (scan_loop ttype (some s) l st).error_out = seen_error l st.error_out) := by
  induction l with
  | nil => intro st; simp [scan_loop, seen_error]
  | cons t rest ih =>
    intro st
    rw [scan_loop]
    by_cases hn : t.connection_state = CS_NOPERM
    · simp only [hn, if_true]
      obtain ⟨h1, h2, h3, h4⟩ := ih { st with
        error_out := set_error st.error_out (some "insufficient permissions for device") }
      have hf : (t :: rest).find? (serial_match s) = rest.find? (serial_match s) := by
        simp [List.find?_cons, serial_match, hn]
      refine ⟨?_, ?_, ?_, ?_⟩
      · rw [h1, hf]
      · rw [h2]
      · rcases h3 with h3 | h3
        · right; rw [h3]
        · right; rw [h3, set_error_set_error]
      · intro hnone
        rw [hf] at hnone
        rw [h4 hnone]
        simp [seen_error, hn, set_error_set_error]
    · simp only [hn, if_false]
      by_cases hs : t.serial = some s
      · simp [hs, List.find?_cons, serial_match, hn]
      · simp only [hs, if_false]
        obtain ⟨h1, h2, h3, h4⟩ := ih st
        have hf : (t :: rest).find? (serial_match s) = rest.find? (serial_match s) := by
          simp [List.find?_cons, serial_match, hs]
        refine ⟨?_, h2, h3, ?_⟩
        · rw [h1, hf]
        · intro hnone
          rw [hf] at hnone
          rw [h4 hnone]
          simp [seen_error, hn]


/-- C6: one scan without serial, in terms of the list `M` of the registered
transports that are not in state NoPermission and whose class matches the filter:
a candidate is selected exactly when `M` has one element, and it is that element;
ambiguity is reported exactly when `M` has two or more elements; nothing is
selected, without ambiguity, exactly when `M` is empty; and a registered transport
of a non-matching class changes neither the candidate nor the ambiguity. -/
theorem scan_without_serial (ttype : transport_type) (transport_list : List atransport)
    (e : Option (Option String)) :
    (∀ t : atransport,
      (scan_loop ttype none transport_list ⟨none, false, e⟩).result = some t ↔
        matching ttype transport_list = [t]) ∧
    ((scan_loop ttype none transport_list ⟨none, false, e⟩).result.isSome = true ↔
      (matching ttype transport_list).length = 1) ∧
    ((scan_loop ttype none transport_list ⟨none, false, e⟩).ambiguous = true ↔
      2 ≤ (matching ttype transport_list).length) ∧
    (((scan_loop ttype none transport_list ⟨none, false, e⟩).result = none ∧
        (scan_loop ttype none transport_list ⟨none, false, e⟩).ambiguous = false) ↔
      matching ttype transport_list = []) ∧
    (∀ (l1 l2 : List atransport) (t : atransport), transport_list = l1 ++ l2 →
      ¬ (ttype = kTransportAny ∨ t.type = ttype) →
      (scan_loop ttype none (l1 ++ t :: l2) ⟨none, false, e⟩).result =
        (scan_loop ttype none transport_list ⟨none, false, e⟩).result ∧
      (scan_loop ttype none (l1 ++ t :: l2) ⟨none, false, e⟩).ambiguous =
        (scan_loop ttype none transport_list ⟨none, false, e⟩).ambiguous) := by
  refine ⟨?_, ?_, ?_, ?_, ?_⟩
  · intro t
    rw [scan_loop_none_eq]
    unfold select_spec
    rcases matching ttype transport_list with _ | ⟨m1, _ | ⟨m2, tl⟩⟩ <;> simp
  · rw [scan_loop_none_eq]
    unfold select_spec
    rcases matching ttype transport_list with _ | ⟨m1, _ | ⟨m2, tl⟩⟩ <;> simp
  · rw [scan_loop_none_eq]
    unfold select_spec
    rcases matching ttype transport_list with _ | ⟨m1, _ | ⟨m2, tl⟩⟩ <;> simp
  · rw [scan_loop_none_eq]
    unfold select_spec
    rcases matching ttype transport_list with _ | ⟨m1, _ | ⟨m2, tl⟩⟩ <;> simp
  · intro l1 l2 t hl ht
    rw [scan_loop_none_eq, scan_loop_none_eq, hl]
    unfold select_spec
    rw [matching_skip ttype l1 l2 t ht]
    rcases matching ttype (l1 ++ l2) with _ | ⟨m1, _ | ⟨m2, tl⟩⟩ <;> simp

/-- C7: with at least two non-NoPermission transports of the requested class in
the registry and no serial, `acquire_one_transport` returns `NULL` after a single
scan, without sleeping, whatever the required state, and the error is "more than
one device" for class USB, "more than one emulator" for class Local and "more
than one device and emulator" for class Any. -/
theorem ambiguity_not_retried (fuel : Nat) (transport_list : Nat → List atransport)
    (state : cs) (ttype : transport_type) (e : Option (Option String))
    (h : 2 ≤ (matching ttype (transport_list 0)).length) :
    acquire_one_transport (fuel + 1) transport_list state ttype none e =
      some { result := none,
             error_out := set_error e (some (match ttype with
               | kTransportUsb => "more than one device"
               | kTransportLocal => "more than one emulator"
               | kTransportAny => "more than one device and emulator")),
             sleeps := [] } := by
  unfold acquire_one_transport
  rw [acquire_from]
  have hs : scan state ttype none (transport_list 0) ⟨none, false, e⟩ =
      ⟨none, true, set_error e (some (more_than_one ttype))⟩ := by
    unfold scan
    rw [scan_loop_none_eq]
    unfold select_spec
    rcases hm : matching ttype (transport_list 0) with _ | ⟨m1, _ | ⟨m2, tl⟩⟩
    · rw [hm] at h; simp at h
    · rw [hm] at h; simp at h
    · simp [check_candidate, set_error_set_error]
  simp only [hs]
  cases ttype <;> simp [more_than_one]

theorem ambiguity_not_retried_witness :
    2 ≤ (matching kTransportUsb [usb_device, usb_noperm, usb_device]).length ∧
    acquire_one_transport 1 (fun _ => [usb_device, usb_noperm, usb_device])
        CS_DEVICE kTransportUsb none (some none) =
      some { result := none, error_out := some (some "more than one device"), sleeps := [] } :=
  ⟨by decide,
   ambiguity_not_retried 0 (fun _ => [usb_device, usb_noperm, usb_device])
     CS_DEVICE kTransportUsb (some none) (by decide)⟩

theorem check_candidate_error (state : cs) (st : scan_state) :
    (check_candidate state st).ambiguous = st.ambiguous ∧
    ((check_candidate state st).error_out = st.error_out ∨
      (check_candidate state st).error_out = set_error st.error_out (some "device offline") ∨
      (check_candidate state st).error_out =
        set_error st.error_out (some "invalid device state")) := by
  obtain ⟨r, a, e⟩ := st
  cases r with
  | none => simp [check_candidate]
  | some t =>
    unfold check_candidate
    by_cases ho : t.connection_state = CS_OFFLINE
    · simp [ho]
    · by_cases hst : state ≠ CS_ANY ∧ t.connection_state ≠ state
      · simp [ho, hst]
      · simp only [ho, if_false, hst]; simp

theorem serial_error_set (e : Option (Option String)) (m : Option String)
    (h : serial_error (some m)) : serial_error (set_error e m) := by
  cases e with
  | none => left; rfl
  | some x => exact h

theorem scan_serial_error (state : cs) (ttype : transport_type) (s : String)
    (l : List atransport) (st : scan_state) :
    (scan state ttype (some s) l st).ambiguous = st.ambiguous ∧
    serial_error (scan state ttype (some s) l st).error_out := by
  unfold scan
  obtain ⟨c1, c2⟩ := check_candidate_error state
    (scan_loop ttype (some s) l
      { st with error_out := set_error st.error_out (some "device not found") })
  obtain ⟨_, l2, l3, _⟩ := scan_loop_serial ttype s l
    { st with error_out := set_error st.error_out (some "device not found") }
  refine ⟨by rw [c1, l2], ?_⟩
  have base : serial_error (scan_loop ttype (some s) l
      { st with error_out := set_error st.error_out (some "device not found") }).error_out ∧
      ∀ m, serial_error (some m) → serial_error (set_error (scan_loop ttype (some s) l
      { st with error_out := set_error st.error_out (some "device not found") }).error_out m) := by
    rcases l3 with l3 | l3
    · rw [l3]
      refine ⟨serial_error_set _ _ (by simp [serial_error]), ?_⟩
      intro m hm
      simp only [set_error_set_error]
      exact serial_error_set _ _ hm
    · rw [l3]
      simp only [set_error_set_error]
      refine ⟨serial_error_set _ _ (by simp [serial_error]), ?_⟩
      intro m hm
      exact serial_error_set _ _ hm
  rcases c2 with c2 | c2 | c2
  · rw [c2]; exact base.1
  · rw [c2]; exact base.2 _ (by simp [serial_error])
  · rw [c2]; exact base.2 _ (by simp [serial_error])

theorem acquire_from_serial_error (state : cs) (ttype : transport_type) (s : String)
    (transport_list : Nat → List atransport) (fuel : Nat) :
    ∀ (k : Nat) (st : scan_state) (sleeps : List Nat) (r : acquired),
      acquire_from state ttype (some s) transport_list fuel k st sleeps = some r →
      serial_error r.error_out := by
  induction fuel with
  | zero => intro k st sleeps r h; simp [acquire_from] at h
  | succ n ih =>
    intro k st sleeps r h
    rw [acquire_from] at h
    obtain ⟨_, he⟩ := scan_serial_error state ttype s (transport_list k) st
    by_cases h1 : (scan state ttype (some s) (transport_list k) st).result.isSome = true
    · simp only [h1, if_true, Option.some.injEq] at h
      rw [← h]
      exact serial_error_set _ _ (by simp [serial_error])
    · simp only [h1] at h
      by_cases h2 : state ≠ CS_ANY
      · simp only [h2, Option.isSome_some, true_or, and_self, if_true, Bool.false_eq_true,
          if_false, not_false_eq_true, ne_eq] at h
        exact ih _ _ _ _ h
      · simp only [h2, false_and, if_false, Option.some.injEq, Bool.false_eq_true] at h
        rw [← h]
        exact he


theorem check_candidate_offline (state : cs) (st : scan_state) (t : atransport)
    (h : st.result = some t) (ho : t.connection_state = CS_OFFLINE) :
    check_candidate state st =
      { st with result := none, error_out := set_error st.error_out (some "device offline") } := by
  obtain ⟨r, a, e⟩ := st
  simp only at h
  subst h
  simp [check_candidate, ho]

theorem check_candidate_state (state : cs) (st : scan_state) (t : atransport)
    (h : st.result = some t) (ho : t.connection_state ≠ CS_OFFLINE)
    (hs : state ≠ CS_ANY) (hd : t.connection_state ≠ state) :
    check_candidate state st =
      { st with result := none,
                error_out := set_error st.error_out (some "invalid device state") } := by
  obtain ⟨r, a, e⟩ := st
  simp only at h
  subst h
  simp [check_candidate, ho, hs, hd]

theorem check_candidate_keep (state : cs) (st : scan_state) (t : atransport)
    (h : st.result = some t) (ho : t.connection_state ≠ CS_OFFLINE)
    (hs : state = CS_ANY ∨ t.connection_state = state) :
    check_candidate state st = st := by
  obtain ⟨r, a, e⟩ := st
  simp only at h
  subst h
  rcases hs with hs | hs
  · simp [check_candidate, ho, hs]
  · subst hs
    simp [check_candidate, ho]

/-- C8: with a serial `s`, the candidate of a scan is the first registered
non-NoPermission transport whose serial equals `s`, whatever the class filter and
the other registered transports; the scan never reports ambiguity and the call
never returns a "more than one ..." error; and with required state ANY and that
transport not Offline, `acquire_one_transport` returns it at once with the error
set to `NULL`. -/
theorem select_by_serial (fuel : Nat) (transport_list : Nat → List atransport) (state : cs)
    (ttype : transport_type) (s : String) (e : Option (Option String)) :
    (∀ l : List atransport,
      (scan_loop ttype (some s) l ⟨none, false, set_error e (some "device not found")⟩).result =
        l.find? (fun t => decide (t.connection_state ≠ CS_NOPERM ∧ t.serial = some s))) ∧
    (∀ l : List atransport, (scan state ttype (some s) l ⟨none, false, e⟩).ambiguous = false) ∧
    (∀ r : acquired, acquire_one_transport fuel transport_list state ttype (some s) e = some r →
      r.error_out ≠ some (some "more than one device") ∧
      r.error_out ≠ some (some "more than one emulator") ∧
      r.error_out ≠ some (some "more than one device and emulator")) ∧
    (∀ t : atransport,
      (transport_list 0).find?
        (fun t => decide (t.connection_state ≠ CS_NOPERM ∧ t.serial = some s)) = some t →
      t.connection_state ≠ CS_OFFLINE →
      acquire_one_transport (fuel + 1) transport_list CS_ANY ttype (some s) e =
        some { result := some t, error_out := set_error e none, sleeps := [] }) := by
  refine ⟨?_, ?_, ?_, ?_⟩
  · intro l
    rw [(scan_loop_serial ttype s l _).1]
    show (match l.find? (serial_match s) with | some t => some t | none => none) =
      l.find? (serial_match s)
    cases l.find? (serial_match s) <;> rfl
  · intro l
    exact (scan_serial_error state ttype s l _).1
  · intro r hr
    have h := acquire_from_serial_error state ttype s transport_list fuel _ _ _ r hr
    unfold serial_error at h
    refine ⟨?_, ?_, ?_⟩ <;> intro hc <;> rw [hc] at h <;> simp at h
  · intro t hf ho
    unfold acquire_one_transport
    rw [acquire_from]
    have hl := (scan_loop_serial ttype s (transport_list 0)
      ⟨none, false, set_error e (some "device not found")⟩).1
    have hf1 : (transport_list 0).find? (serial_match s) = some t := hf
    rw [hf1] at hl
    have hs : scan CS_ANY ttype (some s) (transport_list 0) ⟨none, false, e⟩ =
        scan_loop ttype (some s) (transport_list 0)
          ⟨none, false, set_error e (some "device not found")⟩ :=
      check_candidate_keep CS_ANY _ t hl ho (Or.inl rfl)
    rw [hs]
    simp only [hl, Option.isSome_some, if_true]
    rcases (scan_loop_serial ttype s (transport_list 0)
      ⟨none, false, set_error e (some "device not found")⟩).2.2.1 with h3 | h3 <;>
      rw [h3] <;> simp [set_error_set_error]

theorem select_by_serial_witness :
    acquire_one_transport 1
        (fun _ => [emulator CS_NOPERM, usb_device, emulator CS_DEVICE, emulator CS_HOST])
        CS_ANY kTransportUsb (some "emulator-5554") (some (some "unset")) =
      some { result := some (emulator CS_DEVICE), error_out := some none, sleeps := [] } :=
  (select_by_serial 0
    (fun _ => [emulator CS_NOPERM, usb_device, emulator CS_DEVICE, emulator CS_HOST])
    CS_ANY kTransportUsb "emulator-5554" (some (some "unset"))).2.2.2
    (emulator CS_DEVICE) (by decide) (by decide)

theorem scan_loop_error_set (ttype : transport_type) (serial : Option String)
    (l : List atransport) :
    ∀ (st : scan_state) (m : Option String),
      set_error (scan_loop ttype serial l st).error_out m = set_error st.error_out m := by
  induction l with
  | nil => intro st m; rfl
  | cons t rest ih =>
    intro st m
    cases serial with
    | some s =>
      rw [scan_loop]
      by_cases hn : t.connection_state = CS_NOPERM
      · simp only [hn, if_true]
        rw [ih, set_error_set_error]
      · simp only [hn, if_false]
        by_cases hs : t.serial = some s
        · simp [hs]
        · simp only [hs, if_false]; rw [ih]
    | none =>
      rw [scan_loop]
      by_cases hn : t.connection_state = CS_NOPERM
      · simp only [hn, if_true]
        rw [ih, set_error_set_error]
      · simp only [hn, if_false]
        split_ifs <;> first | rw [ih] | simp only [set_error_set_error]

/-- C9: when the loop of a scan has selected a candidate: if the candidate is
Offline the scan fails with "device offline", whatever state was required;
otherwise, if the required state is not ANY and differs from the candidate's
state, the scan fails with "invalid device state"; otherwise the candidate is
returned and the error is set to `NULL`. -/
theorem candidate_check (fuel k : Nat) (transport_list : Nat → List atransport) (state : cs)
    (ttype : transport_type) (serial : Option String) (e : Option (Option String))
    (sleeps : List Nat) (t : atransport)
    (h : (scan_loop ttype serial (transport_list k)
            ⟨none, false, set_error e (some "device not found")⟩).result = some t) :
    (t.connection_state = CS_OFFLINE →
      (scan state ttype serial (transport_list k) ⟨none, false, e⟩).result = none ∧
      (scan state ttype serial (transport_list k) ⟨none, false, e⟩).error_out =
        set_error e (some "device offline")) ∧
    (t.connection_state ≠ CS_OFFLINE → state ≠ CS_ANY → t.connection_state ≠ state →
      (scan state ttype serial (transport_list k) ⟨none, false, e⟩).result = none ∧
      (scan state ttype serial (transport_list k) ⟨none, false, e⟩).error_out =
        set_error e (some "invalid device state")) ∧
    (t.connection_state ≠ CS_OFFLINE → (state = CS_ANY ∨ t.connection_state = state) →
      acquire_from state ttype serial transport_list (fuel + 1) k ⟨none, false, e⟩ sleeps =
        some { result := some t, error_out := set_error e none, sleeps := sleeps }) := by
  refine ⟨?_, ?_, ?_⟩
  · intro ho
    unfold scan
    rw [check_candidate_offline state _ t h ho]
    exact ⟨rfl, by simp only [scan_loop_error_set, set_error_set_error]⟩
  · intro ho hs hd
    unfold scan
    rw [check_candidate_state state _ t h ho hs hd]
    exact ⟨rfl, by simp only [scan_loop_error_set, set_error_set_error]⟩
  · intro ho hs
    rw [acquire_from]
    have hk : scan state ttype serial (transport_list k) ⟨none, false, e⟩ =
        scan_loop ttype serial (transport_list k)
          ⟨none, false, set_error e (some "device not found")⟩ :=
      check_candidate_keep state _ t h ho hs
    rw [hk]
    simp only [h, Option.isSome_some, if_true, scan_loop_error_set, set_error_set_error]

theorem candidate_check_witness :
    (scan CS_DEVICE kTransportUsb none [usb_recovery] ⟨none, false, some none⟩).result = none ∧
    (scan CS_DEVICE kTransportUsb none [usb_recovery] ⟨none, false, some none⟩).error_out =
      some (some "invalid device state") :=
  (candidate_check 0 0 (fun _ => [usb_recovery]) CS_DEVICE kTransportUsb none (some none) []
    usb_recovery (by decide)).2.1 (by decide) (by decide) (by decide)

/-- C10 as stated fails: with a NoPermission transport and a USB transport in
state Device registered, a scan for an emulator without serial ends with no
candidate and no ambiguity, and the error is the insufficient-permissions
message although a transport in another state is registered. -/
theorem not_found_error_counterexample :
    ¬ (∀ (state : cs) (ttype : transport_type) (serial : Option String)
        (l : List atransport) (e : Option (Option String)),
        (scan_loop ttype serial l ⟨none, false, set_error e (some "device not found")⟩).result
          = none →
        (scan_loop ttype serial l ⟨none, false, set_error e (some "device not found")⟩).ambiguous
          = false →
        ((l ≠ [] ∧ ∀ t ∈ l, t.connection_state = CS_NOPERM) →
          (scan state ttype serial l ⟨none, false, e⟩).error_out =
            set_error e (some "insufficient permissions for device")) ∧
        (¬ (l ≠ [] ∧ ∀ t ∈ l, t.connection_state = CS_NOPERM) →
          (scan state ttype serial l ⟨none, false, e⟩).error_out =
            set_error e (some "device not found"))) := by
  intro h
  have h1 := (h CS_ANY kTransportLocal none
    [{ serial := none, type := kTransportUsb, connection_state := CS_NOPERM },
     { serial := none, type := kTransportUsb, connection_state := CS_DEVICE }] (some none)
    (by decide) (by decide)).2 (by decide)
  revert h1
  decide

/-- C10, amended: a scan that ends with no candidate and no ambiguity leaves the
insufficient-permissions message if at least one registered transport is in state
NoPermission, and "device not found" if none is. -/
theorem not_found_error (state : cs) (ttype : transport_type) (serial : Option String)
    (l : List atransport) (e : Option (Option String))
    (hr : (scan_loop ttype serial l
            ⟨none, false, set_error e (some "device not found")⟩).result = none)
    (ha : (scan_loop ttype serial l
            ⟨none, false, set_error e (some "device not found")⟩).ambiguous = false) :
    ((∃ t ∈ l, t.connection_state = CS_NOPERM) →
      (scan state ttype serial l ⟨none, false, e⟩).error_out =
        set_error e (some "insufficient permissions for device")) ∧
    ((∀ t ∈ l, t.connection_state ≠ CS_NOPERM) →
      (scan state ttype serial l ⟨none, false, e⟩).error_out =
        set_error e (some "device not found")) := by
  have hscan : (scan state ttype serial l ⟨none, false, e⟩).error_out =
      seen_error l (set_error e (some "device not found")) := by
    unfold scan
    rw [check_candidate_none state _ hr]
    cases serial with
    | some s =>
      have h1 := (scan_loop_serial ttype s l
        ⟨none, false, set_error e (some "device not found")⟩).1
      rw [hr] at h1
      have hf : l.find? (serial_match s) = none := by
        cases hfx : l.find? (serial_match s) with
        | none => rfl
        | some x => rw [hfx] at h1; simp at h1
      exact (scan_loop_serial ttype s l _).2.2.2 hf
    | none =>
      rw [scan_loop_none_eq] at hr ha ⊢
      unfold select_spec at hr ha ⊢
      rcases hm : matching ttype l with _ | ⟨m1, _ | ⟨m2, tl⟩⟩
      · rfl
      · rw [hm] at hr
      · rw [hm] at ha; simp at ha
  rw [hscan]
  constructor
  · rintro ⟨t, ht, hn⟩
    have : l.any (fun t => decide (t.connection_state = CS_NOPERM)) = true := by
      rw [List.any_eq_true]
      exact ⟨t, ht, by simp [hn]⟩
    simp [seen_error, this, set_error_set_error]
  · intro hall
    have : l.any (fun t => decide (t.connection_state = CS_NOPERM)) = false := by
      rw [List.any_eq_false]
      intro t ht
      simp [hall t ht]
    simp [seen_error, this]

theorem not_found_error_witness :
    (scan CS_ANY kTransportLocal none [usb_noperm, usb_device] ⟨none, false, some none⟩).error_out =
      some (some "insufficient permissions for device") :=
  (not_found_error CS_ANY kTransportLocal none [usb_noperm, usb_device] (some none)
    (by decide) (by decide)).1 ⟨usb_noperm, by decide, by decide⟩

theorem retry_state (state : cs) (ttype : transport_type) (serial : Option String)
    (l : List atransport) (e : Option (Option String))
    (h1 : (scan state ttype serial l ⟨none, false, e⟩).result = none)
    (h2 : serial.isSome = true ∨ (scan state ttype serial l ⟨none, false, e⟩).ambiguous = false) :
    scan state ttype serial l ⟨none, false, e⟩ =
      ⟨none, false, (scan state ttype serial l ⟨none, false, e⟩).error_out⟩ := by
  have ha : (scan state ttype serial l ⟨none, false, e⟩).ambiguous = false := by
    rcases h2 with h2 | h2
    · cases serial with
      | none => simp at h2
      | some s => exact (scan_serial_error state ttype s l _).1
    · exact h2
  generalize scan state ttype serial l ⟨none, false, e⟩ = st at h1 ha
  obtain ⟨r, a, x⟩ := st
  simp only at h1 ha
  rw [h1, ha]

/-! ## The retry policy -/

theorem scan_error_set (state : cs) (ttype : transport_type) (serial : Option String)
    (l : List atransport) (st : scan_state) (m : Option String) :
    set_error (scan state ttype serial l st).error_out m = set_error st.error_out m := by
  unfold scan
  rcases (check_candidate_error state
    (scan_loop ttype serial l
      { st with error_out := set_error st.error_out (some "device not found") })).2
    with h | h | h <;>
    rw [h] <;> simp only [set_error_set_error, scan_loop_error_set]

theorem scan_ambiguous_error (state : cs) (ttype : transport_type) (l : List atransport)
    (e : Option (Option String))
    (h : (scan state ttype none l ⟨none, false, e⟩).ambiguous = true) :
    (scan state ttype none l ⟨none, false, e⟩).error_out =
      set_error e (some (more_than_one ttype)) := by
  unfold scan at h ⊢
  rw [(check_candidate_error state _).1] at h
  have hc : scan_loop ttype none l ⟨none, false, set_error e (some "device not found")⟩ =
      ⟨none, true, set_error e (some (more_than_one ttype))⟩ := by
    rw [scan_loop_none_eq] at h ⊢
    unfold select_spec at h ⊢
    rcases hm : matching ttype l with _ | ⟨m1, _ | ⟨m2, tl⟩⟩
    · rw [hm] at h; simp at h
    · rw [hm] at h; simp at h
    · simp [set_error_set_error]
  show (check_candidate state
    (scan_loop ttype none l ⟨none, false, set_error e (some "device not found")⟩)).error_out = _
  rw [hc, check_candidate_none state _ rfl]

/-- C11: the retry policy. After a scan the selector sleeps 1000 ms and restarts
the whole scan exactly when the scan failed, the required state is not ANY, and a
serial was given or the scan was not ambiguous; in every other case it returns the
result of the scan at once. A call with required state ANY returns after exactly
one scan. -/
theorem retry_policy (state : cs) (ttype : transport_type) (serial : Option String)
    (transport_list : Nat → List atransport) (fuel k : Nat) (e : Option (Option String))
    (sleeps : List Nat) :
    (((scan state ttype serial (transport_list k) ⟨none, false, e⟩).result = none ∧
        state ≠ CS_ANY ∧
        (serial.isSome = true ∨
          (scan state ttype serial (transport_list k) ⟨none, false, e⟩).ambiguous = false)) →
      acquire_from state ttype serial transport_list (fuel + 1) k ⟨none, false, e⟩ sleeps =
        acquire_from state ttype serial transport_list fuel (k + 1)
          ⟨none, false, (scan state ttype serial (transport_list k) ⟨none, false, e⟩).error_out⟩
          (sleeps ++ [1000])) ∧
    (¬ ((scan state ttype serial (transport_list k) ⟨none, false, e⟩).result = none ∧
        state ≠ CS_ANY ∧
        (serial.isSome = true ∨
          (scan state ttype serial (transport_list k) ⟨none, false, e⟩).ambiguous = false)) →
      acquire_from state ttype serial transport_list (fuel + 1) k ⟨none, false, e⟩ sleeps =
        some { result := (scan state ttype serial (transport_list k) ⟨none, false, e⟩).result,
               error_out :=
                 if (scan state ttype serial (transport_list k) ⟨none, false, e⟩).result.isSome
                 then set_error e none
                 else (scan state ttype serial (transport_list k) ⟨none, false, e⟩).error_out,
               sleeps := sleeps }) ∧
    (acquire_from state ttype serial transport_list 1 k ⟨none, false, e⟩ sleeps = none ↔
      ((scan state ttype serial (transport_list k) ⟨none, false, e⟩).result = none ∧
        state ≠ CS_ANY ∧
        (serial.isSome = true ∨
          (scan state ttype serial (transport_list k) ⟨none, false, e⟩).ambiguous = false))) ∧
    acquire_one_transport (fuel + 1) transport_list CS_ANY ttype serial e =
      some { result := (scan CS_ANY ttype serial (transport_list 0) ⟨none, false, e⟩).result,
             error_out :=
               if (scan CS_ANY ttype serial (transport_list 0) ⟨none, false, e⟩).result.isSome
               then set_error e none
               else (scan CS_ANY ttype serial (transport_list 0) ⟨none, false, e⟩).error_out,
             sleeps := [] } := by
  have step : ∀ (state : cs) (fuel : Nat) (sleeps : List Nat),
      ¬ ((scan state ttype serial (transport_list k) ⟨none, false, e⟩).result = none ∧
        state ≠ CS_ANY ∧
        (serial.isSome = true ∨
          (scan state ttype serial (transport_list k) ⟨none, false, e⟩).ambiguous = false)) →
      acquire_from state ttype serial transport_list (fuel + 1) k ⟨none, false, e⟩ sleeps =
        some { result := (scan state ttype serial (transport_list k) ⟨none, false, e⟩).result,
               error_out :=
                 if (scan state ttype serial (transport_list k) ⟨none, false, e⟩).result.isSome
                 then set_error e none
                 else (scan state ttype serial (transport_list k) ⟨none, false, e⟩).error_out,
               sleeps := sleeps } := by
    intro state fuel sleeps hc
    rw [acquire_from]
    cases hr : (scan state ttype serial (transport_list k) ⟨none, false, e⟩).result with
    | some t => simp [scan_error_set]
    | none =>
      rw [hr] at hc
      have hc2 : ¬ (state ≠ CS_ANY ∧ (serial.isSome = true ∨
          (scan state ttype serial (transport_list k) ⟨none, false, e⟩).ambiguous = false)) :=
        fun h => hc ⟨rfl, h⟩
      simp only [Option.isSome_none, Bool.false_eq_true, if_false, hc2]
  have retry : ∀ (fuel : Nat),
      ((scan state ttype serial (transport_list k) ⟨none, false, e⟩).result = none ∧
        state ≠ CS_ANY ∧
        (serial.isSome = true ∨
          (scan state ttype serial (transport_list k) ⟨none, false, e⟩).ambiguous = false)) →
      acquire_from state ttype serial transport_list (fuel + 1) k ⟨none, false, e⟩ sleeps =
        acquire_from state ttype serial transport_list fuel (k + 1)
          ⟨none, false, (scan state ttype serial (transport_list k) ⟨none, false, e⟩).error_out⟩
          (sleeps ++ [1000]) := by
    intro fuel hc
    rw [acquire_from]
    have hst := retry_state state ttype serial (transport_list k) e hc.1 hc.2.2
    have h1 : (scan state ttype serial (transport_list k) ⟨none, false, e⟩).result.isSome
        = false := by rw [hc.1]; rfl
    simp only [h1, Bool.false_eq_true, if_false]
    rw [if_pos hc.2, ← hst]
  refine ⟨retry fuel, step state fuel sleeps, ?_, ?_⟩
  · constructor
    · intro h
      by_contra hc
      rw [step state 0 sleeps hc] at h
      simp at h
    · intro hc
      rw [retry 0 hc, acquire_from]
  · unfold acquire_one_transport
    rw [acquire_from]
    cases hr : (scan CS_ANY ttype serial (transport_list 0) ⟨none, false, e⟩).result <;>
      simp [scan_error_set]

theorem acquire_from_failure (state : cs) (ttype : transport_type) (serial : Option String)
    (transport_list : Nat → List atransport) (hs : state ≠ CS_ANY) (fuel : Nat) :
    ∀ (k : Nat) (e : Option (Option String)) (sleeps : List Nat) (r : acquired),
      acquire_from state ttype serial transport_list fuel k ⟨none, false, e⟩ sleeps = some r →
      r.result = none →
      serial = none ∧ r.error_out = set_error e (some (more_than_one ttype)) := by
  induction fuel with
  | zero => intro k e sleeps r h; simp [acquire_from] at h
  | succ n ih =>
    intro k e sleeps r h hn
    rw [acquire_from] at h
    cases hr : (scan state ttype serial (transport_list k) ⟨none, false, e⟩).result with
    | some t =>
      simp only [hr, Option.isSome_some, if_true, Option.some.injEq] at h
      rw [← h] at hn
      simp at hn
    | none =>
      simp only [hr, Option.isSome_none, Bool.false_eq_true, if_false] at h
      by_cases hc : serial.isSome = true ∨
          (scan state ttype serial (transport_list k) ⟨none, false, e⟩).ambiguous = false
      · rw [if_pos ⟨hs, hc⟩, retry_state state ttype serial (transport_list k) e hr hc] at h
        obtain ⟨h1, h2⟩ := ih _ _ _ _ h hn
        exact ⟨h1, by rw [h2, scan_error_set]⟩
      · rw [if_neg (fun hh => hc hh.2)] at h
        simp only [Option.some.injEq] at h
        have hser : serial = none := by
          cases serial with
          | none => rfl
          | some s => exact absurd (Or.inl rfl) hc
        subst hser
        have ha : (scan state ttype none (transport_list k) ⟨none, false, e⟩).ambiguous
            = true := by
          cases hb : (scan state ttype none (transport_list k) ⟨none, false, e⟩).ambiguous with
          | true => rfl
          | false => exact absurd (Or.inr hb) hc
        refine ⟨rfl, ?_⟩
        rw [← h]
        exact scan_ambiguous_error state ttype (transport_list k) e ha

/-- C12 as stated fails: with required state ANY a failed scan is returned at
once. On an empty registry the call with state ANY, class Any and no serial
returns `NULL` with "device not found" after one scan, without sleeping. -/
theorem failures_retried_counterexample :
    ¬ (∀ (state : cs) (ttype : transport_type) (serial : Option String)
        (transport_list : Nat → List atransport) (fuel k : Nat) (e : Option (Option String))
        (sleeps : List Nat),
        (scan state ttype serial (transport_list k) ⟨none, false, e⟩).result = none →
        ¬ (serial = none ∧
            (scan state ttype serial (transport_list k) ⟨none, false, e⟩).ambiguous = true) →
        acquire_from state ttype serial transport_list (fuel + 1) k ⟨none, false, e⟩ sleeps =
          acquire_from state ttype serial transport_list fuel (k + 1)
            ⟨none, false,
              (scan state ttype serial (transport_list k) ⟨none, false, e⟩).error_out⟩
            (sleeps ++ [1000])) := by
  intro h
  have h1 := h CS_ANY kTransportAny none (fun _ => []) 0 0 (some none) []
    (by decide) (by decide)
  revert h1
  decide

/-- C12, amended: when the required state is not ANY, a scan that fails with
NotFound, PermissionDenied, Offline or WrongState (any failure but the ambiguity
of a call without serial) is not returned: the selector sleeps 1000 ms and
rescans; and the only failure that such a call ever returns is the ambiguity of
a call without serial. -/
theorem failures_retried (state : cs) (ttype : transport_type) (serial : Option String)
    (transport_list : Nat → List atransport) (hs : state ≠ CS_ANY) :
    (∀ (fuel k : Nat) (e : Option (Option String)) (sleeps : List Nat),
      (scan state ttype serial (transport_list k) ⟨none, false, e⟩).result = none →
      ¬ (serial = none ∧
          (scan state ttype serial (transport_list k) ⟨none, false, e⟩).ambiguous = true) →
      acquire_from state ttype serial transport_list 1 k ⟨none, false, e⟩ sleeps = none ∧
      acquire_from state ttype serial transport_list (fuel + 1) k ⟨none, false, e⟩ sleeps =
        acquire_from state ttype serial transport_list fuel (k + 1)
          ⟨none, false, (scan state ttype serial (transport_list k) ⟨none, false, e⟩).error_out⟩
          (sleeps ++ [1000])) ∧
    (∀ (fuel : Nat) (e : Option (Option String)) (r : acquired),
      acquire_one_transport fuel transport_list state ttype serial e = some r →
      r.result = none →
      serial = none ∧
      r.error_out = set_error e (some (match ttype with
        | kTransportUsb => "more than one device"
        | kTransportLocal => "more than one emulator"
        | kTransportAny => "more than one device and emulator"))) := by
  constructor
  · intro fuel k e sleeps hr ha
    have hc : serial.isSome = true ∨
        (scan state ttype serial (transport_list k) ⟨none, false, e⟩).ambiguous = false := by
      cases serial with
      | some s => exact Or.inl rfl
      | none =>
        right
        cases hb : (scan state ttype none (transport_list k) ⟨none, false, e⟩).ambiguous with
        | false => rfl
        | true => exact absurd ⟨rfl, hb⟩ ha
    have step : ∀ fuel : Nat,
        acquire_from state ttype serial transport_list (fuel + 1) k ⟨none, false, e⟩ sleeps =
          acquire_from state ttype serial transport_list fuel (k + 1)
            ⟨none, false,
              (scan state ttype serial (transport_list k) ⟨none, false, e⟩).error_out⟩
            (sleeps ++ [1000]) := by
      intro fuel
      rw [acquire_from]
      have h1 : (scan state ttype serial (transport_list k) ⟨none, false, e⟩).result.isSome
          = false := by rw [hr]; rfl
      simp only [h1, Bool.false_eq_true, if_false]
      rw [if_pos ⟨hs, hc⟩, ← retry_state state ttype serial (transport_list k) e hr hc]
    refine ⟨?_, step fuel⟩
    rw [step 0, acquire_from]
  · intro fuel e r h hn
    obtain ⟨h1, h2⟩ := acquire_from_failure state ttype serial transport_list hs fuel 0 e [] r h hn
    refine ⟨h1, ?_⟩
    rw [h2]
    cases ttype <;> rfl

theorem failures_retried_witness :
    acquire_from CS_DEVICE kTransportUsb none (fun _ => [usb_noperm]) 1 0
        ⟨none, false, some none⟩ [] = none ∧
    acquire_from CS_DEVICE kTransportUsb none (fun _ => [usb_noperm]) 3 0
        ⟨none, false, some none⟩ [] =
      acquire_from CS_DEVICE kTransportUsb none (fun _ => [usb_noperm]) 2 1
        ⟨none, false,
          (scan CS_DEVICE kTransportUsb none [usb_noperm] ⟨none, false, some none⟩).error_out⟩
        ([] ++ [1000]) :=
  (failures_retried CS_DEVICE kTransportUsb none (fun _ => [usb_noperm]) (by decide)).1
    2 0 (some none) [] (by decide) (by decide)

/-! ## Kick and unref -/

theorem kicks_append (t : Nat) (l1 l2 : List event) :
    kicks t (l1 ++ l2) = kicks t l1 + kicks t l2 := by
  unfold kicks
  exact List.count_append _ _ _

theorem kicks_kick (t a : Nat) : kicks t [event.kick a] = if a = t then 1 else 0 := by
  unfold kicks
  by_cases h : a = t
  · subst h; simp
  · have hne : event.kick a ≠ event.kick t := by
      intro hc
      injection hc with hc
      exact h hc
    simp [h, List.count_singleton, hne]

theorem kick_step_refl (t : Nat) (w : world) : kick_step t w w :=
  Or.inl ⟨rfl, rfl⟩

theorem kick_step_trans (t : Nat) (w w1 w2 : world) (h1 : kick_step t w w1)
    (h2 : kick_step t w1 w2) : kick_step t w w2 := by
  unfold kick_step at *
  rcases h1 with ⟨a1, b1⟩ | ⟨a1, b1, c1⟩
  · rcases h2 with ⟨a2, b2⟩ | ⟨a2, b2, c2⟩
    · left; exact ⟨by rw [a2, a1], by rw [b2, b1]⟩
    · right; exact ⟨by rw [← a1, a2], b2, by rw [c2, b1]⟩
  · rcases h2 with ⟨a2, b2⟩ | ⟨a2, b2, c2⟩
    · right; exact ⟨a1, by rw [a2, b1], by rw [b2, c1]⟩
    · rw [b1] at a2; exact absurd a2 (by decide)

theorem do_kick_step (t a : Nat) (w : world) (h : (w.heap a).kicked = 0) :
    kick_step t w (do_kick a w) := by
  unfold kick_step do_kick
  by_cases hat : a = t
  · subst hat
    right
    simp [h, kicks_append, kicks_kick]
  · left
    have hne : t ≠ a := fun hh => hat hh.symm
    simp [Function.update_noteq hne, kicks_append, kicks_kick, hat]

theorem kick_transport_eq (a : Nat) (w : world) :
    kick_transport (some a) w = if (w.heap a).kicked = 0 then do_kick a w else w := by
  unfold kick_transport do_kick
  by_cases h : (w.heap a).kicked = 0 <;> simp [h]

theorem kick_transport_step (t : Nat) (a : Option Nat) (w : world) :
    kick_step t w (kick_transport a w) := by
  cases a with
  | none => exact kick_step_refl t w
  | some a =>
    rw [kick_transport_eq]
    by_cases h : (w.heap a).kicked = 0
    · rw [if_pos h]; exact do_kick_step t a w h
    · rw [if_neg h]; exact kick_step_refl t w

theorem log_step (t : Nat) (w : world) (e : event) (he : ∀ a, e ≠ event.kick a) :
    kick_step t w { w with log := w.log ++ [e] } := by
  left
  refine ⟨rfl, ?_⟩
  rw [kicks_append]
  unfold kicks
  simp [List.count_singleton, he t]

theorem ref_count_step (t a : Nat) (w : world) (v : Int) :
    kick_step t w { w with heap := Function.update w.heap a { w.heap a with ref_count := v } } := by
  left
  refine ⟨?_, rfl⟩
  by_cases hat : t = a
  · subst hat; simp
  · simp [Function.update_noteq hat]

theorem unref_tail_step (t a : Nat) (w w1 : world) (h1 : kick_step t w w1) :
    kick_step t w
      (if (w1.heap a).ref_count = 0 then
        remove_transport a
          { (if (w1.heap a).kicked = 0 then do_kick a w1 else w1) with
            log := (if (w1.heap a).kicked = 0 then do_kick a w1 else w1).log ++ [event.close a] }
      else w1) := by
  split_ifs with hz hk
  · refine kick_step_trans t w w1 _ h1 ?_
    refine kick_step_trans t w1 (do_kick a w1) _ (do_kick_step t a w1 hk) ?_
    refine kick_step_trans t _ _ _ (log_step t _ (event.close a) (by intro x hx; cases hx)) ?_
    exact log_step t _ _ (by intro x hx; cases hx)
  · refine kick_step_trans t w w1 _ h1 ?_
    refine kick_step_trans t _ _ _ (log_step t _ (event.close a) (by intro x hx; cases hx)) ?_
    exact log_step t _ _ (by intro x hx; cases hx)
  · exact h1

theorem transport_unref_step (t : Nat) (a : Option Nat) (w : world) :
    kick_step t w (transport_unref a w) := by
  cases a with
  | none => exact kick_step_refl t w
  | some a =>
    exact unref_tail_step t a w _ (ref_count_step t a w ((w.heap a).ref_count - 1))

theorem close_usb_devices_loop_step (t : Nat) (l : List Nat) :
    ∀ w : world, kick_step t w (close_usb_devices_loop l w) := by
  induction l with
  | nil => intro w; exact kick_step_refl t w
  | cons a rest ih =>
    intro w
    rw [close_usb_devices_loop]
    by_cases h : (w.heap a).kicked = 0
    · rw [if_pos h]
      exact kick_step_trans t _ _ _ (do_kick_step t a w h) (ih _)
    · rw [if_neg h]
      exact ih w

theorem run_call_step (t : Nat) (c : call) (w : world) : kick_step t w (run_call c w) := by
  cases c with
  | kick_transport a => exact kick_transport_step t a w
  | transport_unref a => exact transport_unref_step t a w
  | close_usb_devices => exact close_usb_devices_loop_step t _ w

theorem run_calls_step (t : Nat) (calls : List call) :
    ∀ w : world, kick_step t w (run_calls calls w) := by
  induction calls with
  | nil => intro w; exact kick_step_refl t w
  | cons c rest ih =>
    intro w
    rw [run_calls]
    exact kick_step_trans t _ _ _ (run_call_step t c w) (ih _)

theorem run_calls_append (l1 l2 : List call) :
    ∀ w : world, run_calls (l1 ++ l2) w = run_calls l2 (run_calls l1 w) := by
  induction l1 with
  | nil => intro w; rfl
  | cons c rest ih => intro w; simp only [List.cons_append, run_calls]; exact ih _

theorem kick_step_kicked (t : Nat) (w w1 : world) (h : kick_step t w w1)
    (hk : (w.heap t).kicked ≠ 0) :
    (w1.heap t).kicked = (w.heap t).kicked ∧ kicks t w1.log = kicks t w.log := by
  rcases h with h | ⟨h0, _, _⟩
  · exact h
  · exact absurd h0 hk

theorem kick_transport_fresh (t : Nat) (w : world) (h : (w.heap t).kicked = 0) :
    ((kick_transport (some t) w).heap t).kicked = 1 ∧
    (kick_transport (some t) w).log = w.log ++ [event.kick t] := by
  rw [kick_transport_eq, if_pos h]
  simp [do_kick]

theorem kicks_nil (t : Nat) : kicks t [] = 0 := rfl

theorem kicks_cons (t : Nat) (e : event) (l : List event) :
    kicks t (e :: l) = kicks t l + (if e = event.kick t then 1 else 0) := by
  unfold kicks
  rw [List.count_cons]
  simp

theorem do_kick_other (t a : Nat) (w : world) (h : a ≠ t) :
    kicks t (do_kick a w).log = kicks t w.log ∧ (do_kick a w).heap t = w.heap t := by
  have hne : t ≠ a := fun hh => h hh.symm
  unfold do_kick
  simp [Function.update_noteq hne, kicks_append, kicks_kick, h]

theorem do_kick_self (t : Nat) (w : world) :
    kicks t (do_kick t w).log = kicks t w.log + 1 ∧ ((do_kick t w).heap t).kicked = 1 := by
  unfold do_kick
  simp [kicks_append, kicks_kick]

theorem close_usb_devices_loop_kicks (t : Nat) (l : List Nat) :
    ∀ w : world,
      kicks t (close_usb_devices_loop l w).log =
        kicks t w.log + (if t ∈ l ∧ (w.heap t).kicked = 0 then 1 else 0) ∧
      ((close_usb_devices_loop l w).heap t).kicked =
        (if t ∈ l ∧ (w.heap t).kicked = 0 then 1 else (w.heap t).kicked) := by
  induction l with
  | nil => intro w; simp [close_usb_devices_loop]
  | cons a rest ih =>
    intro w
    rw [close_usb_devices_loop]
    by_cases hat : a = t
    · subst hat
      by_cases h : (w.heap a).kicked = 0
      · rw [if_pos h]
        obtain ⟨k1, k2⟩ := do_kick_self a w
        obtain ⟨i1, i2⟩ := ih (do_kick a w)
        have hno : ¬ (a ∈ rest ∧ ((do_kick a w).heap a).kicked = 0) := by
          rw [k2]; intro hc; exact absurd hc.2 (by decide)
        rw [if_neg hno] at i1 i2
        rw [i1, i2, k1, k2]
        simp [h]
      · rw [if_neg h]
        obtain ⟨i1, i2⟩ := ih w
        have hno : ¬ (a ∈ rest ∧ (w.heap a).kicked = 0) := fun hc => h hc.2
        have hno2 : ¬ (a ∈ a :: rest ∧ (w.heap a).kicked = 0) := fun hc => h hc.2
        rw [if_neg hno] at i1 i2
        rw [i1, i2, if_neg hno2, if_neg hno2]
        exact ⟨rfl, rfl⟩
    · have hmem : t ∈ a :: rest ↔ t ∈ rest := by
        constructor
        · intro hm
          rcases List.mem_cons.1 hm with hm | hm
          · exact absurd hm.symm hat
          · exact hm
        · exact List.mem_cons_of_mem a
      by_cases h : (w.heap a).kicked = 0
      · rw [if_pos h]
        obtain ⟨k1, k2⟩ := do_kick_other t a w hat
        obtain ⟨i1, i2⟩ := ih (do_kick a w)
        rw [i1, i2, k1, k2]
        simp only [hmem]
        exact ⟨trivial, trivial⟩
      · rw [if_neg h]
        obtain ⟨i1, i2⟩ := ih w
        rw [i1, i2]
        simp only [hmem]
        exact ⟨trivial, trivial⟩

theorem transport_unref_kicks (t : Nat) (a : Option Nat) (w : world) :
    kicks t (transport_unref a w).log =
      kicks t w.log +
        (if a = some t ∧ (w.heap t).ref_count - 1 = 0 ∧ (w.heap t).kicked = 0 then 1 else 0) ∧
    ((transport_unref a w).heap t).kicked =
      (if a = some t ∧ (w.heap t).ref_count - 1 = 0 ∧ (w.heap t).kicked = 0 then 1
       else (w.heap t).kicked) := by
  cases a with
  | none => simp [transport_unref]
  | some a =>
    by_cases hat : a = t
    · subst hat
      by_cases hz : (w.heap a).ref_count - 1 = 0
      · by_cases hk : (w.heap a).kicked = 0
        · simp [transport_unref, remove_transport, do_kick, hz, hk, kicks_append, kicks_cons,
            kicks_nil]
        · simp [transport_unref, remove_transport, do_kick, hz, hk, kicks_append, kicks_cons,
            kicks_nil]
      · simp [transport_unref, hz]
    · have hne : t ≠ a := fun hh => hat hh.symm
      have hsome : ¬ (some a = some t) := fun hh => hat (Option.some.inj hh)
      by_cases hz : (w.heap a).ref_count - 1 = 0
      · by_cases hk : (w.heap a).kicked = 0
        · simp [transport_unref, remove_transport, do_kick, hz, hk, kicks_append, kicks_cons,
            kicks_nil, hat, hne, Function.update_noteq hne]
        · simp [transport_unref, remove_transport, do_kick, hz, hk, kicks_append, kicks_cons,
            kicks_nil, hat, hne, Function.update_noteq hne]
      · simp [transport_unref, hz, hat, hne, Function.update_noteq hne]

theorem kick_transport_kicks (t : Nat) (a : Option Nat) (w : world) :
    kicks t (kick_transport a w).log =
      kicks t w.log + (if a = some t ∧ (w.heap t).kicked = 0 then 1 else 0) ∧
    ((kick_transport a w).heap t).kicked =
      (if a = some t ∧ (w.heap t).kicked = 0 then 1 else (w.heap t).kicked) := by
  cases a with
  | none => simp [kick_transport]
  | some a =>
    rw [kick_transport_eq]
    by_cases hat : a = t
    · subst hat
      by_cases hk : (w.heap a).kicked = 0
      · rw [if_pos hk]
        obtain ⟨k1, k2⟩ := do_kick_self a w
        rw [k1, k2]; simp [hk]
      · rw [if_neg hk]; simp [hk]
    · have hsome : ¬ (some a = some t) := fun hh => hat (Option.some.inj hh)
      by_cases hk : (w.heap a).kicked = 0
      · rw [if_pos hk]
        obtain ⟨k1, k2⟩ := do_kick_other t a w hat
        rw [k1, k2]; simp [hat]
      · rw [if_neg hk]; simp [hat]

theorem run_call_kicks (t : Nat) (c : call) (w : world) :
    kicks t (run_call c w).log =
      kicks t w.log +
        (if observes_kicked t c w = true ∧ (w.heap t).kicked = 0 then 1 else 0) ∧
    ((run_call c w).heap t).kicked =
      (if observes_kicked t c w = true ∧ (w.heap t).kicked = 0 then 1
       else (w.heap t).kicked) := by
  cases c with
  | kick_transport a =>
    have h := kick_transport_kicks t a w
    simpa [run_call, observes_kicked] using h
  | transport_unref a =>
    have h := transport_unref_kicks t a w
    simpa [run_call, observes_kicked, and_assoc] using h
  | close_usb_devices =>
    have h := close_usb_devices_loop_kicks t w.transport_list w
    simpa [run_call, observes_kicked, close_usb_devices] using h

theorem run_calls_unobserved (t : Nat) (calls : List call) :
    ∀ w : world,
      (∀ (pre post : List call) (c : call), calls = pre ++ c :: post →
        observes_kicked t c (run_calls pre w) = false) →
      kicks t (run_calls calls w).log = kicks t w.log ∧
      ((run_calls calls w).heap t).kicked = (w.heap t).kicked := by
  induction calls with
  | nil => intro w _; exact ⟨rfl, rfl⟩
  | cons c rest ih =>
    intro w h
    rw [run_calls]
    have h0 : observes_kicked t c w = false := h [] rest c rfl
    obtain ⟨k1, k2⟩ := run_call_kicks t c w
    have hno : ¬ (observes_kicked t c w = true ∧ (w.heap t).kicked = 0) := by
      rw [h0]; intro hc; exact absurd hc.1 (by decide)
    rw [if_neg hno] at k1 k2
    obtain ⟨i1, i2⟩ := ih (run_call c w) (by
      intro pre post c1 hc
      have := h (c :: pre) post c1 (by rw [hc]; rfl)
      simpa [run_calls] using this)
    exact ⟨by rw [i1, k1]; rfl, by rw [i2, k2]⟩

/-- C13: kick is idempotent. Over any sequence of calls of `kick_transport`,
`transport_unref` and `close_usb_devices` (on any transports), the kick capability
of a transport `t` is invoked at most once; a call invokes it only when it finds
`kicked == 0`, and it then sets `kicked` to 1; once `kicked` is set it stays set
and no later call invokes the capability again; and when `t` starts unkicked and
the sequence holds a `kick_transport(t)`, the capability is invoked exactly
once. Each of the three functions does invoke it when it is the one to read
`kicked == 0`: every call in the sequence that reads `t->kicked`
(`kick_transport(t)`, a `transport_unref(t)` that takes the count to 0,
`close_usb_devices` with `t` in the registry) and finds it 0 invokes the
capability once, nothing before it has, and it sets `kicked` to 1; every other
call leaves `kicked` and the number of kicks of `t` as they are; when `t` starts
unkicked and some call of the sequence reads `t->kicked`, the capability is
invoked exactly once over the sequence, and when none does it is not invoked. -/
theorem kick_idempotent (t : Nat) (calls : List call) (w : world) :
    kicks t (run_calls calls w).log ≤ kicks t w.log + 1 ∧
    (∀ (pre post : List call) (c : call), calls = pre ++ c :: post →
      kicks t (run_call c (run_calls pre w)).log ≠ kicks t (run_calls pre w).log →
      ((run_calls pre w).heap t).kicked = 0 ∧
      ((run_call c (run_calls pre w)).heap t).kicked = 1 ∧
      kicks t (run_call c (run_calls pre w)).log = kicks t (run_calls pre w).log + 1) ∧
    (∀ (pre post : List call), calls = pre ++ post →
      ((run_calls pre w).heap t).kicked ≠ 0 →
      ((run_calls calls w).heap t).kicked ≠ 0 ∧
      kicks t (run_calls calls w).log = kicks t (run_calls pre w).log) ∧
    (∀ (pre post : List call), calls = pre ++ call.kick_transport (some t) :: post →
      ((run_calls pre w).heap t).kicked = 0 →
      (run_call (call.kick_transport (some t)) (run_calls pre w)).log =
        (run_calls pre w).log ++ [event.kick t]) ∧
    ((w.heap t).kicked = 0 → call.kick_transport (some t) ∈ calls →
      kicks t (run_calls calls w).log = kicks t w.log + 1 ∧
      ((run_calls calls w).heap t).kicked ≠ 0) ∧
    (∀ (pre post : List call) (c : call), calls = pre ++ c :: post →
      observes_kicked t c (run_calls pre w) = true →
      ((run_calls pre w).heap t).kicked = 0 →
      kicks t (run_calls pre w).log = kicks t w.log ∧
      kicks t (run_call c (run_calls pre w)).log = kicks t w.log + 1 ∧
      ((run_call c (run_calls pre w)).heap t).kicked = 1) ∧
    (∀ (pre post : List call) (c : call), calls = pre ++ c :: post →
      (observes_kicked t c (run_calls pre w) = false ∨
        ((run_calls pre w).heap t).kicked ≠ 0) →
      kicks t (run_call c (run_calls pre w)).log = kicks t (run_calls pre w).log ∧
      ((run_call c (run_calls pre w)).heap t).kicked = ((run_calls pre w).heap t).kicked) ∧
    (∀ (pre post : List call), calls = pre ++ call.close_usb_devices :: post →
      t ∈ (run_calls pre w).transport_list →
      ((run_calls pre w).heap t).kicked = 0 →
      kicks t (close_usb_devices (run_calls pre w)).log = kicks t (run_calls pre w).log + 1 ∧
      ((close_usb_devices (run_calls pre w)).heap t).kicked = 1) ∧
    (∀ (pre post : List call), calls = pre ++ call.transport_unref (some t) :: post →
      ((run_calls pre w).heap t).ref_count - 1 = 0 →
      ((run_calls pre w).heap t).kicked = 0 →
      kicks t (transport_unref (some t) (run_calls pre w)).log =
        kicks t (run_calls pre w).log + 1 ∧
      ((transport_unref (some t) (run_calls pre w)).heap t).kicked = 1) ∧
    ((w.heap t).kicked = 0 →
      (∃ (pre post : List call) (c : call), calls = pre ++ c :: post ∧
        observes_kicked t c (run_calls pre w) = true) →
      kicks t (run_calls calls w).log = kicks t w.log + 1 ∧
      ((run_calls calls w).heap t).kicked = 1) ∧
    ((∀ (pre post : List call) (c : call), calls = pre ++ c :: post →
        observes_kicked t c (run_calls pre w) = false) →
      kicks t (run_calls calls w).log = kicks t w.log ∧
      ((run_calls calls w).heap t).kicked = (w.heap t).kicked) := by
  have hone : ∀ (post : List call) (w1 : world), (w1.heap t).kicked = 1 →
      kicks t (run_calls post w1).log = kicks t w1.log ∧
      ((run_calls post w1).heap t).kicked = 1 := by
    intro post w1 h1
    have hk : (w1.heap t).kicked ≠ 0 := by rw [h1]; decide
    obtain ⟨a, b⟩ := kick_step_kicked t _ _ (run_calls_step t post w1) hk
    exact ⟨b, by rw [a]; exact h1⟩
  have hpre : ∀ pre : List call, ((run_calls pre w).heap t).kicked = 0 →
      kicks t (run_calls pre w).log = kicks t w.log := by
    intro pre hk
    rcases run_calls_step t pre w with ⟨_, b⟩ | ⟨_, a, _⟩
    · exact b
    · rw [a] at hk; exact absurd hk (by decide)
  have hfirst : ∀ (pre : List call) (c : call),
      observes_kicked t c (run_calls pre w) = true →
      ((run_calls pre w).heap t).kicked = 0 →
      kicks t (run_calls pre w).log = kicks t w.log ∧
      kicks t (run_call c (run_calls pre w)).log = kicks t w.log + 1 ∧
      ((run_call c (run_calls pre w)).heap t).kicked = 1 := by
    intro pre c hobs hk
    obtain ⟨k1, k2⟩ := run_call_kicks t c (run_calls pre w)
    rw [if_pos ⟨hobs, hk⟩] at k1 k2
    exact ⟨hpre pre hk, by rw [k1, hpre pre hk], k2⟩
  refine ⟨?_, ?_, ?_, ?_, ?_, ?_, ?_, ?_, ?_, ?_, ?_⟩
  · rcases run_calls_step t calls w with ⟨_, h⟩ | ⟨_, _, h⟩ <;> omega
  · intro pre post c _ hne
    rcases run_call_step t c (run_calls pre w) with ⟨_, h⟩ | h
    · exact absurd h hne
    · exact h
  · intro pre post hc hk
    rw [hc, run_calls_append]
    obtain ⟨h1, h2⟩ := kick_step_kicked t _ _ (run_calls_step t post (run_calls pre w)) hk
    exact ⟨by rw [h1]; exact hk, h2⟩
  · intro pre post _ hk
    exact (kick_transport_fresh t (run_calls pre w) hk).2
  · intro h0 hmem
    obtain ⟨pre, post, hc⟩ := List.append_of_mem hmem
    rw [hc, run_calls_append, run_calls]
    rcases run_calls_step t pre w with ⟨a, b⟩ | ⟨_, a, b⟩
    · have hk0 : ((run_calls pre w).heap t).kicked = 0 := by rw [a, h0]
      obtain ⟨f1, f2⟩ := kick_transport_fresh t (run_calls pre w) hk0
      obtain ⟨g1, g2⟩ := hone post (run_call (call.kick_transport (some t)) (run_calls pre w)) f1
      refine ⟨?_, by rw [g2]; decide⟩
      rw [g1]
      show kicks t (kick_transport (some t) (run_calls pre w)).log = _
      rw [f2, kicks_append, kicks_kick, b]
      simp
    · have hk : ((run_calls pre w).heap t).kicked ≠ 0 := by rw [a]; decide
      obtain ⟨c1, c2⟩ := kick_step_kicked t _ _
        (run_call_step t (call.kick_transport (some t)) (run_calls pre w)) hk
      have hk1 : ((run_call (call.kick_transport (some t)) (run_calls pre w)).heap t).kicked
          = 1 := by rw [c1, a]
      obtain ⟨g1, g2⟩ := hone post _ hk1
      exact ⟨by rw [g1, c2, b], by rw [g2]; decide⟩
  · intro pre post c _ hobs hk
    exact hfirst pre c hobs hk
  · intro pre post c _ hor
    obtain ⟨k1, k2⟩ := run_call_kicks t c (run_calls pre w)
    have hno : ¬ (observes_kicked t c (run_calls pre w) = true ∧
        ((run_calls pre w).heap t).kicked = 0) := by
      rcases hor with h | h
      · rw [h]; intro hc; exact absurd hc.1 (by decide)
      · exact fun hc => h hc.2
    rw [if_neg hno] at k1 k2
    exact ⟨k1, k2⟩
  · intro pre post _ hmem hk
    obtain ⟨k1, k2⟩ := close_usb_devices_loop_kicks t (run_calls pre w).transport_list
      (run_calls pre w)
    rw [if_pos ⟨hmem, hk⟩] at k1 k2
    exact ⟨k1, k2⟩
  · intro pre post _ hz hk
    obtain ⟨k1, k2⟩ := transport_unref_kicks t (some t) (run_calls pre w)
    rw [if_pos ⟨rfl, hz, hk⟩] at k1 k2
    exact ⟨k1, k2⟩
  · intro h0 hex
    obtain ⟨pre, post, c, hc, hobs⟩ := hex
    rw [hc, run_calls_append, run_calls]
    by_cases hk : ((run_calls pre w).heap t).kicked = 0
    · obtain ⟨_, f2, f3⟩ := hfirst pre c hobs hk
      obtain ⟨g1, g2⟩ := hone post _ f3
      exact ⟨by rw [g1, f2], g2⟩
    · rcases run_calls_step t pre w with ⟨a, _⟩ | ⟨_, a, b⟩
      · rw [a] at hk; exact absurd h0 hk
      · obtain ⟨c1, c2⟩ := kick_step_kicked t _ _ (run_call_step t c (run_calls pre w)) hk
        have hk1 : ((run_call c (run_calls pre w)).heap t).kicked = 1 := by rw [c1, a]
        obtain ⟨g1, g2⟩ := hone post _ hk1
        exact ⟨by rw [g1, c2, b], g2⟩
  · exact run_calls_unobserved t calls w

theorem kick_idempotent_witness :
    kicks 7 (close_usb_devices registered_world).log = kicks 7 registered_world.log + 1 ∧
    ((close_usb_devices registered_world).heap 7).kicked = 1 :=
  (kick_idempotent 7 [call.close_usb_devices] registered_world).2.2.2.2.2.2.2.1 [] [] rfl
    (by decide) (by decide)

/-- C14: `transport_unref` on a non-null transport takes one off `ref_count`.
When the new count is 0, `kicked` is set afterwards, the kick capability is
invoked by this call exactly when the transport was not kicked yet, the close
capability is invoked once and one remove action for the transport is written to
the registration socket. When the new count is not 0, nothing is invoked and
`kicked` is unchanged. -/
theorem transport_unref_spec (t : Nat) (w : world) :
    ((transport_unref (some t) w).heap t).ref_count = (w.heap t).ref_count - 1 ∧
    ((w.heap t).ref_count - 1 = 0 →
      ((transport_unref (some t) w).heap t).kicked ≠ 0 ∧
      (transport_unref (some t) w).log =
        w.log ++ (if (w.heap t).kicked = 0 then [event.kick t] else []) ++
          [event.close t, event.transport_write_action { transport := t, action := 0 }]) ∧
    ((w.heap t).ref_count - 1 ≠ 0 →
      (transport_unref (some t) w).log = w.log ∧
      ((transport_unref (some t) w).heap t).kicked = (w.heap t).kicked) := by
  unfold transport_unref
  by_cases hz : (w.heap t).ref_count - 1 = 0
  · by_cases hk : (w.heap t).kicked = 0
    · simp [hz, hk, do_kick, remove_transport]
    · simp [hz, hk, do_kick, remove_transport]
  · simp [hz]

theorem kick_transport_kicked (t : Nat) (w : world) :
    ((kick_transport (some t) w).heap t).kicked =
      if (w.heap t).kicked = 0 then 1 else (w.heap t).kicked := by
  rw [kick_transport_eq]
  by_cases h : (w.heap t).kicked = 0 <;> simp [h, do_kick]

theorem kick_transport_ref_count (t : Nat) (w : world) :
    ((kick_transport (some t) w).heap t).ref_count = (w.heap t).ref_count := by
  rw [kick_transport_eq]
  by_cases h : (w.heap t).kicked = 0 <;> simp [h, do_kick]

theorem kick_transport_log (t : Nat) (w : world) :
    (kick_transport (some t) w).log = w.log ++ kick_once t w := by
  rw [kick_transport_eq]
  by_cases h : (w.heap t).kicked = 0 <;> simp [h, do_kick, kick_once]

theorem transport_unref_ref_count (t : Nat) (w : world) :
    ((transport_unref (some t) w).heap t).ref_count = (w.heap t).ref_count - 1 := by
  unfold transport_unref
  by_cases hz : (w.heap t).ref_count - 1 = 0
  · by_cases hk : (w.heap t).kicked = 0 <;> simp [hz, hk, do_kick, remove_transport]
  · simp [hz]

theorem transport_unref_kicked (t : Nat) (w : world) :
    ((transport_unref (some t) w).heap t).kicked =
      if (w.heap t).ref_count - 1 = 0 ∧ (w.heap t).kicked = 0 then 1
      else (w.heap t).kicked := by
  unfold transport_unref
  by_cases hz : (w.heap t).ref_count - 1 = 0
  · by_cases hk : (w.heap t).kicked = 0 <;> simp [hz, hk, do_kick, remove_transport]
  · simp [hz]

theorem transport_unref_log (t : Nat) (w : world) :
    (transport_unref (some t) w).log =
      w.log ++ (if (w.heap t).ref_count - 1 = 0 then
        kick_once t w ++
          [event.close t, event.transport_write_action { transport := t, action := 0 }]
        else []) := by
  unfold transport_unref
  by_cases hz : (w.heap t).ref_count - 1 = 0
  · by_cases hk : (w.heap t).kicked = 0 <;> simp [hz, hk, do_kick, remove_transport, kick_once]
  · simp [hz]

/-- C15: for a transport whose `ref_count` is 2, as the register action leaves
that of a transport not in state NoPermission, and for every order in which the
exit calls of its two pumps can follow each other, `ref_count` goes from 2 over 1
to 0 and is never negative; the last call is the `transport_unref` of the pump
that exits second, and it is this call, and no call before it, that invokes the
close capability and writes the remove action, once each. -/
theorem pumps_exit (t : Nat) (w : world) (order : List call)
    (href : (w.heap t).ref_count = 2)
    (horder : order ∈ interleavings (pump_exit t) (pump_exit t)) :
    ((List.range 5).map (fun n => ((run_calls (order.take n) w).heap t).ref_count) =
        [2, 2, 1, 1, 0] ∨
      (List.range 5).map (fun n => ((run_calls (order.take n) w).heap t).ref_count) =
        [2, 2, 2, 1, 0]) ∧
    order.length = 4 ∧
    order.drop 3 = [call.transport_unref (some t)] ∧
    (run_calls (order.take 3) w).log = w.log ++ kick_once t w ∧
    (run_calls order w).log =
      w.log ++ kick_once t w ++
        [event.close t, event.transport_write_action { transport := t, action := 0 }] := by
  have horders : order = [call.kick_transport (some t), call.transport_unref (some t),
        call.kick_transport (some t), call.transport_unref (some t)] ∨
      order = [call.kick_transport (some t), call.kick_transport (some t),
        call.transport_unref (some t), call.transport_unref (some t)] := by
    simp [interleavings, pump_exit] at horder
    tauto
  rcases horders with h | h <;> subst h
  · by_cases hk : (w.heap t).kicked = 0 <;>
      simp [run_calls, run_call, List.range, List.range.loop, kick_transport_kicked,
        kick_transport_ref_count, kick_transport_log, transport_unref_ref_count,
        transport_unref_kicked, transport_unref_log, href, hk, kick_once]
  · by_cases hk : (w.heap t).kicked = 0 <;>
      simp [run_calls, run_call, List.range, List.range.loop, kick_transport_kicked,
        kick_transport_ref_count, kick_transport_log, transport_unref_ref_count,
        transport_unref_kicked, transport_unref_log, href, hk, kick_once]

theorem pumps_exit_witness :
    (run_calls [call.kick_transport (some 7), call.kick_transport (some 7),
        call.transport_unref (some 7), call.transport_unref (some 7)] registered_world).log =
      registered_world.log ++ kick_once 7 registered_world ++
        [event.close 7, event.transport_write_action { transport := 7, action := 0 }] :=
  (pumps_exit 7 registered_world
    [call.kick_transport (some 7), call.kick_transport (some 7),
      call.transport_unref (some 7), call.transport_unref (some 7)]
    (by decide) (by simp [interleavings, pump_exit])).2.2.2.2

/-! ## The registration actions -/

/-- C16: the register action. For a transport that is not in state NoPermission,
`ref_count` is set to 2, and only then are the input pump and the output pump
started; for a transport in state NoPermission no pump is started and `ref_count`
is left as it is. In both cases the transport is inserted into the registry, as
its last member. -/
theorem register_action (t : Nat) (w : world) :
    ((w.heap t).connection_state ≠ CS_NOPERM →
      (transport_registration_func { transport := t, action := 1 } w).log =
        w.log ++ [event.ref_count_set t 2, event.adb_socketpair t, event.fdevent_install t,
                  event.input_thread t, event.output_thread t, event.list_insert t,
                  event.update_transports] ∧
      ((transport_registration_func { transport := t, action := 1 } w).heap t).ref_count = 2) ∧
    ((w.heap t).connection_state = CS_NOPERM →
      (transport_registration_func { transport := t, action := 1 } w).log =
        w.log ++ [event.list_insert t, event.update_transports] ∧
      ((transport_registration_func { transport := t, action := 1 } w).heap t).ref_count =
        (w.heap t).ref_count) ∧
    (transport_registration_func { transport := t, action := 1 } w).transport_list =
      w.transport_list ++ [t] := by
  unfold transport_registration_func update_transports
  by_cases h : (w.heap t).connection_state = CS_NOPERM <;> simp [h]

/-! ## The device table -/

theorem list_transports_loop_fits (bufsize : Nat) (l : List atransport) :
    ∀ out : String, out.length + (device_table l).length < bufsize →
      list_transports_loop bufsize l out = out ++ device_table l := by
  induction l with
  | nil => intro out _; simp [list_transports_loop, device_table]
  | cons t rest ih =>
    intro out h
    rw [device_table, String.length_append] at h
    rw [list_transports_loop]
    have hlt : ¬ (out.length + (format_line t).length ≥ bufsize) := by omega
    simp only [hlt, if_false]
    rw [ih (out ++ format_line t) (by rw [String.length_append]; omega), device_table,
      String.append_assoc]

/-- C19: when the buffer can hold the whole table with its terminating NUL,
`list_transports` writes the lines of the registered transports, in registry
order, and returns the length of the table. A line is the serial, or
"????????????" when the serial is `NULL` or empty, a TAB, the state name and a
newline; the state name is "offline", "bootloader", "device", "host", "recovery"
or "no permissions" for the six states and "unknown" for any other value. A
registry that holds only the emulator "emulator-5554" in state Device gives
exactly "emulator-5554\tdevice\n". -/
theorem list_transports_table (bufsize : Nat) (transport_list : List atransport)
    (h : (device_table transport_list).length < bufsize) :
    list_transports bufsize transport_list =
      (device_table transport_list, (device_table transport_list).length) ∧
    device_table transport_list = String.join (transport_list.map format_line) ∧
    (∀ t : atransport, (t.serial = none ∨ t.serial = some "") →
      format_line t = "????????????" ++ "\t" ++ statename t ++ "\n") ∧
    (∀ (t : atransport) (s : String), t.serial = some s → s ≠ "" →
      format_line t = s ++ "\t" ++ statename t ++ "\n") ∧
    (∀ t : atransport,
      (t.connection_state = CS_OFFLINE → statename t = "offline") ∧
      (t.connection_state = CS_BOOTLOADER → statename t = "bootloader") ∧
      (t.connection_state = CS_DEVICE → statename t = "device") ∧
      (t.connection_state = CS_HOST → statename t = "host") ∧
      (t.connection_state = CS_RECOVERY → statename t = "recovery") ∧
      (t.connection_state = CS_NOPERM → statename t = "no permissions") ∧
      (t.connection_state = CS_ANY → statename t = "unknown") ∧
      (∀ v : Int, t.connection_state = cs.other v → statename t = "unknown")) ∧
    list_transports 1024 [emulator CS_DEVICE] = ("emulator-5554\tdevice\n", 21) := by
  refine ⟨?_, ?_, ?_, ?_, ?_, ?_⟩
  · unfold list_transports
    rw [list_transports_loop_fits bufsize transport_list "" (by simpa using h)]
    simp
  · clear h
    induction transport_list with
    | nil => rfl
    | cons t rest ih =>
      apply String.ext
      rw [device_table, String.data_append, ih, String.data_join, String.data_join]
      simp
  · intro t ht
    rcases ht with ht | ht <;> simp [format_line, ht]
  · intro t s hs hne
    simp [format_line, hs, hne]
  · intro t
    refine ⟨?_, ?_, ?_, ?_, ?_, ?_, ?_, ?_⟩
    all_goals first
      | (intro v h; simp [statename, h])
      | (intro h; simp [statename, h])
  · decide

theorem list_transports_table_witness :
    list_transports 64 [usb_noperm, emulator CS_OFFLINE] =
      (device_table [usb_noperm, emulator CS_OFFLINE],
        (device_table [usb_noperm, emulator CS_OFFLINE]).length) :=
  (list_transports_table 64 [usb_noperm, emulator CS_OFFLINE] (by decide)).1

theorem device_table_append (l1 l2 : List atransport) :
    device_table (l1 ++ l2) = device_table l1 ++ device_table l2 := by
  induction l1 with
  | nil => simp [device_table]
  | cons t rest ih => simp [device_table, ih, String.append_assoc]

theorem register_heap_other (t a : Nat) (w : world) (h : a ≠ t) :
    (transport_registration_func { transport := t, action := 1 } w).heap a = w.heap a := by
  unfold transport_registration_func update_transports
  by_cases hn : (w.heap t).connection_state = CS_NOPERM <;>
    simp [hn, Function.update_noteq h]

theorem register_heap_line (t : Nat) (w : world) :
    format_line ((transport_registration_func { transport := t, action := 1 } w).heap t) =
      format_line (w.heap t) := by
  unfold transport_registration_func update_transports
  by_cases hn : (w.heap t).connection_state = CS_NOPERM <;>
    simp [hn, format_line, statename]

theorem register_list (t : Nat) (w : world) :
    (transport_registration_func { transport := t, action := 1 } w).transport_list =
      w.transport_list ++ [t] := by
  unfold transport_registration_func update_transports
  by_cases hn : (w.heap t).connection_state = CS_NOPERM <;> simp [hn]

theorem remove_list (t : Nat) (w : world) :
    (transport_registration_func { transport := t, action := 0 } w).transport_list =
      w.transport_list.erase t := by
  simp [transport_registration_func, update_transports, run_transport_disconnects]

theorem remove_heap (t : Nat) (w : world) :
    (transport_registration_func { transport := t, action := 0 } w).heap = w.heap := by
  simp [transport_registration_func, update_transports, run_transport_disconnects]

theorem erase_append_self (t : Nat) (l : List Nat) (h : t ∉ l) : (l ++ [t]).erase t = l := by
  induction l with
  | nil => simp
  | cons a rest ih =>
    have ha : a ≠ t := fun e => h (by simp [e])
    have hr : t ∉ rest := fun e => h (by simp [e])
    rw [List.cons_append, List.erase_cons_tail (by simpa using ha), ih hr]

/-- C17: register/remove round trip. For a transport `t` that is not in the
registry, the register action appends `t` to the registry as its last member, and
`list_transports` then shows the table of before followed by the line of `t`;
the remove action that follows leaves the registry, and so the output of
`list_transports`, as they were before the registration: the other transports
are unchanged and in the same order. -/
theorem register_remove_round_trip (t : Nat) (w : world) (h : t ∉ w.transport_list) :
    (transport_registration_func { transport := t, action := 1 } w).transport_list =
      w.transport_list ++ [t] ∧
    (∀ bufsize : Nat,
      (device_table (registry w) ++ format_line (w.heap t)).length < bufsize →
      (list_transports bufsize
          (registry (transport_registration_func { transport := t, action := 1 } w))).1 =
        device_table (registry w) ++ format_line (w.heap t)) ∧
    (transport_registration_func { transport := t, action := 0 }
        (transport_registration_func { transport := t, action := 1 } w)).transport_list =
      w.transport_list ∧
    registry (transport_registration_func { transport := t, action := 0 }
        (transport_registration_func { transport := t, action := 1 } w)) = registry w ∧
    (∀ bufsize : Nat,
      list_transports bufsize
          (registry (transport_registration_func { transport := t, action := 0 }
            (transport_registration_func { transport := t, action := 1 } w))) =
        list_transports bufsize (registry w)) := by
  have hmap : w.transport_list.map
      (transport_registration_func { transport := t, action := 1 } w).heap =
      w.transport_list.map w.heap := by
    apply List.map_congr_left
    intro a ha
    exact register_heap_other t a w (fun e => h (e ▸ ha))
  have hreg : registry (transport_registration_func { transport := t, action := 1 } w) =
      registry w ++ [(transport_registration_func { transport := t, action := 1 } w).heap t] := by
    unfold registry
    rw [register_list, List.map_append, hmap]
    rfl
  have hrem : registry (transport_registration_func { transport := t, action := 0 }
      (transport_registration_func { transport := t, action := 1 } w)) = registry w := by
    unfold registry
    rw [remove_list, remove_heap, register_list, erase_append_self t _ h, hmap]
  refine ⟨register_list t w, ?_, ?_, hrem, ?_⟩
  · intro bufsize hb
    have htab : device_table
        (registry (transport_registration_func { transport := t, action := 1 } w)) =
        device_table (registry w) ++ format_line (w.heap t) := by
      rw [hreg, device_table_append]
      simp [device_table, register_heap_line]
    unfold list_transports
    rw [list_transports_loop_fits bufsize _ "" (by rw [htab]; simpa using hb), htab]
    simp
  · rw [remove_list, register_list, erase_append_self t _ h]
  · intro bufsize
    rw [hrem]

theorem register_remove_round_trip_witness :
    registry (transport_registration_func { transport := 3, action := 0 }
        (transport_registration_func { transport := 3, action := 1 } registered_world)) =
      registry registered_world :=
  (register_remove_round_trip 3 registered_world (by decide)).2.2.2.1

theorem add_transport_disconnects_heap (t : Nat) (ds : List adisconnect) :
    ∀ w : world,
      ((add_transport_disconnects t ds w).heap t).disconnects = (w.heap t).disconnects ++ ds ∧
      (add_transport_disconnects t ds w).log = w.log ∧
      (add_transport_disconnects t ds w).transport_list = w.transport_list := by
  induction ds with
  | nil => intro w; simp [add_transport_disconnects]
  | cons d rest ih =>
    intro w
    rw [add_transport_disconnects]
    obtain ⟨h1, h2, h3⟩ := ih (add_transport_disconnect t d w)
    rw [h1, h2, h3]
    simp [add_transport_disconnect]

theorem register_disconnects (t : Nat) (w : world) :
    ((transport_registration_func { transport := t, action := 1 } w).heap t).disconnects = [] := by
  unfold transport_registration_func update_transports
  by_cases hn : (w.heap t).connection_state = CS_NOPERM <;> simp [hn]

theorem remove_log (t : Nat) (w : world) :
    (transport_registration_func { transport := t, action := 0 } w).log =
      w.log ++ [event.fdevent_remove t, event.adb_close t, event.list_remove t] ++
        (w.heap t).disconnects.map (fun dis => event.disconnect dis.func dis.context t) ++
        [event.free t, event.update_transports] := by
  simp [transport_registration_func, update_transports, run_transport_disconnects]

/-- C18: the subscribers `d1, ..., dn` that `add_transport_disconnect` has added
to a registered transport `t` are each invoked once by the remove action for `t`,
in the order in which they were added, each with its own context and `t`: the
calls that `run_transport_disconnects` makes are those of the list, from its head
on, and a subscriber is added at its end. -/
theorem disconnects_in_order (t : Nat) (w : world) (ds : List adisconnect) :
    (run_transport_disconnects t (add_transport_disconnects t ds w)).log =
      w.log ++ ((w.heap t).disconnects ++ ds).map
        (fun dis => event.disconnect dis.func dis.context t) ∧
    (transport_registration_func { transport := t, action := 0 }
        (add_transport_disconnects t ds
          (transport_registration_func { transport := t, action := 1 } w))).log =
      (transport_registration_func { transport := t, action := 1 } w).log ++
        [event.fdevent_remove t, event.adb_close t, event.list_remove t] ++
        ds.map (fun dis => event.disconnect dis.func dis.context t) ++
        [event.free t, event.update_transports] := by
  constructor
  · obtain ⟨h1, h2, _⟩ := add_transport_disconnects_heap t ds w
    simp [run_transport_disconnects, h1, h2]
  · obtain ⟨h1, h2, _⟩ := add_transport_disconnects_heap t ds
      (transport_registration_func { transport := t, action := 1 } w)
    rw [register_disconnects] at h1
    rw [remove_log, h1, h2]
    simp

/-! ## The input pump -/

theorem input_loop_inactive (A_SYNC : Nat) (reads : List pump_read)
    (h : ∀ r ∈ reads, ∀ p : apacket, r.packet = some p → p.msg.command = A_SYNC →
      p.msg.arg1 ≠ r.sync_token) :
    ∀ (exited : Bool) (calls : List pump_event),
      (input_loop A_SYNC reads ⟨0, exited, calls⟩).active = 0 ∧
      (input_loop A_SYNC reads ⟨0, exited, calls⟩).calls =
        calls ++ (packets_read A_SYNC reads).map pump_event.put_apacket := by
  induction reads with
  | nil => intro exited calls; simp [input_loop, packets_read]
  | cons r rest ih =>
    intro exited calls
    have hrest : ∀ r1 ∈ rest, ∀ p : apacket, r1.packet = some p → p.msg.command = A_SYNC →
        p.msg.arg1 ≠ r1.sync_token := fun r1 hr1 => h r1 (List.mem_cons_of_mem _ hr1)
    rw [input_loop, packets_read]
    cases hp : r.packet with
    | none => simp
    | some p =>
      simp only
      by_cases hc : p.msg.command = A_SYNC
      · have hne := h r (List.mem_cons_self _ _) p hp hc
        by_cases ha : p.msg.arg0 = 0
        · simp [hc, ha]
        · simp only [hc, ha, if_true, if_false, hne, and_false]
          obtain ⟨i1, i2⟩ := ih hrest exited (calls ++ [pump_event.put_apacket p])
          rw [i1, i2]
          simp
      · simp only [hc, if_false, ne_eq, not_true_eq_false, false_and]
        obtain ⟨i1, i2⟩ := ih hrest exited (calls ++ [pump_event.put_apacket p])
        rw [i1, i2]
        simp

/-- C20: the SYNC handshake. When no SYNC packet that the input pump reads
carries in `arg1` the `sync_token` that the transport has at that moment, the
pump is inactive after every number of reads and passes no packet to
`write_to_remote`: every packet that it reads, and so every packet that is not a
SYNC packet, is only returned to the pool. -/
theorem sync_handshake (A_SYNC : Nat) (reads : List pump_read)
    (h : ∀ r ∈ reads, ∀ p : apacket, r.packet = some p → p.msg.command = A_SYNC →
      p.msg.arg1 ≠ r.sync_token) :
    (∀ n : Nat, (input_loop A_SYNC (reads.take n) input_start).active = 0) ∧
    (input_loop A_SYNC reads input_start).calls =
      (packets_read A_SYNC reads).map pump_event.put_apacket ∧
    (∀ p : apacket,
      pump_event.write_to_remote p ∉ (input_loop A_SYNC reads input_start).calls) := by
  have hcalls := (input_loop_inactive A_SYNC reads h false []).2
  refine ⟨?_, ?_, ?_⟩
  · intro n
    exact (input_loop_inactive A_SYNC (reads.take n)
      (fun r hr => h r (List.mem_of_mem_take hr)) false []).1
  · exact hcalls.trans (List.nil_append _)
  · intro p hp
    have hp1 : pump_event.write_to_remote p ∈
        (input_loop A_SYNC reads ⟨0, false, []⟩).calls := hp
    rw [hcalls] at hp1
    simp at hp1

theorem sync_handshake_witness :
    (input_loop 0x434e5953 stale_reads input_start).calls =
      [pump_event.put_apacket sample_packet, pump_event.put_apacket sync_online_4,
       pump_event.put_apacket sample_packet] :=
  (sync_handshake 0x434e5953 stale_reads (by
    intro r hr p hp hc
    simp only [stale_reads, List.mem_cons, List.mem_singleton, List.not_mem_nil, or_false] at hr
    rcases hr with rfl | rfl | rfl | rfl <;> cases hp <;> revert hc <;> decide)).2.1

/-! ## The device table in a short buffer -/

theorem list_transports_loop_short (bufsize : Nat) (l : List atransport) :
    ∀ out : String, out.length < bufsize →
      ∃ j : Nat, j ≤ l.length ∧
        list_transports_loop bufsize l out = out ++ device_table (l.take j) ∧
        out.length + (device_table (l.take j)).length < bufsize ∧
        ∀ i : Nat, i ≤ l.length →
          out.length + (device_table (l.take i)).length < bufsize →
          (device_table (l.take i)).length ≤ (device_table (l.take j)).length := by
  induction l with
  | nil =>
    intro out h
    exact ⟨0, Nat.le_refl _, by simp [list_transports_loop, device_table],
      by simpa [device_table] using h, by intro i _ _; simp [device_table]⟩
  | cons t rest ih =>
    intro out h
    rw [list_transports_loop]
    by_cases hfit : out.length + (format_line t).length ≥ bufsize
    · refine ⟨0, Nat.zero_le _, by simp [hfit, device_table], by simpa [device_table] using h, ?_⟩
      intro i _ hi
      cases i with
      | zero => simp
      | succ i1 =>
        rw [List.take_succ_cons, device_table, String.length_append] at hi
        omega
    · simp only [hfit, if_false]
      have hout : (out ++ format_line t).length < bufsize := by
        rw [String.length_append]; omega
      obtain ⟨j, hj, heq, hlt, hmax⟩ := ih (out ++ format_line t) hout
      refine ⟨j + 1, by simpa using hj, ?_, ?_, ?_⟩
      · rw [heq, List.take_succ_cons, device_table, String.append_assoc]
      · rw [List.take_succ_cons, device_table, String.length_append]
        rw [String.length_append] at hlt
        omega
      · intro i hi hib
        cases i with
        | zero => simp [device_table]
        | succ i1 =>
          rw [List.take_succ_cons, device_table, String.length_append] at hib
          rw [List.take_succ_cons, List.take_succ_cons, device_table, device_table,
            String.length_append, String.length_append]
          have := hmax i1 (by simpa using hi) (by rw [String.length_append]; omega)
          omega

/-- C29: for a buffer of at least one byte `list_transports` returns a length
that is smaller than `bufsize`, the length of the text it leaves; that text is
made of the whole lines of the first `j` transports for some `j`, and no run of
whole lines from the start of the table with at most `bufsize - 1` bytes is
longer: the lines that do not fit are discarded whole. -/
theorem list_transports_short (bufsize : Nat) (transport_list : List atransport)
    (h : 1 ≤ bufsize) :
    (list_transports bufsize transport_list).2 < bufsize ∧
    (list_transports bufsize transport_list).2 =
      (list_transports bufsize transport_list).1.length ∧
    ∃ j : Nat, j ≤ transport_list.length ∧
      (list_transports bufsize transport_list).1 = device_table (transport_list.take j) ∧
      ∀ i : Nat, i ≤ transport_list.length →
        (device_table (transport_list.take i)).length ≤ bufsize - 1 →
        (device_table (transport_list.take i)).length ≤
          (device_table (transport_list.take j)).length := by
  obtain ⟨j, hj, heq, hlt, hmax⟩ :=
    list_transports_loop_short bufsize transport_list "" (by simpa using h)
  have heq1 : list_transports_loop bufsize transport_list "" =
      device_table (transport_list.take j) := by rw [heq]; simp
  refine ⟨?_, rfl, j, hj, ?_, ?_⟩
  · show (list_transports_loop bufsize transport_list "").length < bufsize
    rw [heq1]
    simpa using hlt
  · exact heq1
  · intro i hi hib
    exact hmax i hi (by simp; omega)

theorem list_transports_short_witness :
    (list_transports 30 [emulator CS_DEVICE, usb_recovery]).2 < 30 :=
  (list_transports_short 30 [emulator CS_DEVICE, usb_recovery] (by decide)).1

/-! ## Required state Offline -/

theorem scan_offline_result (ttype : transport_type) (serial : Option String)
    (l : List atransport) (st : scan_state) :
    (scan CS_OFFLINE ttype serial l st).result = none := by
  unfold scan
  cases hc : (scan_loop ttype serial l
      { st with error_out := set_error st.error_out (some "device not found") }).result with
  | none => rw [check_candidate_none _ _ hc]; exact hc
  | some t =>
    by_cases ho : t.connection_state = CS_OFFLINE
    · rw [check_candidate_offline _ _ t hc ho]
    · rw [check_candidate_state _ _ t hc ho (by decide) ho]

theorem scan_few_not_ambiguous (state : cs) (ttype : transport_type) (l : List atransport)
    (e : Option (Option String)) (h : (matching ttype l).length < 2) :
    (scan state ttype none l ⟨none, false, e⟩).ambiguous = false := by
  unfold scan
  rw [(check_candidate_error state _).1, scan_loop_none_eq]
  unfold select_spec
  rcases hm : matching ttype l with _ | ⟨m1, _ | ⟨m2, tl⟩⟩
  · rfl
  · rfl
  · rw [hm] at h
    simp only [List.length_cons] at h
    omega

theorem acquire_from_offline_none (ttype : transport_type) (serial : Option String)
    (transport_list : Nat → List atransport)
    (h : serial.isSome = true ∨ ∀ k : Nat, (matching ttype (transport_list k)).length < 2)
    (fuel : Nat) :
    ∀ (k : Nat) (e : Option (Option String)) (sleeps : List Nat),
      acquire_from CS_OFFLINE ttype serial transport_list fuel k ⟨none, false, e⟩ sleeps
        = none := by
  induction fuel with
  | zero => intro k e sleeps; rfl
  | succ n ih =>
    intro k e sleeps
    have hr := scan_offline_result ttype serial (transport_list k) ⟨none, false, e⟩
    have hc : serial.isSome = true ∨
        (scan CS_OFFLINE ttype serial (transport_list k) ⟨none, false, e⟩).ambiguous
          = false := by
      rcases h with h | h
      · exact Or.inl h
      · cases serial with
        | some s => exact Or.inl rfl
        | none => exact Or.inr (scan_few_not_ambiguous _ _ _ _ (h k))
    rw [acquire_from]
    have h1 : (scan CS_OFFLINE ttype serial (transport_list k) ⟨none, false, e⟩).result.isSome
        = false := by rw [hr]; rfl
    simp only [h1, Bool.false_eq_true, if_false]
    rw [if_pos ⟨by decide, hc⟩, retry_state CS_OFFLINE ttype serial (transport_list k) e hr hc]
    exact ih _ _ _

theorem acquire_from_offline_result (ttype : transport_type) (serial : Option String)
    (transport_list : Nat → List atransport) (fuel : Nat) :
    ∀ (k : Nat) (st : scan_state) (sleeps : List Nat) (r : acquired),
      acquire_from CS_OFFLINE ttype serial transport_list fuel k st sleeps = some r →
      r.result = none := by
  induction fuel with
  | zero => intro k st sleeps r h; simp [acquire_from] at h
  | succ n ih =>
    intro k st sleeps r h
    have hr := scan_offline_result ttype serial (transport_list k) st
    rw [acquire_from] at h
    have h1 : (scan CS_OFFLINE ttype serial (transport_list k) st).result.isSome
        = false := by rw [hr]; rfl
    simp only [h1, Bool.false_eq_true, if_false] at h
    split_ifs at h with hc
    · exact ih _ _ _ _ h
    · simp only [Option.some.injEq] at h
      rw [← h]
      exact hr

/-- C30: a scan with required state Offline never succeeds: an Offline candidate
is rejected with "device offline" and any other candidate with "invalid device
state". So `acquire_one_transport` called with required state Offline never
returns a transport: what it returns is `NULL` with the ambiguity error of a call
without serial, and when a serial is given, or no scan finds two matching
transports, it rescans for ever. -/
theorem offline_never_acquired (ttype : transport_type) (serial : Option String)
    (transport_list : Nat → List atransport) (e : Option (Option String)) :
    (∀ (l : List atransport) (e1 : Option (Option String)),
      (scan CS_OFFLINE ttype serial l ⟨none, false, e1⟩).result = none) ∧
    (∀ (l : List atransport) (e1 : Option (Option String)) (t : atransport),
      (scan_loop ttype serial l
        ⟨none, false, set_error e1 (some "device not found")⟩).result = some t →
      (t.connection_state = CS_OFFLINE →
        (scan CS_OFFLINE ttype serial l ⟨none, false, e1⟩).error_out =
          set_error e1 (some "device offline")) ∧
      (t.connection_state ≠ CS_OFFLINE →
        (scan CS_OFFLINE ttype serial l ⟨none, false, e1⟩).error_out =
          set_error e1 (some "invalid device state"))) ∧
    (∀ (fuel : Nat) (r : acquired),
      acquire_one_transport fuel transport_list CS_OFFLINE ttype serial e = some r →
      r.result = none ∧ serial = none ∧
      r.error_out = set_error e (some (match ttype with
        | kTransportUsb => "more than one device"
        | kTransportLocal => "more than one emulator"
        | kTransportAny => "more than one device and emulator"))) ∧
    ((serial.isSome = true ∨ ∀ k : Nat, (matching ttype (transport_list k)).length < 2) →
      ∀ fuel : Nat,
        acquire_one_transport fuel transport_list CS_OFFLINE ttype serial e = none) := by
  refine ⟨?_, ?_, ?_, ?_⟩
  · intro l e1
    exact scan_offline_result ttype serial l _
  · intro l e1 t hc
    constructor
    · intro ho
      unfold scan
      rw [check_candidate_offline _ _ t hc ho]
      simp only [scan_loop_error_set, set_error_set_error]
    · intro ho
      unfold scan
      rw [check_candidate_state _ _ t hc ho (by decide) ho]
      simp only [scan_loop_error_set, set_error_set_error]
  · intro fuel r h
    have hn := acquire_from_offline_result ttype serial transport_list fuel _ _ _ r h
    obtain ⟨h1, h2⟩ := acquire_from_failure CS_OFFLINE ttype serial transport_list
      (by decide) fuel 0 e [] r h hn
    refine ⟨hn, h1, ?_⟩
    rw [h2]
    cases ttype <;> rfl
  · intro h fuel
    exact acquire_from_offline_none ttype serial transport_list h fuel 0 e []

/-! ## Who changes the registry -/

theorem register_log (t : Nat) (w : world) (h : (w.heap t).connection_state ≠ CS_NOPERM) :
    (transport_registration_func { transport := t, action := 1 } w).log =
      w.log ++ [event.ref_count_set t 2, event.adb_socketpair t, event.fdevent_install t,
                event.input_thread t, event.output_thread t, event.list_insert t,
                event.update_transports] := by
  unfold transport_registration_func update_transports
  simp [h]

/-- C24 as stated fails: the register action of a USB transport in state Device
starts both pumps before it inserts the transport into the registry. -/
theorem pumps_after_insert_counterexample :
    ¬ (∀ (t : Nat) (w : world), (w.heap t).connection_state ≠ CS_NOPERM →
        ((transport_registration_func { transport := t, action := 1 } w).log.drop
            w.log.length).indexOf (event.list_insert t) <
          ((transport_registration_func { transport := t, action := 1 } w).log.drop
            w.log.length).indexOf (event.input_thread t) ∧
        ((transport_registration_func { transport := t, action := 1 } w).log.drop
            w.log.length).indexOf (event.list_insert t) <
          ((transport_registration_func { transport := t, action := 1 } w).log.drop
            w.log.length).indexOf (event.output_thread t)) := by
  intro h
  have h1 := (h 7 fresh_world (by decide)).1
  revert h1
  decide

/-- C24, amended: in the steps of a register action on a transport that is not in
state NoPermission, the input pump and the output pump are started before the
transport is inserted into the registry; the insertion follows in the same
action, after which the transport is a member of the registry. -/
theorem pumps_before_insert (t : Nat) (w : world)
    (h : (w.heap t).connection_state ≠ CS_NOPERM) :
    ((transport_registration_func { transport := t, action := 1 } w).log.drop
        w.log.length).indexOf (event.input_thread t) <
      ((transport_registration_func { transport := t, action := 1 } w).log.drop
        w.log.length).indexOf (event.list_insert t) ∧
    ((transport_registration_func { transport := t, action := 1 } w).log.drop
        w.log.length).indexOf (event.output_thread t) <
      ((transport_registration_func { transport := t, action := 1 } w).log.drop
        w.log.length).indexOf (event.list_insert t) ∧
    event.list_insert t ∈
      (transport_registration_func { transport := t, action := 1 } w).log.drop w.log.length ∧
    t ∈ (transport_registration_func { transport := t, action := 1 } w).transport_list := by
  rw [register_log t w h, List.drop_left, register_list]
  simp [List.indexOf_cons]

theorem pumps_before_insert_witness :
    ((transport_registration_func { transport := 7, action := 1 } fresh_world).log.drop
        fresh_world.log.length).indexOf (event.input_thread 7) <
      ((transport_registration_func { transport := 7, action := 1 } fresh_world).log.drop
        fresh_world.log.length).indexOf (event.list_insert 7) :=
  (pumps_before_insert 7 fresh_world (by decide)).1

theorem kick_transport_list (t : Option Nat) (w : world) :
    (kick_transport t w).transport_list = w.transport_list := by
  cases t with
  | none => rfl
  | some a =>
    rw [kick_transport_eq]
    by_cases h : (w.heap a).kicked = 0 <;> simp [h, do_kick]

theorem transport_unref_list (t : Option Nat) (w : world) :
    (transport_unref t w).transport_list = w.transport_list := by
  cases t with
  | none => rfl
  | some a =>
    unfold transport_unref
    by_cases hz : (w.heap a).ref_count - 1 = 0
    · by_cases hk : (w.heap a).kicked = 0 <;> simp [hz, hk, do_kick, remove_transport]
    · simp [hz]

theorem close_usb_devices_loop_list (l : List Nat) :
    ∀ w : world, (close_usb_devices_loop l w).transport_list = w.transport_list := by
  induction l with
  | nil => intro w; rfl
  | cons a rest ih =>
    intro w
    rw [close_usb_devices_loop, ih]
    by_cases h : (w.heap a).kicked = 0 <;> simp [h, do_kick]

theorem unregister_loop_found (usb : Nat) (heap : Nat → atransport) (l : List Nat) (t : Nat)
    (h : unregister_usb_transport_loop usb heap l = some t) :
    t ∈ l ∧ (heap t).usb = usb ∧ (heap t).connection_state = CS_NOPERM := by
  induction l with
  | nil => simp [unregister_usb_transport_loop] at h
  | cons a rest ih =>
    rw [unregister_usb_transport_loop] at h
    by_cases hc : (heap a).usb = usb ∧ (heap a).connection_state = CS_NOPERM
    · rw [if_pos hc] at h
      simp only [Option.some.injEq] at h
      subst h
      exact ⟨List.mem_cons_self _ _, hc.1, hc.2⟩
    · rw [if_neg hc] at h
      obtain ⟨h1, h2⟩ := ih h
      exact ⟨List.mem_cons_of_mem _ h1, h2⟩

theorem registration_broadcast (m : tmsg) (w : world) :
    (transport_registration_func m w).log.getLast? = some event.update_transports := by
  unfold transport_registration_func update_transports
  by_cases ha : m.action = 0
  · simp [ha]
  · simp [ha]

/-- C23 as stated fails: `unregister_usb_transport` unlinks a NoPermission
transport itself, outside `transport_registration_func`, and calls no
`update_transports`. -/
theorem registry_writers_counterexample :
    ¬ (∀ (op : operation) (w : world),
        (perform op w).transport_list ≠ w.transport_list →
        (∃ m : tmsg, op = operation.transport_registration_func m) ∧
        (perform op w).log.getLast? = some event.update_transports) := by
  intro h
  have h1 := (h (operation.unregister_usb_transport 0) noperm_world (by decide)).2
  revert h1
  decide

/-- C23, amended: the register action and the remove action are carried out by
the action handler `transport_registration_func`, and each is followed by a
broadcast through `update_transports`; `unregister_usb_transport` unlinks a
transport in state NoPermission itself; no other operation inserts or unlinks a
transport. -/
theorem registry_writers (op : operation) (w : world) :
    ((perform op w).transport_list ≠ w.transport_list →
      (∃ m : tmsg, op = operation.transport_registration_func m) ∨
      (∃ usb : Nat, op = operation.unregister_usb_transport usb)) ∧
    (∀ m : tmsg, op = operation.transport_registration_func m →
      (perform op w).log.getLast? = some event.update_transports ∧
      (m.action ≠ 0 → (perform op w).transport_list = w.transport_list ++ [m.transport]) ∧
      (m.action = 0 → (perform op w).transport_list = w.transport_list.erase m.transport)) ∧
    (∀ usb : Nat, op = operation.unregister_usb_transport usb →
      (perform op w).transport_list ≠ w.transport_list →
      ∃ t : Nat, t ∈ w.transport_list ∧ (w.heap t).usb = usb ∧
        (w.heap t).connection_state = CS_NOPERM ∧
        (perform op w).transport_list = w.transport_list.erase t) := by
  refine ⟨?_, ?_, ?_⟩
  · intro hne
    cases op with
    | kick_transport t => exact absurd (kick_transport_list t w) hne
    | transport_unref t => exact absurd (transport_unref_list t w) hne
    | close_usb_devices => exact absurd (close_usb_devices_loop_list _ w) hne
    | run_transport_disconnects t => exact absurd rfl hne
    | add_transport_disconnect t dis => exact absurd rfl hne
    | remove_transport_disconnect t dis => exact absurd rfl hne
    | register_transport t => exact absurd rfl hne
    | remove_transport t => exact absurd rfl hne
    | update_transports => exact absurd rfl hne
    | transport_registration_func m => exact Or.inl ⟨m, rfl⟩
    | unregister_usb_transport usb => exact Or.inr ⟨usb, rfl⟩
  · intro m hm
    subst hm
    refine ⟨registration_broadcast m w, ?_, ?_⟩
    · intro ha
      show (transport_registration_func m w).transport_list = _
      unfold transport_registration_func update_transports
      by_cases hn : (w.heap m.transport).connection_state = CS_NOPERM <;> simp [ha, hn]
    · intro ha
      show (transport_registration_func m w).transport_list = _
      simp [transport_registration_func, update_transports, run_transport_disconnects, ha]
  · intro usb hu hne
    subst hu
    have hp : perform (operation.unregister_usb_transport usb) w =
        unregister_usb_transport usb w := rfl
    rw [hp] at hne ⊢
    unfold unregister_usb_transport at hne ⊢
    cases hl : unregister_usb_transport_loop usb w.heap w.transport_list with
    | none => rw [hl] at hne; exact absurd rfl hne
    | some t =>
      obtain ⟨h1, h2, h3⟩ := unregister_loop_found usb w.heap w.transport_list t hl
      exact ⟨t, h1, h2, h3, rfl⟩

/-! ## Device trackers -/

theorem hex_value_digit : ∀ d : Nat, d < 16 → hex_value (hex_digit d) = d := by
  decide

theorem hex_digit_lowercase : ∀ d : Nat, d < 16 → hex_digit d ∈ "0123456789abcdef".data := by
  decide

theorem format_04x_small (len : Nat) (h : len < 65536) :
    (format_04x len).take 4 =
      [hex_digit (len / 0x1000 % 16), hex_digit (len / 0x100 % 16),
       hex_digit (len / 0x10 % 16), hex_digit (len % 16)] := by
  have h1 : len / 0x10000000 % 16 = 0 := by omega
  have h2 : len / 0x1000000 % 16 = 0 := by omega
  have h3 : len / 0x100000 % 16 = 0 := by omega
  have h4 : len / 0x10000 % 16 = 0 := by omega
  simp [format_04x, h1, h2, h3, h4]

theorem decode_format_04x (len : Nat) (h : len < 65536) :
    decode_hex ((format_04x len).take 4) = len := by
  rw [format_04x_small len h]
  simp only [decode_hex, List.foldl]
  rw [hex_value_digit _ (Nat.mod_lt _ (by norm_num)), hex_value_digit _ (Nat.mod_lt _ (by norm_num)),
    hex_value_digit _ (Nat.mod_lt _ (by norm_num)), hex_value_digit _ (Nat.mod_lt _ (by norm_num))]
  omega

theorem list_transports_length (bufsize : Nat) (l : List atransport) (h : 1 ≤ bufsize) :
    (list_transports bufsize l).1.length < bufsize := by
  obtain ⟨j, _, heq, hlt, _⟩ := list_transports_loop_short bufsize l "" (by simpa using h)
  show (list_transports_loop bufsize l "").length < bufsize
  rw [heq, String.length_append]
  simpa using hlt

theorem list_transports_msg_eq (l : List atransport) :
    list_transports_msg 1024 l =
      (String.mk ((format_04x (list_transports 1020 l).1.length).take 4) ++
        (list_transports 1020 l).1, (list_transports 1020 l).1.length + 4) := rfl

theorem head_length (l : List atransport) :
    ((format_04x (list_transports 1020 l).1.length).take 4).length = 4 := by
  have h := list_transports_length 1020 l (by norm_num)
  rw [format_04x_small _ (by omega)]
  rfl

theorem list_transports_msg_data (l : List atransport) :
    String.mk ((list_transports_msg 1024 l).1.data.take (list_transports_msg 1024 l).2) =
      (list_transports_msg 1024 l).1 := by
  have hlen : (list_transports_msg 1024 l).1.data.length = (list_transports_msg 1024 l).2 := by
    rw [list_transports_msg_eq]
    simp only [String.data_append, List.length_append, head_length]
    rw [Nat.add_comm]
    rfl
  rw [← hlen, List.take_length]

theorem device_tracker_send_msg (a : Nat) (l : List atransport) (tw : tracker_world) :
    device_tracker_send a (list_transports_msg 1024 l).1 (list_transports_msg 1024 l).2 tw =
      { tw with sent := tw.sent ++
          [{ tracker := a,
             data := String.mk ((format_04x (list_transports 1020 l).1.length).take 4) ++
               (list_transports 1020 l).1,
             len := (list_transports 1020 l).1.length + 4 }] } := by
  unfold device_tracker_send
  rw [list_transports_msg_data]
  rfl

theorem ready_calls_done (a : Nat) (later : List (List atransport)) :
    ∀ tw : tracker_world, (tw.trackers a).update_needed = 0 → ready_calls a later tw = tw := by
  induction later with
  | nil => intro tw _; rfl
  | cons l rest ih =>
    intro tw h
    have hr : device_tracker_ready a l tw = tw := by
      unfold device_tracker_ready
      rw [if_neg (by rw [h]; decide)]
    rw [ready_calls, hr]
    exact ih tw h

/-- C21: the first `device_tracker_ready` call of a tracker that
`create_device_tracker` has just made hands to the peer of the tracker one
packet, with the length-prefixed table of the registry as it is at that moment,
whether or not the registry has changed, and sets `update_needed` to 0; the
`device_tracker_ready` calls after it send nothing and change nothing. -/
theorem tracker_first_ready (a : Nat) (tw : tracker_world) (l : List atransport)
    (later : List (List atransport)) :
    (device_tracker_ready a l (create_device_tracker a tw)).sent =
      tw.sent ++
        [{ tracker := a,
           data := String.mk ((format_04x (list_transports 1020 l).1.length).take 4) ++
             (list_transports 1020 l).1,
           len := (list_transports 1020 l).1.length + 4 }] ∧
    decode_hex ((format_04x (list_transports 1020 l).1.length).take 4) =
      (list_transports 1020 l).1.length ∧
    ((device_tracker_ready a l (create_device_tracker a tw)).trackers a).update_needed = 0 ∧
    ready_calls a later (device_tracker_ready a l (create_device_tracker a tw)) =
      device_tracker_ready a l (create_device_tracker a tw) := by
  have hready : device_tracker_ready a l (create_device_tracker a tw) =
      { trackers := Function.update
          (Function.update tw.trackers a { update_needed := 1 }) a { update_needed := 0 },
        device_tracker_list := a :: tw.device_tracker_list,
        sent := tw.sent ++
          [{ tracker := a,
             data := String.mk ((format_04x (list_transports 1020 l).1.length).take 4) ++
               (list_transports 1020 l).1,
             len := (list_transports 1020 l).1.length + 4 }] } := by
    unfold device_tracker_ready
    have hpos : ((create_device_tracker a tw).trackers a).update_needed > 0 := by
      simp [create_device_tracker]
    rw [if_pos hpos]
    simp only
    rw [device_tracker_send_msg]
    simp [create_device_tracker]
  have hzero : ((device_tracker_ready a l (create_device_tracker a tw)).trackers a).update_needed
      = 0 := by
    rw [hready]; simp
  refine ⟨by rw [hready], ?_, hzero, ready_calls_done a later _ hzero⟩
  exact decode_format_04x _ (by have := list_transports_length 1020 l (by norm_num); omega)

theorem update_transports_loop_sent (buffer : String) (len : Nat) (trackers : List Nat) :
    ∀ tw : tracker_world,
      (update_transports_loop buffer len trackers tw).sent =
        tw.sent ++ trackers.map
          (fun a => { tracker := a, data := String.mk (buffer.data.take len), len := len }) := by
  induction trackers with
  | nil => intro tw; simp [update_transports_loop]
  | cons a rest ih =>
    intro tw
    rw [update_transports_loop, ih]
    simp [device_tracker_send]

/-- C22: `update_transports` hands one packet to the peer of each tracker of the
list, in list order, and all these packets carry the same payload: four lowercase
hexadecimal digits, then the table that `list_transports` writes into a buffer of
1020 bytes; the four digits are the number of table bytes, and the length of the
packet is that number plus 4. -/
theorem broadcast_payload (l : List atransport) (tw : tracker_world) :
    (update_transports_host l tw).sent =
      tw.sent ++ tw.device_tracker_list.map
        (fun a =>
          { tracker := a,
            data := String.mk ((format_04x (list_transports 1020 l).1.length).take 4) ++
              (list_transports 1020 l).1,
            len := (list_transports 1020 l).1.length + 4 }) ∧
    ((format_04x (list_transports 1020 l).1.length).take 4).length = 4 ∧
    (∀ c ∈ (format_04x (list_transports 1020 l).1.length).take 4,
      c ∈ "0123456789abcdef".data) ∧
    decode_hex ((format_04x (list_transports 1020 l).1.length).take 4) =
      (list_transports 1020 l).1.length := by
  have hlen := list_transports_length 1020 l (by norm_num)
  refine ⟨?_, head_length l, ?_, decode_format_04x _ (by omega)⟩
  · unfold update_transports_host
    simp only
    rw [update_transports_loop_sent, list_transports_msg_data]
    rfl
  · intro c hc
    rw [format_04x_small _ (by omega)] at hc
    simp only [List.mem_cons, List.mem_singleton, List.not_mem_nil, or_false] at hc
    rcases hc with rfl | rfl | rfl | rfl <;>
      exact hex_digit_lowercase _ (Nat.mod_lt _ (by norm_num))

/-! ## The input pump, active -/

theorem written_append (l1 l2 : List pump_event) :
    written (l1 ++ l2) = written l1 ++ written l2 := by
  induction l1 with
  | nil => rfl
  | cons e rest ih => cases e <;> simp [written, ih]

theorem input_loop_active (A_SYNC : Nat) (reads : List pump_read) :
    ∀ (active : Int) (exited : Bool) (calls : List pump_event), active ≠ 0 →
      (input_loop A_SYNC reads ⟨active, exited, calls⟩).active ≠ 0 ∧
      written (input_loop A_SYNC reads ⟨active, exited, calls⟩).calls =
        written calls ++ data_packets A_SYNC (reads_in_loop A_SYNC reads) := by
  induction reads with
  | nil => intro active exited calls h; simp [input_loop, reads_in_loop, data_packets, h]
  | cons r rest ih =>
    intro active exited calls h
    rw [input_loop]
    cases hp : r.packet with
    | none => simp [reads_in_loop, ends_loop, hp, data_packets, h]
    | some p =>
      simp only
      by_cases hc : p.msg.command = A_SYNC
      · by_cases ha : p.msg.arg0 = 0
        · simp [hc, ha, reads_in_loop, ends_loop, hp, data_packets, h, written_append, written]
        · have hin : reads_in_loop A_SYNC (r :: rest) = r :: reads_in_loop A_SYNC rest := by
            simp [reads_in_loop, ends_loop, hp, hc, ha]
          rw [hin, data_packets, hp]
          simp only [hc, ha, if_true, if_false]
          by_cases ht : p.msg.arg1 = r.sync_token
          · simp only [ht, if_true]
            obtain ⟨i1, i2⟩ := ih 1 exited (calls ++ [pump_event.put_apacket p]) (by decide)
            exact ⟨i1, by rw [i2, written_append]; simp [written]⟩
          · simp only [ht, if_false]
            obtain ⟨i1, i2⟩ := ih active exited (calls ++ [pump_event.put_apacket p]) h
            exact ⟨i1, by rw [i2, written_append]; simp [written]⟩
      · have hin : reads_in_loop A_SYNC (r :: rest) = r :: reads_in_loop A_SYNC rest := by
          simp [reads_in_loop, ends_loop, hp, hc]
        rw [hin, data_packets, hp]
        simp only [hc, if_false, h, ne_eq, not_false_eq_true, if_true]
        obtain ⟨i1, i2⟩ := ih active exited
          (calls ++ [pump_event.write_to_remote p] ++ [pump_event.put_apacket p]) h
        exact ⟨i1, by rw [i2, written_append, written_append]; simp [written]⟩

theorem input_loop_from_inactive (A_SYNC : Nat) (reads : List pump_read) :
    ∀ (exited : Bool) (calls : List pump_event),
      ((input_loop A_SYNC reads ⟨0, exited, calls⟩).active ≠ 0 ↔
        ∃ r ∈ reads_in_loop A_SYNC reads, activates A_SYNC r = true) ∧
      written (input_loop A_SYNC reads ⟨0, exited, calls⟩).calls =
        written calls ++ data_packets A_SYNC
          ((reads_in_loop A_SYNC reads).dropWhile (fun r => !activates A_SYNC r)) := by
  induction reads with
  | nil => intro exited calls; simp [input_loop, reads_in_loop, data_packets]
  | cons r rest ih =>
    intro exited calls
    rw [input_loop]
    cases hp : r.packet with
    | none => simp [reads_in_loop, ends_loop, hp, data_packets]
    | some p =>
      simp only
      by_cases hc : p.msg.command = A_SYNC
      · by_cases ha : p.msg.arg0 = 0
        · simp [hc, ha, reads_in_loop, ends_loop, hp, data_packets, written_append, written]
        · have hin : reads_in_loop A_SYNC (r :: rest) = r :: reads_in_loop A_SYNC rest := by
            simp [reads_in_loop, ends_loop, hp, hc, ha]
          rw [hin]
          simp only [hc, ha, if_true, if_false]
          by_cases ht : p.msg.arg1 = r.sync_token
          · have hact : activates A_SYNC r = true := by simp [activates, hp, hc, ha, ht]
            simp only [ht, if_true]
            obtain ⟨i1, i2⟩ := input_loop_active A_SYNC rest 1 exited
              (calls ++ [pump_event.put_apacket p]) (by decide)
            refine ⟨⟨fun _ => ⟨r, List.mem_cons_self _ _, hact⟩, fun _ => i1⟩, ?_⟩
            rw [i2, written_append, List.dropWhile_cons_of_neg (by simp [hact]), data_packets, hp]
            simp [written, hc]
          · have hact : activates A_SYNC r = false := by simp [activates, hp, hc, ha, ht]
            simp only [ht, if_false]
            obtain ⟨i1, i2⟩ := ih exited (calls ++ [pump_event.put_apacket p])
            refine ⟨?_, ?_⟩
            · refine i1.trans ?_
              simp [hact]
            · rw [i2, written_append, List.dropWhile_cons_of_pos (by simp [hact])]
              simp [written]
      · have hin : reads_in_loop A_SYNC (r :: rest) = r :: reads_in_loop A_SYNC rest := by
          simp [reads_in_loop, ends_loop, hp, hc]
        have hact : activates A_SYNC r = false := by simp [activates, hp, hc]
        rw [hin]
        simp only [hc, if_false, ne_eq, not_true_eq_false]
        obtain ⟨i1, i2⟩ := ih exited (calls ++ [pump_event.put_apacket p])
        refine ⟨?_, ?_⟩
        · refine i1.trans ?_
          simp [hact]
        · rw [i2, written_append, List.dropWhile_cons_of_pos (by simp [hact])]
          simp [written]

theorem input_loop_exited (A_SYNC : Nat) (reads : List pump_read) :
    ∀ (st : input_state),
      (input_loop A_SYNC reads st).exited = (st.exited || reads.any (ends_loop A_SYNC)) := by
  induction reads with
  | nil => intro st; simp [input_loop]
  | cons r rest ih =>
    intro st
    rw [input_loop]
    cases hp : r.packet with
    | none => simp [ends_loop, hp]
    | some p =>
      simp only
      by_cases hc : p.msg.command = A_SYNC
      · by_cases ha : p.msg.arg0 = 0
        · simp [hc, ha, ends_loop, hp]
        · simp only [hc, ha, if_true, if_false]
          rw [ih]
          by_cases ht : p.msg.arg1 = r.sync_token <;> simp [ht, ends_loop, hp, hc, ha]
      · simp only [hc, if_false]
        rw [ih]
        by_cases hact : st.active ≠ 0 <;> simp [hact, ends_loop, hp, hc]

theorem data_packets_not_sync (A_SYNC : Nat) (reads : List pump_read) :
    ∀ p ∈ data_packets A_SYNC reads, p.msg.command ≠ A_SYNC := by
  induction reads with
  | nil => intro p hp; simp [data_packets] at hp
  | cons r rest ih =>
    intro p hp
    rw [data_packets] at hp
    cases hr : r.packet with
    | none => rw [hr] at hp; exact ih p hp
    | some q =>
      rw [hr] at hp
      simp only at hp
      by_cases hc : q.msg.command = A_SYNC
      · rw [if_pos hc] at hp; exact ih p hp
      · rw [if_neg hc] at hp
        rcases List.mem_cons.mp hp with h | h
        · rw [h]; exact hc
        · exact ih p h

theorem reads_in_loop_append (A_SYNC : Nat) (reads more : List pump_read) (r : pump_read)
    (h : r ∈ reads_in_loop A_SYNC reads) : r ∈ reads_in_loop A_SYNC (reads ++ more) := by
  induction reads with
  | nil => simp [reads_in_loop] at h
  | cons a rest ih =>
    unfold reads_in_loop at h ih ⊢
    rw [List.cons_append]
    by_cases he : ends_loop A_SYNC a = true
    · rw [List.takeWhile_cons_of_neg (by simp [he])] at h
      simp at h
    · rw [List.takeWhile_cons_of_pos (by simpa using he)] at h ⊢
      rcases List.mem_cons.mp h with h1 | h1
      · rw [h1]; exact List.mem_cons_self _ _
      · exact List.mem_cons_of_mem _ (ih h1)

theorem input_loop_after_exit (A_SYNC : Nat) (reads more : List pump_read) :
    ∀ st : input_state, reads.any (ends_loop A_SYNC) = true →
      input_loop A_SYNC (reads ++ more) st = input_loop A_SYNC reads st := by
  induction reads with
  | nil => intro st h; simp at h
  | cons r rest ih =>
    intro st h
    rw [List.cons_append, input_loop, input_loop]
    cases hp : r.packet with
    | none => rfl
    | some p =>
      simp only
      by_cases hc : p.msg.command = A_SYNC
      · by_cases ha : p.msg.arg0 = 0
        · simp [hc, ha]
        · have hrest : rest.any (ends_loop A_SYNC) = true := by
            simpa [ends_loop, hp, hc, ha] using h
          simp only [hc, ha, if_true, if_false]
          rw [ih _ hrest]
      · have hrest : rest.any (ends_loop A_SYNC) = true := by
          simpa [ends_loop, hp, hc] using h
        simp only [hc, if_false]
        rw [ih _ hrest]

/-- C27 as stated fails: a SYNC packet with `arg0 = 2` that carries the current
token makes the pump active although no packet with `arg0 = 1` was read. -/
theorem input_pump_counterexample :
    ¬ (∀ (A_SYNC : Nat) (reads : List pump_read),
        (input_loop A_SYNC reads input_start).active ≠ 0 →
        ∃ r ∈ reads, ∃ p : apacket, r.packet = some p ∧ p.msg.command = A_SYNC ∧
          p.msg.arg0 = 1 ∧ p.msg.arg1 = r.sync_token) := by
  intro h
  obtain ⟨r, hr, p, hp, _, h1, _⟩ :=
    h 0x434e5953 [{ packet := some sync_two_5, sync_token := 5 }] (by decide)
  simp only [List.mem_singleton] at hr
  subst hr
  cases hp
  revert h1
  decide

/-- C27, amended: the input pump becomes active exactly when it receives, before
its loop ends, a SYNC packet whose `arg0` is not 0 and whose `arg1` is the
current `sync_token`, and it stays active from then on; the loop ends at the
first SYNC packet with `arg0 = 0`, whatever its `arg1`, or at the first failed
read; the packets passed to `write_to_remote` are, in order, the packets other
than SYNC packets that are received after the activating packet and before the
end of the loop. A SYNC packet is never forwarded. -/
theorem input_pump (A_SYNC : Nat) (reads : List pump_read) :
    ((input_loop A_SYNC reads input_start).active ≠ 0 ↔
      ∃ r ∈ reads_in_loop A_SYNC reads, activates A_SYNC r = true) ∧
    (∀ more : List pump_read, (input_loop A_SYNC reads input_start).active ≠ 0 →
      (input_loop A_SYNC (reads ++ more) input_start).active ≠ 0) ∧
    ((input_loop A_SYNC reads input_start).exited = true ↔
      ∃ r ∈ reads, ends_loop A_SYNC r = true) ∧
    (∀ more : List pump_read, (input_loop A_SYNC reads input_start).exited = true →
      input_loop A_SYNC (reads ++ more) input_start = input_loop A_SYNC reads input_start) ∧
    written (input_loop A_SYNC reads input_start).calls =
      data_packets A_SYNC
        ((reads_in_loop A_SYNC reads).dropWhile (fun r => !activates A_SYNC r)) ∧
    (∀ p ∈ written (input_loop A_SYNC reads input_start).calls, p.msg.command ≠ A_SYNC) := by
  have hB := input_loop_from_inactive A_SYNC reads false []
  have hw : written (input_loop A_SYNC reads input_start).calls =
      data_packets A_SYNC
        ((reads_in_loop A_SYNC reads).dropWhile (fun r => !activates A_SYNC r)) := by
    show written (input_loop A_SYNC reads ⟨0, false, []⟩).calls = _
    rw [hB.2]
    rfl
  refine ⟨hB.1, ?_, ?_, ?_, hw, ?_⟩
  · intro more h
    obtain ⟨r, hr, ha⟩ := hB.1.mp h
    exact (input_loop_from_inactive A_SYNC (reads ++ more) false []).1.mpr
      ⟨r, reads_in_loop_append A_SYNC reads more r hr, ha⟩
  · rw [input_loop_exited]
    simp [input_start]
  · intro more h
    rw [input_loop_exited] at h
    exact input_loop_after_exit A_SYNC reads more _ (by simpa [input_start] using h)
  · intro p hp
    rw [hw] at hp
    exact data_packets_not_sync A_SYNC _ p hp

/-! ## The output pump -/

theorem emitted_append (l1 l2 : List output_event) :
    emitted (l1 ++ l2) = emitted l1 ++ emitted l2 := by
  induction l1 with
  | nil => rfl
  | cons e rest ih =>
    cases e with
    | write_packet p ok => cases ok <;> simp [emitted, ih]
    | put_apacket p => simp [emitted, ih]

theorem output_loop_writes (get_apacket : Nat → apacket) (write_ok : Nat → Bool)
    (ps : List apacket) (rest : List (Option apacket)) :
    ∀ (k n : Nat) (calls : List output_event),
      (∀ i : Nat, i < ps.length → write_ok (n + i) = true) →
      output_loop get_apacket write_ok (ps.map some ++ rest) k n calls =
        output_loop get_apacket write_ok rest (k + ps.length) (n + ps.length)
          (calls ++ ps.map (fun q => output_event.write_packet q true)) := by
  induction ps with
  | nil => intro k n calls _; simp
  | cons q tl ih =>
    intro k n calls h
    have h0 : write_ok n = true := h 0 (by simp)
    rw [List.map_cons, List.cons_append, output_loop, if_pos h0,
      ih (k + 1) (n + 1) _ (fun i hi => by
        have := h (i + 1) (by simpa using hi)
        rwa [Nat.add_assoc, Nat.add_comm 1 i])]
    simp only [List.length_cons, List.map_cons, List.append_assoc, List.singleton_append]
    rw [Nat.add_assoc, Nat.add_comm 1 tl.length, Nat.add_assoc, Nat.add_comm 1 tl.length]

theorem emitted_writes (ps : List apacket) :
    emitted (ps.map (fun q => output_event.write_packet q true)) = ps := by
  induction ps with
  | nil => rfl
  | cons q tl ih => simp [emitted, ih]

theorem output_thread_all_written (A_SYNC t : Nat) (get_apacket : Nat → apacket)
    (write_ok : Nat → Bool) (ps : List apacket) (tail : List (Option apacket)) (w : world)
    (h : ∀ n : Nat, write_ok n = true) :
    output_thread A_SYNC t get_apacket write_ok (ps.map some ++ none :: tail) w =
      output_oops t (token_world t w)
        ([output_event.write_packet
            (sync_packet A_SYNC (get_apacket 0) 1 (((w.heap t).sync_token + 1) % 2 ^ 32)) true] ++
          ps.map (fun q => output_event.write_packet q true) ++
          [output_event.put_apacket (get_apacket (1 + ps.length))] ++
          [output_event.write_packet
            (sync_packet A_SYNC (get_apacket (1 + ps.length + 1)) 0 0) true]) := by
  unfold output_thread
  simp only [h, if_true]
  rw [output_loop_writes get_apacket write_ok ps (none :: tail) 1 1 _ (fun i _ => h _)]
  simp only [output_loop, h, if_true]
  rfl

theorem output_thread_write_failed (A_SYNC t : Nat) (get_apacket : Nat → apacket)
    (write_ok : Nat → Bool) (pre : List apacket) (q : apacket)
    (rest : List (Option apacket)) (w : world)
    (h0 : write_ok 0 = true)
    (hpre : ∀ i : Nat, i < pre.length → write_ok (1 + i) = true)
    (hq : write_ok (1 + pre.length) = false) :
    output_thread A_SYNC t get_apacket write_ok (pre.map some ++ some q :: rest) w =
      output_oops t (token_world t w)
        ([output_event.write_packet
            (sync_packet A_SYNC (get_apacket 0) 1 (((w.heap t).sync_token + 1) % 2 ^ 32)) true] ++
          pre.map (fun q => output_event.write_packet q true) ++
          [output_event.write_packet q false, output_event.put_apacket q]) := by
  unfold output_thread
  simp only [h0, if_true]
  rw [output_loop_writes get_apacket write_ok pre (some q :: rest) 1 1 _ hpre]
  simp only [output_loop, hq, Bool.false_eq_true, if_false]
  rfl

/-- C28: when `read_from_remote` succeeds with the packets `p1, ..., pk` and then
fails, and every write to the relay channel succeeds, the output pump adds one to
`sync_token` (an `unsigned`, so modulo 2^32) and puts on the relay channel
SYNC(1, the new token), `p1, ..., pk`, SYNC(0, 0), in this order, both SYNC packets
with `magic = A_SYNC XOR 0xFFFFFFFF`; it then kicks the transport and releases
one reference. When the write of the first SYNC packet or of some `pi` fails,
nothing more is put on the channel, and the pump still kicks and releases one
reference. -/
theorem output_pump (A_SYNC t : Nat) (get_apacket : Nat → apacket) (write_ok : Nat → Bool)
    (ps : List apacket) (tail : List (Option apacket)) (w : world) :
    ((∀ n : Nat, write_ok n = true) →
      emitted (output_thread A_SYNC t get_apacket write_ok
          (ps.map some ++ none :: tail) w).calls =
        [sync_packet A_SYNC (get_apacket 0) 1 (((w.heap t).sync_token + 1) % 2 ^ 32)] ++ ps ++
          [sync_packet A_SYNC (get_apacket (1 + ps.length + 1)) 0 0] ∧
      (output_thread A_SYNC t get_apacket write_ok (ps.map some ++ none :: tail) w).after =
        transport_unref (some t) (kick_transport (some t) (token_world t w)) ∧
      (output_thread A_SYNC t get_apacket write_ok
          (ps.map some ++ none :: tail) w).returned = true) ∧
    (∀ j : Nat, j ≤ ps.length → (∀ i : Nat, i < j → write_ok i = true) →
      write_ok j = false →
      emitted (output_thread A_SYNC t get_apacket write_ok
          (ps.map some ++ none :: tail) w).calls =
        ([sync_packet A_SYNC (get_apacket 0) 1 (((w.heap t).sync_token + 1) % 2 ^ 32)] ++
          ps).take j ∧
      (output_thread A_SYNC t get_apacket write_ok (ps.map some ++ none :: tail) w).after =
        transport_unref (some t) (kick_transport (some t) (token_world t w)) ∧
      (output_thread A_SYNC t get_apacket write_ok
          (ps.map some ++ none :: tail) w).returned = true) ∧
    ((token_world t w).heap t).sync_token = ((w.heap t).sync_token + 1) % 2 ^ 32 ∧
    ((w.heap t).sync_token + 1 < 2 ^ 32 →
      ((token_world t w).heap t).sync_token = (w.heap t).sync_token + 1) ∧
    ((transport_unref (some t) (kick_transport (some t) (token_world t w))).heap t).ref_count =
      (w.heap t).ref_count - 1 ∧
    (∀ (p : apacket) (arg0 arg1 : Nat),
      (sync_packet A_SYNC p arg0 arg1).msg.command = A_SYNC ∧
      (sync_packet A_SYNC p arg0 arg1).msg.arg0 = arg0 ∧
      (sync_packet A_SYNC p arg0 arg1).msg.arg1 = arg1 ∧
      (sync_packet A_SYNC p arg0 arg1).msg.magic = A_SYNC ^^^ 0xffffffff) := by
  have htok : ((token_world t w).heap t).sync_token = ((w.heap t).sync_token + 1) % 2 ^ 32 := by
    simp [token_world]
  refine ⟨?_, ?_, htok, ?_, ?_, ?_⟩
  · intro h
    rw [output_thread_all_written A_SYNC t get_apacket write_ok ps tail w h]
    refine ⟨?_, rfl, rfl⟩
    simp [output_oops, emitted_append, emitted_writes, emitted]
  · intro j hj hpre hfail
    cases j with
    | zero =>
      refine ⟨?_, ?_, ?_⟩ <;>
        (unfold output_thread; simp only [hfail, Bool.false_eq_true, if_false])
      · simp [output_oops, emitted]
      · rfl
      · rfl
    | succ j1 =>
      have hlt : j1 < ps.length := hj
      have hsplit : ps = ps.take j1 ++ ps[j1] :: ps.drop (j1 + 1) := by
        rw [← List.drop_eq_getElem_cons hlt, List.take_append_drop]
      have hlen : (ps.take j1).length = j1 := by
        rw [List.length_take]; omega
      obtain ⟨pre, q, post, hps, hprelen⟩ :
          ∃ (pre : List apacket) (q : apacket) (post : List apacket),
            ps = pre ++ q :: post ∧ pre.length = j1 :=
        ⟨ps.take j1, ps[j1], ps.drop (j1 + 1), hsplit, hlen⟩
      subst hps
      subst hprelen
      have hrem : (pre ++ q :: post).map some ++ none :: tail =
          pre.map some ++ some q :: (post.map some ++ none :: tail) := by
        simp
      rw [hrem, output_thread_write_failed A_SYNC t get_apacket write_ok pre q _ w
        (hpre 0 (by omega))
        (fun i hi => by rw [Nat.add_comm]; exact hpre (i + 1) (by omega))
        (by rw [Nat.add_comm]; exact hfail)]
      refine ⟨?_, rfl, rfl⟩
      simp [output_oops, emitted_append, emitted_writes, emitted]
  · intro h
    rw [htok, Nat.mod_eq_of_lt h]
  · rw [transport_unref_ref_count, kick_transport_ref_count]
    simp [token_world]
  · intro p arg0 arg1
    exact ⟨rfl, rfl, rfl, rfl⟩

/-! ## File system configuration -/

theorem strncmp_zero_take (n : Nat) :
    ∀ a b : List Char, n ≤ a.length → strncmp_zero a b n = (a.take n).isPrefixOf b := by
  induction n with
  | zero => intro a b _; simp [strncmp_zero, List.isPrefixOf]
  | succ n ih =>
    intro a b h
    cases a with
    | nil => simp at h
    | cons x a1 =>
      cases b with
      | nil => simp [strncmp_zero, List.isPrefixOf]
      | cons y b1 =>
        have h1 : n ≤ a1.length := by simpa using h
        by_cases hxy : x = y
        · simp [strncmp_zero, List.isPrefixOf, hxy, ih a1 b1 h1]
        · simp [strncmp_zero, List.isPrefixOf, hxy]

theorem strncmp_zero_whole (a b : List Char) :
    strncmp_zero a b a.length = a.isPrefixOf b := by
  rw [strncmp_zero_take a.length a b (Nat.le_refl _), List.take_length]

theorem rule_matches_code (dir : Int) (path pre : String) :
    rule_matches dir path pre =
      if dir ≠ 0 then
        (if path.length < pre.length then false
         else strncmp_zero pre.data path.data pre.length)
      else if pre.data.getLast? = some '*' then
        strncmp_zero pre.data path.data (pre.length - 1)
      else if path.length = pre.length then strncmp_zero pre.data path.data pre.length
      else false := by
  unfold rule_matches
  have hlen : pre.length = pre.data.length := rfl
  have hplen : path.length = path.data.length := rfl
  simp only [hlen, hplen]
  by_cases hd : dir = 0
  · simp only [hd, ne_eq, not_true_eq_false, if_false]
    by_cases hs : pre.data.getLast? = some '*'
    · simp only [hs, if_true]
      rw [strncmp_zero_take _ _ _ (Nat.sub_le _ _), List.dropLast_eq_take]
    · simp only [hs, if_false]
      rw [strncmp_zero_whole]
      by_cases hl : path.data.length = pre.data.length
      · simp only [hl, if_true]
        by_cases hp : pre.data.isPrefixOf path.data = true
        · have heq : pre.data = path.data :=
            (List.isPrefixOf_iff_prefix.mp hp).eq_of_length (by omega)
          have : path = pre := String.ext heq.symm
          simp [hp, this]
        · have hne : ¬ path = pre := by
            intro e
            subst e
            exact hp (List.isPrefixOf_iff_prefix.mpr (List.prefix_refl _))
          simp [hp, hne]
      · have hne : ¬ path = pre := by
          intro e
          subst e
          exact hl rfl
        simp only [hl, if_false, hne, decide_False]
  · simp only [hd, ne_eq, not_false_eq_true, if_true]
    rw [strncmp_zero_whole]
    by_cases hlt : path.data.length < pre.data.length
    · simp only [hlt, if_true]
      cases hp : pre.data.isPrefixOf path.data with
      | false => rfl
      | true =>
        have := (List.isPrefixOf_iff_prefix.mp hp).length_le
        omega
    · simp only [hlt, if_false]

theorem fs_config_loop_cons (dir : Int) (path pre : String) (pc : fs_path_config)
    (rest : List fs_path_config) (h : pc.pfx = some pre) :
    fs_config_loop dir path path.length (pc :: rest) =
      if rule_matches dir path pre = true then some pc
      else fs_config_loop dir path path.length rest := by
  rw [fs_config_loop, h, rule_matches_code]
  simp only
  by_cases hd : dir = 0
  · simp only [hd, ne_eq, not_true_eq_false, if_false]
    by_cases hs : pre.data.getLast? = some '*'
    · simp only [hs, if_true]
    · simp only [hs, if_false]
      by_cases hl : path.length = pre.length
      · simp only [hl, if_true]
      · simp [hl]
  · simp only [hd, ne_eq, not_false_eq_true, if_true]
    by_cases hlt : path.length < pre.length
    · simp [hlt]
    · simp only [hlt, if_false]

theorem fs_config_loop_first (dir : Int) (path : String) (rules : List fs_path_config)
    (d : fs_path_config) (hr : ∀ pc ∈ rules, pc.pfx ≠ none) (hd : d.pfx = none) :
    fs_config_loop dir path path.length (rules ++ [d]) =
      first_match dir path (rules ++ [d]) := by
  unfold first_match
  rw [List.dropLast_concat, List.getLast?_concat]
  induction rules with
  | nil => simp [fs_config_loop, hd]
  | cons pc rest ih =>
    have hpc := hr pc (List.mem_cons_self _ _)
    cases hp : pc.pfx with
    | none => exact absurd hp hpc
    | some pre =>
      rw [List.cons_append, fs_config_loop_cons dir path pre pc _ hp, List.find?_cons]
      by_cases hm : rule_matches dir path pre = true
      · simp [hp, hm]
      · simp only [hm, if_false]
        rw [ih (fun x hx => hr x (List.mem_cons_of_mem _ hx))]
        simp [hp, hm]

theorem android_dirs_shape (c : android_filesystem_config) :
    android_dirs c = (android_dirs c).dropLast ++
        [{ mode := 0o755, uid := c.AID_ROOT, gid := c.AID_ROOT, capabilities := 0,
           pfx := none }] ∧
    (∀ pc ∈ (android_dirs c).dropLast, pc.pfx ≠ none) ∧
    (∀ pc ∈ android_dirs c, pc.mode < 4096) := by
  refine ⟨rfl, ?_, ?_⟩
  · intro pc hpc
    simp only [android_dirs, List.dropLast, List.mem_cons, List.mem_singleton,
      List.not_mem_nil, or_false] at hpc
    rcases hpc with h | h | h | h | h | h | h | h | h | h | h | h | h | h | h | h | h | h | h | h
      <;> rw [h] <;> simp
  · intro pc hpc
    simp only [android_dirs, List.mem_cons, List.mem_singleton, List.not_mem_nil,
      or_false] at hpc
    rcases hpc with
      h | h | h | h | h | h | h | h | h | h | h | h | h | h | h | h | h | h | h | h | h
      <;> rw [h] <;> simp

theorem android_files_shape (c : android_filesystem_config) :
    android_files c = (android_files c).dropLast ++
        [{ mode := 0o644, uid := c.AID_ROOT, gid := c.AID_ROOT, capabilities := 0,
           pfx := none }] ∧
    (∀ pc ∈ (android_files c).dropLast, pc.pfx ≠ none) ∧
    (∀ pc ∈ android_files c, pc.mode < 4096) := by
  have h1 : ((android_files c).dropLast.map (fun pc => pc.pfx)).all
      (fun x => x.isSome) = true := rfl
  have h2 : ((android_files c).map (fun pc => pc.mode)).all
      (fun x => decide (x < 4096)) = true := rfl
  refine ⟨rfl, ?_, ?_⟩
  · intro pc hpc
    rw [List.all_eq_true] at h1
    have := h1 pc.pfx (List.mem_map.mpr ⟨pc, hpc, rfl⟩)
    intro hn
    rw [hn] at this
    simp at this
  · intro pc hpc
    rw [List.all_eq_true] at h2
    have := h2 pc.mode (List.mem_map.mpr ⟨pc, hpc, rfl⟩)
    simpa using this

theorem mode_bits (mode r : Nat) (hr : r < 4096) :
    (∀ i : Nat, i < 12 → ((mode &&& 0xfffff000) ||| r).testBit i = r.testBit i) ∧
    (∀ i : Nat, 12 ≤ i → i < 32 →
      ((mode &&& 0xfffff000) ||| r).testBit i = mode.testBit i) := by
  constructor
  · intro i hi
    have hm : (0xfffff000 : Nat).testBit i = false := by
      interval_cases i <;> rfl
    rw [Nat.testBit_or, Nat.testBit_and, hm]
    simp
  · intro i h1 h2
    have hm : (0xfffff000 : Nat).testBit i = true := by
      interval_cases i <;> rfl
    have h12 : (2 : Nat) ^ 12 ≤ 2 ^ i := Nat.pow_le_pow_right (by norm_num) h1
    have hr12 : r < 2 ^ 12 := by norm_num; exact hr
    have hrb : r.testBit i = false :=
      Nat.testBit_lt_two_pow (Nat.lt_of_lt_of_le hr12 h12)
    rw [Nat.testBit_or, Nat.testBit_and, hm, hrb]
    simp

theorem first_match_mem (dir : Int) (path : String) (table : List fs_path_config)
    (pc : fs_path_config) (h : first_match dir path table = some pc) : pc ∈ table := by
  unfold first_match at h
  split at h
  · rename_i x hx
    simp only [Option.some.injEq] at h
    subst h
    exact List.dropLast_subset _ (List.mem_of_find?_eq_some hx)
  · exact List.mem_of_getLast?_eq_some h

theorem first_match_some (dir : Int) (path : String) (rules : List fs_path_config)
    (d : fs_path_config) :
    ∃ pc : fs_path_config, first_match dir path (rules ++ [d]) = some pc := by
  unfold first_match
  rw [List.dropLast_concat, List.getLast?_concat]
  split
  · exact ⟨_, rfl⟩
  · exact ⟨d, rfl⟩

/-- C25: for every path and every `dir` flag, `fs_config` gives the uid, gid and
capabilities of the first rule that matches the path, one leading '/' taken off,
in `android_dirs` when `dir` is set and in `android_files` otherwise, and of the
last entry of the table when no rule matches; a directory rule matches when its
text is the start of the path, a file rule that ends in '*' when its text without
the '*' is the start of the path, any other file rule when the path is its text.
The low 12 bits of `*mode` become the mode of the rule and the other bits of
`*mode` stay as they are. -/
theorem fs_config_first_match (c : android_filesystem_config) (path : String) (dir : Int)
    (mode : Nat) :
    ∃ pc : fs_path_config,
      first_match dir (strip_slash path)
        (if dir ≠ 0 then android_dirs c else android_files c) = some pc ∧
      fs_config c path dir mode =
        some { uid := pc.uid, gid := pc.gid, mode := (mode &&& 0xfffff000) ||| pc.mode,
               capabilities := pc.capabilities } ∧
      (∀ i : Nat, i < 12 →
        ((mode &&& 0xfffff000) ||| pc.mode).testBit i = pc.mode.testBit i) ∧
      (∀ i : Nat, 12 ≤ i → i < 32 →
        ((mode &&& 0xfffff000) ||| pc.mode).testBit i = mode.testBit i) := by
  have hshape : ∃ (rules : List fs_path_config) (d : fs_path_config),
      (if dir ≠ 0 then android_dirs c else android_files c) = rules ++ [d] ∧
      (∀ pc ∈ rules, pc.pfx ≠ none) ∧ d.pfx = none ∧
      (∀ pc ∈ (if dir ≠ 0 then android_dirs c else android_files c), pc.mode < 4096) := by
    by_cases hd : dir = 0
    · simp only [hd, ne_eq, not_true_eq_false, if_false]
      exact ⟨_, _, (android_files_shape c).1, (android_files_shape c).2.1, rfl,
        (android_files_shape c).2.2⟩
    · simp only [hd, ne_eq, not_false_eq_true, if_true]
      exact ⟨_, _, (android_dirs_shape c).1, (android_dirs_shape c).2.1, rfl,
        (android_dirs_shape c).2.2⟩
  obtain ⟨rules, d, htab, hr, hd, hmode⟩ := hshape
  obtain ⟨pc, hpc⟩ := first_match_some dir (strip_slash path) rules d
  have hloop : fs_config_loop dir (strip_slash path) (strip_slash path).length
      (if dir ≠ 0 then android_dirs c else android_files c) = some pc := by
    rw [htab, fs_config_loop_first dir _ rules d hr hd, hpc]
  have hmem : pc ∈ (if dir ≠ 0 then android_dirs c else android_files c) := by
    rw [htab]
    exact first_match_mem dir _ _ pc hpc
  refine ⟨pc, by rw [htab]; exact hpc, ?_, (mode_bits mode pc.mode (hmode pc hmem)).1,
    (mode_bits mode pc.mode (hmode pc hmem)).2⟩
  show (match fs_config_loop dir (strip_slash path) (strip_slash path).length
      (if dir ≠ 0 then android_dirs c else android_files c) with
    | none => none
    | some pc =>
      some ({ uid := pc.uid, gid := pc.gid, mode := (mode &&& 0xfffff000) ||| pc.mode,
              capabilities := pc.capabilities } : fs_config_result)) = _
  rw [hloop]

/-- C26 does not hold of the table: the rule "data/misc" stands before the rule
"data/misc/dhcp", of whose text it is the start, so `fs_config` called with the
directory path "data/misc/dhcp" gives mode 01771, uid `AID_SYSTEM` and gid
`AID_MISC`, those of "data/misc", and not the mode 00770, uid `AID_DHCP` and gid
`AID_DHCP` of the rule "data/misc/dhcp". -/
theorem android_dirs_shadowed (c : android_filesystem_config) :
    (android_dirs c)[7]? =
      some { mode := 0o1771, uid := c.AID_SYSTEM, gid := c.AID_MISC, capabilities := 0,
             pfx := some "data/misc" } ∧
    (android_dirs c)[8]? =
      some { mode := 0o770, uid := c.AID_DHCP, gid := c.AID_DHCP, capabilities := 0,
             pfx := some "data/misc/dhcp" } ∧
    "data/misc".data.isPrefixOf "data/misc/dhcp".data = true ∧
    fs_config c "data/misc/dhcp" 1 0 =
      some { uid := c.AID_SYSTEM, gid := c.AID_MISC, mode := 0o1771, capabilities := 0 } ∧
    fs_config c "data/misc/shared_relro" 1 0 =
      some { uid := c.AID_SYSTEM, gid := c.AID_MISC, mode := 0o1771, capabilities := 0 } := by
  refine ⟨rfl, rfl, rfl, ?_, ?_⟩ <;> with_unfolding_all rfl

end Adb
